import Mathlib

/-!
# dns-monitor: a shallow embedding of the change-detection monitor

The Go program resolves DNS records for a list of domains on every tick,
compares each answer with the record stored for the same (domain, type) key
and reports initial / unchanged / changed / error lines.

Conventions of the embedding:

* Go strings are Lean `String`s, Go slices of strings are `List String`.
* A Go `error` built by `fmt.Errorf` inside `dns.go` is represented by its
  message text; errors of `config.go` are values of `GoError`.
* A runtime panic (index out of range) is the `none` of an `Option`.
* `time.Duration` is an `Int` number of nanoseconds, wrapped to 64 bits.
* The platform resolver and the two standard-library functions whose result
  depends on Unicode tables (`strings.ToUpper`, `net.IP.String`) are fields
  of `Env`.
-/

set_option autoImplicit false

namespace DnsMonitor

deriving instance DecidableEq for Except

/-! ## dns.go: records -/

/-- The Go struct `DNSRecord` of `dns.go`; the field `Type` is spelled `Typ`
because `Type` is reserved. -/
structure DNSRecord where
  Domain : String
  Typ : String
  Values : List String
  deriving DecidableEq, Repr

/-- The `for i, v := range r.Values` loop of `Equals`: `i` is the index of the
head of the remaining values of `r`; `other.Values[i]` is a checked index, an
index out of range is the runtime panic `none`. -/
def equalsLoop (otherValues : List String) : Nat → List String → Option Bool
  | _, [] => some true
  | i, v :: rest =>
    match otherValues[i]? with
    | none => none
    | some w => if v != w then some false else equalsLoop otherValues (i + 1) rest

/-- The method `(r *DNSRecord) Equals(other *DNSRecord) bool` of `dns.go`;
`none` is a panic. -/
def DNSRecord.Equals (r other : DNSRecord) : Option Bool :=
  if r.Domain != other.Domain || r.Typ != other.Typ then some false
  else if r.Values.length != other.Values.length then some false
  else equalsLoop other.Values 0 r.Values

/-- The method `(r *DNSRecord) String() string`:
`fmt.Sprintf("[%s]", strings.Join(r.Values, ", "))`. -/
def DNSRecord.String (r : DNSRecord) : String :=
  "[" ++ ", ".intercalate r.Values ++ "]"

/-! ## Standard-library string functions used by the program -/

/-- Go `strings.HasPrefix`. -/
def hasPrefix (s pre : String) : Bool := pre.data.isPrefixOf s.data

/-- Go `strings.HasSuffix`. -/
def hasSuffix (s suf : String) : Bool := suf.data.isSuffixOf s.data

/-- Go `s[:len(s)-1]` for a string that ends in a one-byte character. -/
def dropLast (s : String) : String := ⟨s.data.dropLast⟩

/-- Go `strings.TrimSuffix`. -/
def trimSuffix (s suf : String) : String :=
  if hasSuffix s suf then ⟨s.data.take (s.data.length - suf.data.length)⟩ else s

/-- Go `strings.Contains`: some tail of `s` starts with `sub`. -/
def stringsContains (s sub : String) : Bool :=
  s.data.tails.any (fun t => sub.data.isPrefixOf t)

/-- Go `sort.Strings`: the ascending rearrangement of the slice. Go compares
strings bytewise, which on UTF-8 text is the lexicographic order of the
sequences of code points. -/
def sortStrings (l : List String) : List String :=
  l.insertionSort (fun a b => a.data ≤ b.data)

/-! ## dns.go: the resolver adapter -/

/-- A `net.IP`: a byte slice. -/
structure IP where
  bytes : List Nat
  deriving DecidableEq, Repr

/-- Go `net.IP.To4`: the 4-byte form of an IPv4 address, `none` for nil. -/
def IP.To4 (ip : IP) : Option (List Nat) :=
  if ip.bytes.length = 4 then some ip.bytes
  else if ip.bytes.length = 16 ∧ (ip.bytes.take 10).all (fun b => b == 0)
      ∧ ip.bytes.get? 10 = some 255 ∧ ip.bytes.get? 11 = some 255 then
    some (ip.bytes.drop 12)
  else none

/-- Go `net.IP.To16`: the 16-byte form of an address, `none` for nil. -/
def IP.To16 (ip : IP) : Option (List Nat) :=
  if ip.bytes.length = 4 then some ([0, 0, 0, 0, 0, 0, 0, 0, 0, 0, 255, 255] ++ ip.bytes)
  else if ip.bytes.length = 16 then some ip.bytes
  else none

/-- A `*net.MX`: host name and 16-bit preference. -/
structure MX where
  Host : String
  Pref : Nat
  deriving DecidableEq, Repr

/-- What the program takes from outside: the platform resolver (`net.LookupIP`,
`net.LookupCNAME`, `net.LookupMX`, `net.LookupTXT`; a failure carries the text
of the error) and the two library functions that depend on Unicode tables or on
the textual form of addresses. -/
structure Env where
  LookupIP : String → Except String (List IP)
  LookupCNAME : String → Except String String
  LookupMX : String → Except String (List MX)
  LookupTXT : String → Except String (List String)
  ipString : IP → String
  ToUpper : String → String

/-- The method `queryA` of `dns.go`. -/
def queryA (env : Env) (domain : String) : Except String DNSRecord :=
  match env.LookupIP domain with
  | .error err => .error ("failed to lookup A record for " ++ domain ++ ": " ++ err)
  | .ok ips =>
    let ipv4s := (ips.filter (fun ip => ip.To4.isSome)).map env.ipString
    if ipv4s.length = 0 then .error ("no A records found for " ++ domain)
    else .ok { Domain := domain, Typ := "A", Values := sortStrings ipv4s }

/-- The method `queryAAAA` of `dns.go`. -/
def queryAAAA (env : Env) (domain : String) : Except String DNSRecord :=
  match env.LookupIP domain with
  | .error err => .error ("failed to lookup AAAA record for " ++ domain ++ ": " ++ err)
  | .ok ips =>
    let ipv6s := (ips.filter (fun ip => ip.To4.isNone && ip.To16.isSome)).map env.ipString
    if ipv6s.length = 0 then .error ("no AAAA records found for " ++ domain)
    else .ok { Domain := domain, Typ := "AAAA", Values := sortStrings ipv6s }

/-- The method `queryCNAME` of `dns.go`. -/
def queryCNAME (env : Env) (domain : String) : Except String DNSRecord :=
  match env.LookupCNAME domain with
  | .error err => .error ("failed to lookup CNAME record for " ++ domain ++ ": " ++ err)
  | .ok cname => .ok { Domain := domain, Typ := "CNAME", Values := [trimSuffix cname "."] }

/-- The value `fmt.Sprintf("%d %s", mx.Pref, strings.TrimSuffix(mx.Host, "."))`
built by `queryMX` for one answer. -/
def mxValue (mx : MX) : String :=
  toString mx.Pref ++ " " ++ trimSuffix mx.Host "."

/-- The method `queryMX` of `dns.go`. -/
def queryMX (env : Env) (domain : String) : Except String DNSRecord :=
  match env.LookupMX domain with
  | .error err => .error ("failed to lookup MX record for " ++ domain ++ ": " ++ err)
  | .ok mxRecords =>
    .ok { Domain := domain, Typ := "MX", Values := sortStrings (mxRecords.map mxValue) }

/-- The method `queryTXT` of `dns.go`. -/
def queryTXT (env : Env) (domain : String) : Except String DNSRecord :=
  match env.LookupTXT domain with
  | .error err => .error ("failed to lookup TXT record for " ++ domain ++ ": " ++ err)
  | .ok txtRecords =>
    if txtRecords.length = 0 then .error ("no TXT records found for " ++ domain)
    else .ok { Domain := domain, Typ := "TXT", Values := sortStrings txtRecords }

/-- The method `Query` of `dns.go`: dispatch on the upper-cased record type.
The client's `servers` and `timeout` fields are read by none of the query
methods, so the client itself is not an argument. -/
def Query (env : Env) (domain recordType : String) : Except String DNSRecord :=
  let t := env.ToUpper recordType
  if t = "A" then queryA env domain
  else if t = "AAAA" then queryAAAA env domain
  else if t = "CNAME" then queryCNAME env domain
  else if t = "MX" then queryMX env domain
  else if t = "TXT" then queryTXT env domain
  else .error ("unsupported record type: " ++ recordType)

/-- The Go struct `DNSClient` of `dns.go`; `timeout` is a `time.Duration`. -/
structure DNSClient where
  servers : List String
  timeout : Int
  deriving DecidableEq, Repr

/-- The function `NewDNSClient` of `dns.go`. -/
def NewDNSClient (servers : List String) (timeout : Int) : DNSClient :=
  let servers := if servers.length = 0 then ["8.8.8.8:53"] else servers
  { servers := servers, timeout := timeout }

/-- The method `Query` with its receiver `c`. In dns.go 32-148 the receiver is
named only to call `c.queryA` .. `c.queryTXT`; none of these bodies reads
`c.servers` or `c.timeout`, and `net.LookupIP` .. `net.LookupTXT` are functions of
the package `net` that take the host name only. -/
def DNSClient.Query (_c : DNSClient) (env : Env) (domain recordType : String) :
    Except String DNSRecord :=
  let t := env.ToUpper recordType
  if t = "A" then queryA env domain
  else if t = "AAAA" then queryAAAA env domain
  else if t = "CNAME" then queryCNAME env domain
  else if t = "MX" then queryMX env domain
  else if t = "TXT" then queryTXT env domain
  else .error ("unsupported record type: " ++ recordType)

/-- One call of the platform resolver: the function called and the host name
given to it. -/
inductive Lookup where
  | ip (host : String)
  | cname (host : String)
  | mx (host : String)
  | txt (host : String)
  deriving DecidableEq, Repr

/-- The calls of the platform resolver that `Query` makes, in order: each of
`queryA` .. `queryTXT` starts with one `net.Lookup*` call on the domain and
makes no other; the `default` branch of the switch makes none. -/
def queryLookups (env : Env) (domain recordType : String) : List Lookup :=
  let t := env.ToUpper recordType
  if t = "A" then [.ip domain]
  else if t = "AAAA" then [.ip domain]
  else if t = "CNAME" then [.cname domain]
  else if t = "MX" then [.mx domain]
  else if t = "TXT" then [.txt domain]
  else []

/-! ## config.go: the configuration record -/

/-- The Go struct `Config` of `config.go`; `Interval` is a `time.Duration`,
a count of nanoseconds. -/
structure Config where
  Domains : List String := []
  RecordType : String := ""
  Interval : Int := 0
  Servers : List String := []
  AllServers : Bool := false
  UntilChange : Bool := false
  OutputFile : String := ""
  NoColor : Bool := false
  ShowHelp : Bool := false
  ShowVersion : Bool := false
  deriving DecidableEq, Repr

/-! ## config.go: durations and arguments -/

/-- The two causes of a `*strconv.NumError`: `strconv.ErrSyntax` and
`strconv.ErrRange`. -/
inductive NumErrKind where
  | ErrSyntax
  | ErrRange
  deriving DecidableEq, Repr

/-- The `error` values of `config.go`: an error made by `fmt.Errorf` from
strings only is its text; `numError` is the `*strconv.NumError` of `Atoi`
(function name, offending input, cause); `errorfV pre cause` is
`fmt.Errorf(pre + "%v", cause)`. -/
inductive GoError where
  | text (msg : String)
  | numError (fn num : String) (cause : NumErrKind)
  | errorfV (pre : String) (cause : GoError)
  deriving DecidableEq, Repr

/-- The test `'0' <= c && c <= '9'` of `strconv`. -/
def isDigit (c : Char) : Bool := decide ('0' ≤ c) && decide (c ≤ '9')

/-- The digit loop of `strconv.ParseUint(s, 10, 64)`: `n` is the value read so
far. A character that is not a decimal digit is a syntax error; a value that
leaves 64 bits is a range error, reported where it first happens. -/
def parseUintLoop : Nat → List Char → Except NumErrKind Nat
  | n, [] => .ok n
  | n, c :: cs =>
    if !isDigit c then .error .ErrSyntax
    else if n ≥ (2 ^ 64 - 1) / 10 + 1 then .error .ErrRange
    else if n * 10 + (c.toNat - '0'.toNat) > 2 ^ 64 - 1 then .error .ErrRange
    else parseUintLoop (n * 10 + (c.toNat - '0'.toNat)) cs

/-- Go `strconv.Atoi` where `int` has 64 bits: an optional sign, then one or
more decimal digits, the value within the range of `int64`. -/
def Atoi (s : String) : Except GoError Int :=
  let neg := s.data.head? == some '-'
  let digits := if s.data.head? == some '-' || s.data.head? == some '+' then s.data.tail
    else s.data
  if digits.isEmpty then .error (.numError "Atoi" s .ErrSyntax)
  else
    match parseUintLoop 0 digits with
    | .error cause => .error (.numError "Atoi" s cause)
    | .ok un =>
      if !neg && un ≥ 2 ^ 63 then .error (.numError "Atoi" s .ErrRange)
      else if neg && un > 2 ^ 63 then .error (.numError "Atoi" s .ErrRange)
      else .ok (if neg then -(un : Int) else (un : Int))

/-- The wrap-around of 64-bit signed arithmetic. -/
def wrap64 (x : Int) : Int := (x + 2 ^ 63) % 2 ^ 64 - 2 ^ 63

/-- Go `time.Second`, `time.Minute`, `time.Hour`, in nanoseconds. -/
def Second : Int := 1000000000
def Minute : Int := 60 * Second
def Hour : Int := 60 * Minute

/-- The function `parseDuration` of `config.go`. -/
def parseDuration (s : String) : Except GoError Int :=
  if hasSuffix s "s" then
    match Atoi (dropLast s) with
    | .error err => .error err
    | .ok seconds => .ok (wrap64 (seconds * Second))
  else if hasSuffix s "m" then
    match Atoi (dropLast s) with
    | .error err => .error err
    | .ok minutes => .ok (wrap64 (minutes * Minute))
  else if hasSuffix s "h" then
    match Atoi (dropLast s) with
    | .error err => .error err
    | .ok hours => .ok (wrap64 (hours * Hour))
  else
    match Atoi s with
    | .error _ =>
      .error (.text ("invalid duration format: " ++ s ++ " (use formats like 5s, 2m, 1h)"))
    | .ok seconds => .ok (wrap64 (seconds * Second))

/-- The function `isValidRecordType` of `config.go`. -/
def isValidRecordType (recordType : String) : Bool :=
  ["A", "AAAA", "CNAME", "MX", "TXT"].any (fun t => t == recordType)

/-- How the `for i < len(args)` loop of `ParseArgs` ends: by a `return` inside
the loop, or by running off the end of the arguments. -/
inductive LoopExit where
  | returned (result : Except GoError Config)
  | done (config : Config)

/-- The `for i < len(args)` loop of `ParseArgs`; the list is `args[i:]`. -/
def parseArgsLoop (toUpper : String → String) : Config → List String → LoopExit
  | config, [] => .done config
  | config, arg :: rest =>
    if arg = "-h" ∨ arg = "--help" then
      .returned (.ok { config with ShowHelp := true })
    else if arg = "-v" ∨ arg = "--version" then
      .returned (.ok { config with ShowVersion := true })
    else if arg = "-t" ∨ arg = "--type" then
      match rest with
      | [] => .returned (.error (.text ("option " ++ arg ++ " requires a value")))
      | value :: rest' =>
        parseArgsLoop toUpper { config with RecordType := toUpper value } rest'
    else if arg = "-i" ∨ arg = "--interval" then
      match rest with
      | [] => .returned (.error (.text ("option " ++ arg ++ " requires a value")))
      | value :: rest' =>
        match parseDuration value with
        | .error err => .returned (.error (.errorfV "invalid interval: " err))
        | .ok duration => parseArgsLoop toUpper { config with Interval := duration } rest'
    else if arg = "-s" ∨ arg = "--server" then
      match rest with
      | [] => .returned (.error (.text ("option " ++ arg ++ " requires a value")))
      | value :: rest' =>
        let server := if !stringsContains value ":" then value ++ ":53" else value
        parseArgsLoop toUpper { config with Servers := config.Servers ++ [server] } rest'
    else if arg = "--all-servers" then
      parseArgsLoop toUpper { config with AllServers := true } rest
    else if arg = "--until-change" then
      parseArgsLoop toUpper { config with UntilChange := true } rest
    else if arg = "-o" ∨ arg = "--output" then
      match rest with
      | [] => .returned (.error (.text ("option " ++ arg ++ " requires a value")))
      | value :: rest' => parseArgsLoop toUpper { config with OutputFile := value } rest'
    else if arg = "--no-color" then
      parseArgsLoop toUpper { config with NoColor := true } rest
    else if hasPrefix arg "-" then
      .returned (.error (.text ("unknown option: " ++ arg)))
    else
      .done { config with Domains := config.Domains ++ (arg :: rest) }

/-- The function `ParseArgs` of `config.go`; `toUpper` is `strings.ToUpper`. -/
def ParseArgs (toUpper : String → String) (args : List String) : Except GoError Config :=
  match parseArgsLoop toUpper
      { RecordType := "A", Interval := 5 * Second, Servers := [] } (args.drop 1) with
  | .returned result => result
  | .done config =>
    let config := if config.AllServers then
        { config with Servers := ["8.8.8.8:53", "1.1.1.1:53", "1.0.0.1:53"] }
      else config
    if config.Domains.length = 0 && !config.ShowHelp && !config.ShowVersion then
      .error (.text "at least one domain must be specified")
    else if !isValidRecordType config.RecordType then
      .error (.text ("unsupported record type: " ++ config.RecordType))
    else .ok config

/-! ## The words of the specification about intervals and servers -/

/-- An integer numeral: an optional sign `+` or `-`, then one or more decimal
digits. -/
def isIntegerNumeral (s : String) : Bool :=
  match s.data with
  | '-' :: ds => !ds.isEmpty && ds.all isDigit
  | '+' :: ds => !ds.isEmpty && ds.all isDigit
  | ds => !ds.isEmpty && ds.all isDigit

/-- The value of a sequence of decimal digits. -/
def digitsValue (ds : List Char) : Nat :=
  ds.foldl (fun n c => n * 10 + (c.toNat - '0'.toNat)) 0

/-- The integer an integer numeral denotes. -/
def numeralValue (s : String) : Int :=
  match s.data with
  | '-' :: ds => -(digitsValue ds : Int)
  | '+' :: ds => (digitsValue ds : Int)
  | ds => (digitsValue ds : Int)

/-- The values that the loop of `ParseArgs` reads as values of `-s` / `--server`
in an argument list (without the program name), in the order read: the options
are read from the left, a value-taking option takes the next token, and reading
stops at a help or version flag, at an unknown option and at the first domain.
A `-s` that stands after one of these is not read, and its value is not in this
list (compare `givenServerValues`). -/
def serverValues : List String → List String
  | [] => []
  | arg :: rest =>
    if arg = "-s" ∨ arg = "--server" then
      match rest with
      | [] => []
      | value :: rest' => value :: serverValues rest'
    else if arg = "-t" ∨ arg = "--type" ∨ arg = "-i" ∨ arg = "--interval"
        ∨ arg = "-o" ∨ arg = "--output" then
      match rest with
      | [] => []
      | _ :: rest' => serverValues rest'
    else if arg = "--all-servers" ∨ arg = "--until-change" ∨ arg = "--no-color" then
      serverValues rest
    else []

/-- The values given to `-s` / `--server` in the plain words of the claim: every
token that stands directly after a token `-s` or `--server`, wherever in the
argument list that is. -/
def givenServerValues : List String → List String
  | [] => []
  | arg :: rest =>
    match rest with
    | [] => []
    | value :: _ =>
      if arg = "-s" ∨ arg = "--server" then value :: givenServerValues rest
      else givenServerValues rest

/-! ## The words of the specification about the command line -/

/-- An option read in option position, as the CLI table of the specification
lists them: the value-taking options with their value, and the flags. -/
inductive Opt where
  | type (value : String)
  | interval (value : String)
  | server (value : String)
  | output (value : String)
  | allServers
  | untilChange
  | noColor
  deriving DecidableEq, Repr

/-- Where the reading of options ends: at a help or version flag, at a
value-taking option that is the last token, at a token in option position that
starts with `-` and is no known option, at the first token in option position
that does not start with `-` (that token and everything after it are the
domains), or at the end of the arguments. -/
inductive Stop where
  | help
  | version
  | missingValue (option : String)
  | unknown (token : String)
  | domains (tokens : List String)
  | finished
  deriving DecidableEq, Repr

/-- The argument list (without the program name) read from the left as the
CLI table describes it: the options in option position, in order, and where the
reading ends. A value-taking option takes the next token as its value whatever
that token is, so a value is never in option position. -/
def scanArgs : List String → List Opt × Stop
  | [] => ([], .finished)
  | arg :: rest =>
    if arg = "-h" ∨ arg = "--help" then ([], .help)
    else if arg = "-v" ∨ arg = "--version" then ([], .version)
    else if arg = "-t" ∨ arg = "--type" then
      match rest with
      | [] => ([], .missingValue arg)
      | value :: rest' => (.type value :: (scanArgs rest').1, (scanArgs rest').2)
    else if arg = "-i" ∨ arg = "--interval" then
      match rest with
      | [] => ([], .missingValue arg)
      | value :: rest' => (.interval value :: (scanArgs rest').1, (scanArgs rest').2)
    else if arg = "-s" ∨ arg = "--server" then
      match rest with
      | [] => ([], .missingValue arg)
      | value :: rest' => (.server value :: (scanArgs rest').1, (scanArgs rest').2)
    else if arg = "--all-servers" then (.allServers :: (scanArgs rest).1, (scanArgs rest).2)
    else if arg = "--until-change" then (.untilChange :: (scanArgs rest).1, (scanArgs rest).2)
    else if arg = "-o" ∨ arg = "--output" then
      match rest with
      | [] => ([], .missingValue arg)
      | value :: rest' => (.output value :: (scanArgs rest').1, (scanArgs rest').2)
    else if arg = "--no-color" then (.noColor :: (scanArgs rest).1, (scanArgs rest).2)
    else if hasPrefix arg "-" then ([], .unknown arg)
    else ([], .domains (arg :: rest))

/-- What the loop of `ParseArgs` does with one option it has read; used to
state what the loop computes from `scanArgs` (`parseArgsLoop_eq_scan`). -/
def applyOpt (toUpper : String → String) (config : Config) : Opt → Except GoError Config
  | .type value => .ok { config with RecordType := toUpper value }
  | .interval value =>
    match parseDuration value with
    | .error err => .error (.errorfV "invalid interval: " err)
    | .ok duration => .ok { config with Interval := duration }
  | .server value =>
    .ok { config with Servers := config.Servers ++
            [if !stringsContains value ":" then value ++ ":53" else value] }
  | .output value => .ok { config with OutputFile := value }
  | .allServers => .ok { config with AllServers := true }
  | .untilChange => .ok { config with UntilChange := true }
  | .noColor => .ok { config with NoColor := true }

/-- The options applied from the left; the first interval that does not parse
ends it with the error. -/
def applyOpts (toUpper : String → String) : Config → List Opt → Except GoError Config
  | config, [] => .ok config
  | config, opt :: opts =>
    match applyOpt toUpper config opt with
    | .error err => .error err
    | .ok config' => applyOpts toUpper config' opts

/-- How the loop of `ParseArgs` ends at each `Stop`. -/
def finishArgs (config : Config) : Stop → LoopExit
  | .help => .returned (.ok { config with ShowHelp := true })
  | .version => .returned (.ok { config with ShowVersion := true })
  | .missingValue option =>
    .returned (.error (.text ("option " ++ option ++ " requires a value")))
  | .unknown token => .returned (.error (.text ("unknown option: " ++ token)))
  | .domains tokens => .done { config with Domains := config.Domains ++ tokens }
  | .finished => .done config

/-! ## monitor.go: the change detector and its reports -/

/-- The colour constants. Their declaration is not among the source files; the
values are the ones `TestColors` of `monitor_test.go` requires. -/
def ColorReset : String := "\x1b[0m"
def ColorRed : String := "\x1b[31m"
def ColorGreen : String := "\x1b[32m"
def ColorYellow : String := "\x1b[33m"
def ColorBlue : String := "\x1b[34m"

/-- The field `lastRecords map[string]*DNSRecord` of `Monitor`: a finite map,
read by key. -/
def Store : Type := String → Option DNSRecord

/-- The map made by `make(map[string]*DNSRecord)`. -/
def Store.empty : Store := fun _ => none

/-- The map read `m.lastRecords[key]` (value and `exists`). -/
def Store.get (s : Store) (key : String) : Option DNSRecord := s key

/-- The map write `m.lastRecords[key] = record`. -/
def Store.put (s : Store) (key : String) (record : DNSRecord) : Store :=
  fun k => if k = key then some record else s k

/-- One write of the monitor, in program order: `stdout text` is the exact
text a `fmt.Print*` call writes to the display; `logger msg` is the message a
`m.logger.Println` / `m.logger.Printf` call hands to the logger (the logger
adds its own header and the final newline). -/
inductive Output where
  | stdout (text : String)
  | logger (msg : String)
  deriving DecidableEq, Repr

/-- What one check does: the value it returns, the map it leaves in
`m.lastRecords`, and its writes in order. -/
structure CheckResult where
  changed : Bool
  lastRecords : Store
  out : List Output

/-- The method `printColored` of `monitor.go`. -/
def printColored (config : Config) (message color : String) : Output :=
  if config.NoColor then .stdout (message ++ "\n")
  else .stdout (color ++ message ++ ColorReset ++ "\n")

/-- The writes of the error branch of `checkSingleDomain` (monitor.go 97-99). -/
def singleErrorReport (config : Config) (timestamp domain err : String) : List Output :=
  let message := "[" ++ timestamp ++ "] " ++ domain ++ " (" ++ config.RecordType
    ++ ") - ERROR: " ++ err
  [printColored config message ColorYellow, .logger message]

/-- The writes of the `!exists` branch of `checkSingleDomain` (monitor.go 107-109). -/
def singleInitialReport (config : Config) (timestamp domain : String) (record : DNSRecord) :
    List Output :=
  let message := "[" ++ timestamp ++ "] " ++ domain ++ " (" ++ config.RecordType
    ++ ") - Initial: " ++ record.String
  [printColored config message ColorGreen, .logger message]

/-- The writes of the `!record.Equals(lastRecord)` branch of `checkSingleDomain`
(monitor.go 115-125). -/
def singleChangedReport (config : Config) (timestamp domain : String)
    (lastRecord record : DNSRecord) : List Output :=
  let message := "[" ++ timestamp ++ "] " ++ domain ++ " (" ++ config.RecordType
    ++ ") - CHANGE DETECTED:"
  let beforeMsg := "  Before: " ++ lastRecord.String
  let afterMsg := "  After:  " ++ record.String
  [printColored config message ColorRed, .logger message,
   printColored config beforeMsg ColorRed, printColored config afterMsg ColorBlue,
   .logger beforeMsg, .logger afterMsg]

/-- The writes of the last branch of `checkSingleDomain` (monitor.go 131-133). -/
def singleUnchangedReport (config : Config) (timestamp domain : String) (record : DNSRecord) :
    List Output :=
  let message := "[" ++ timestamp ++ "] " ++ domain ++ " (" ++ config.RecordType
    ++ ") - No change: " ++ record.String
  [printColored config message ColorGreen, .logger message]

/-- The method `checkSingleDomain` of `monitor.go`; `none` is a panic. -/
def checkSingleDomain (env : Env) (config : Config) (lastRecords : Store)
    (domain timestamp : String) : Option CheckResult :=
  match Query env domain config.RecordType with
  | .error err =>
    some { changed := false, lastRecords := lastRecords,
           out := singleErrorReport config timestamp domain err }
  | .ok record =>
    let key := domain ++ ":" ++ config.RecordType
    match lastRecords.get key with
    | none =>
      some { changed := false, lastRecords := lastRecords.put key record,
             out := singleInitialReport config timestamp domain record }
    | some lastRecord =>
      match record.Equals lastRecord with
      | none => none
      | some false =>
        some { changed := true, lastRecords := lastRecords.put key record,
               out := singleChangedReport config timestamp domain lastRecord record }
      | some true =>
        some { changed := false, lastRecords := lastRecords,
               out := singleUnchangedReport config timestamp domain record }

/-- The `prefix` of `checkDomainInGroup` (monitor.go 140-143 and 153-156). -/
def groupPrefix (isLast : Bool) : String :=
  if isLast then "└─" else "├─"

/-- The writes of the error branch of `checkDomainInGroup` (monitor.go 144-146). -/
def groupErrorReport (config : Config) (domain : String) (isLast : Bool) (err : String) :
    List Output :=
  let message := groupPrefix isLast ++ " " ++ domain ++ " (" ++ config.RecordType
    ++ "): ERROR - " ++ err
  [printColored config message ColorYellow,
   .logger ("ERROR: " ++ domain ++ " (" ++ config.RecordType ++ ") - " ++ err)]

/-- The writes of the `!exists` branch of `checkDomainInGroup` (monitor.go 159-161). -/
def groupInitialReport (config : Config) (domain : String) (isLast : Bool)
    (record : DNSRecord) : List Output :=
  let message := groupPrefix isLast ++ " " ++ domain ++ " (" ++ config.RecordType ++ "): "
    ++ record.String ++ " (initial)"
  [printColored config message ColorGreen,
   .logger ("INITIAL: " ++ domain ++ " (" ++ config.RecordType ++ ") - " ++ record.String)]

/-- The writes of the `!record.Equals(lastRecord)` branch of `checkDomainInGroup`
(monitor.go 167-169). -/
def groupChangedReport (config : Config) (domain : String) (isLast : Bool)
    (lastRecord record : DNSRecord) : List Output :=
  let message := groupPrefix isLast ++ " " ++ domain ++ " (" ++ config.RecordType ++ "): "
    ++ lastRecord.String ++ " → " ++ record.String ++ " (CHANGED)"
  [printColored config message ColorRed,
   .logger ("CHANGE: " ++ domain ++ " (" ++ config.RecordType ++ ") - "
     ++ lastRecord.String ++ " → " ++ record.String)]

/-- The write of the last branch of `checkDomainInGroup` (monitor.go 174-175):
the display only, the logger is not called. -/
def groupUnchangedReport (config : Config) (domain : String) (isLast : Bool)
    (record : DNSRecord) : List Output :=
  let message := groupPrefix isLast ++ " " ++ domain ++ " (" ++ config.RecordType ++ "): "
    ++ record.String ++ " (no change)"
  [printColored config message ColorGreen]

/-- The method `checkDomainInGroup` of `monitor.go`; `none` is a panic. -/
def checkDomainInGroup (env : Env) (config : Config) (lastRecords : Store)
    (domain : String) (isLast : Bool) : Option CheckResult :=
  match Query env domain config.RecordType with
  | .error err =>
    some { changed := false, lastRecords := lastRecords,
           out := groupErrorReport config domain isLast err }
  | .ok record =>
    let key := domain ++ ":" ++ config.RecordType
    match lastRecords.get key with
    | none =>
      some { changed := false, lastRecords := lastRecords.put key record,
             out := groupInitialReport config domain isLast record }
    | some lastRecord =>
      match record.Equals lastRecord with
      | none => none
      | some false =>
        some { changed := true, lastRecords := lastRecords.put key record,
               out := groupChangedReport config domain isLast lastRecord record }
      | some true =>
        some { changed := false, lastRecords := lastRecords,
               out := groupUnchangedReport config domain isLast record }

/-- The `for i, domain := range m.config.Domains` loop of `checkDomains`:
`i` is the index of the head of the remaining domains, `n` is
`len(m.config.Domains)`, `hasChanges` and `lastRecords` are the loop state. -/
def checkGroupLoop (env : Env) (config : Config) (n : Nat) :
    Nat → List String → Bool → Store → Option CheckResult
  | _, [], hasChanges, lastRecords =>
    some { changed := hasChanges, lastRecords := lastRecords, out := [] }
  | i, domain :: rest, hasChanges, lastRecords =>
    match checkDomainInGroup env config lastRecords domain (i == n - 1) with
    | none => none
    | some r =>
      match checkGroupLoop env config n (i + 1) rest (hasChanges || r.changed) r.lastRecords with
      | none => none
      | some r2 => some { r2 with out := r.out ++ r2.out }

/-- The method `checkDomains` of `monitor.go`, one tick; `timestamp` is
`time.Now().Format("2006-01-02 15:04:05")`. -/
def checkDomains (env : Env) (config : Config) (lastRecords : Store)
    (timestamp : String) : Option CheckResult :=
  match config.Domains with
  | [domain] =>
    match checkSingleDomain env config lastRecords domain timestamp with
    | none => none
    | some r => some { r with changed := false || r.changed }
  | domains =>
    match checkGroupLoop env config domains.length 0 domains false lastRecords with
    | none => none
    | some r =>
      some { r with out := [Output.stdout ("[" ++ timestamp ++ "]\n")] ++ r.out
                      ++ [Output.stdout "\n"] }

/-- Consecutive ticks of the loop of `Start`, for as long as the loop goes on:
each tick comes with the answers the platform gives at that time and with its
timestamp, and runs `checkDomains` on the map the previous tick left. The two
exits of the loop (the interrupt, and `UntilChange` after a tick that returned
`true`) are not part of this function. -/
def runTicks (config : Config) : Store → List (Env × String) → Option (List CheckResult)
  | _, [] => some []
  | lastRecords, (env, timestamp) :: rest =>
    match checkDomains env config lastRecords timestamp with
    | none => none
    | some r =>
      match runTicks config r.lastRecords rest with
      | none => none
      | some rs => some (r :: rs)

/-- The loop `for { select { ... } }` of `Start`, on the events the two channels
deliver in the order the `select` takes them: a tick of the ticker (with the
answers the platform gives at that time and the timestamp), or the interrupt
signal. -/
inductive Event where
  | tick (env : Env) (timestamp : String)
  | interrupt

/-- Where the loop of `Start` stands after some events: its writes so far, the
map in `m.lastRecords`, and whether `Start` has returned (it returns `nil` in
both cases) or is still waiting in the `select`. -/
structure StartState where
  out : List Output
  lastRecords : Store
  returned : Bool

/-- The loop of `Start` (monitor.go 56-68); `none` is a panic. Events after the
return are not read. -/
def startLoop (config : Config) : Store → List Event → Option StartState
  | lastRecords, [] => some { out := [], lastRecords := lastRecords, returned := false }
  | lastRecords, .interrupt :: _ =>
    some { out := [.stdout "\nReceived interrupt signal. Stopping monitor...\n"],
           lastRecords := lastRecords, returned := true }
  | lastRecords, .tick env timestamp :: rest =>
    match checkDomains env config lastRecords timestamp with
    | none => none
    | some r =>
      if r.changed && config.UntilChange then
        some { out := r.out ++
                 [.stdout "Change detected. Exiting due to --until-change mode.\n"],
               lastRecords := r.lastRecords, returned := true }
      else
        match startLoop config r.lastRecords rest with
        | none => none
        | some s => some { s with out := r.out ++ s.out }

/-! ## The words of the specification about the two sinks -/

/-- The text `printColored` writes for a message: the message and a newline,
wrapped in the colour code and the reset code unless `NoColor` is set. -/
def coloredText (config : Config) (message color : String) : String :=
  if config.NoColor then message ++ "\n" else color ++ message ++ ColorReset ++ "\n"

/-- What a list of writes sends to the standard output through `fmt` (the header
and the blank line of a tick, and `printColored`), in order. The logger's writes
are not in it; they reach the standard output too when the logger is on
`os.Stdout` (see `groupDisplay`). -/
def stdoutTexts (out : List Output) : List String :=
  out.filterMap (fun o => match o with
    | .stdout text => some text
    | .logger _ => none)

/-- What a list of writes hands to the log sink, in order. -/
def loggerMsgs (out : List Output) : List String :=
  out.filterMap (fun o => match o with
    | .stdout _ => none
    | .logger msg => some msg)

/-- Where the logger of the monitor writes. -/
inductive LogSink where
  | stdout
  | file
  deriving DecidableEq, Repr

/-- The logger that `NewMonitor` makes (monitor.go 22-30): `log.New(os.Stdout, "", 0)`,
replaced by a logger on the output file when `OutputFile` is not empty and
`os.OpenFile` succeeds (`fileOpens`); when it fails the logger stays on
`os.Stdout`. -/
def newMonitorLogSink (config : Config) (fileOpens : Bool) : LogSink :=
  if config.OutputFile != "" then
    if fileOpens then .file else .stdout
  else .stdout

/-- The text that `Logger.Printf` writes for a formatted message when the logger
has the empty prefix and no flags, as the logger on `os.Stdout` has: the message,
with a newline added when the message is empty or does not end in one. -/
def logLine (msg : String) : String :=
  if msg.data.getLast? = some '\n' then msg else msg ++ "\n"

/-- What the writes of a multi-domain tick put on the standard output, the
interactive display, in order: the texts written through `fmt`, and between them
the lines of the logger when the logger is on `os.Stdout`. Every logger call of
`checkDomainInGroup` is a `Printf` (monitor.go 146, 161, 169). -/
def groupDisplay (sink : LogSink) (out : List Output) : List String :=
  out.flatMap (fun o => match o with
    | .stdout text => [text]
    | .logger msg =>
      match sink with
      | .stdout => [logLine msg]
      | .file => [])

/-- Whether a text contains the escape character with which every ANSI colour
code starts. -/
def hasEscape (s : String) : Bool := s.data.any (fun c => c == '\x1b')

/-- The map a check of one tick finds: the one the tick started with for the
first check, the one the previous check left for a later one. -/
def storeBefore (store : Store) (results : List CheckResult) (i : Nat) : Store :=
  (results.take i).foldl (fun _ r => r.lastRecords) store

/-- The field `dnsClient` that `NewMonitor` sets (monitor.go 20):
`NewDNSClient(config.Servers, 5*time.Second)`. -/
def newMonitorClient (config : Config) : DNSClient :=
  NewDNSClient config.Servers (5 * Second)

/-- Go `time.NewTicker(d)`, as `Start` calls it on `m.config.Interval`: the
standard library documents that the duration must be greater than zero and that
`NewTicker` panics if it is not; `none` is that panic. The ticks themselves are
the events given to `startLoop`. -/
def NewTicker (d : Int) : Option Unit :=
  if 0 < d then some () else none

/-! ## A concrete environment, for evaluating the definitions -/

/-- Dotted-decimal text of a 4-byte address, the bytes joined by dots for any
other length. -/
def dotted (ip : IP) : String :=
  ".".intercalate (ip.bytes.map toString)

/-- Upper-casing of the ASCII letters, for evaluating `ParseArgs` and `Query`
on concrete record types. -/
def asciiUpper (s : String) : String := ⟨s.data.map Char.toUpper⟩

/-- An environment whose resolver answers every address lookup with `ips`
and every TXT lookup with `txts`, and fails the other lookups. -/
def fixedEnv (ips : List IP) (txts : List String) : Env where
  LookupIP := fun _ => if ips.isEmpty then .error "no such host" else .ok ips
  LookupCNAME := fun _ => .error "no such host"
  LookupMX := fun _ => .error "no such host"
  LookupTXT := fun _ => .ok txts
  ipString := dotted
  ToUpper := fun s => ⟨s.data.map Char.toUpper⟩

/-- A configuration of two domains with the defaults of `ParseArgs` and
`NoColor` set, for evaluating a multi-domain tick. -/
def twoDomainConfig : Config :=
  { Domains := ["a.example", "b.example"], RecordType := "A", Interval := 5 * Second,
    Servers := [], NoColor := true }

/-! # Theorems -/

/-! ## Lemmas on `Equals` -/

theorem equalsLoop_drop (ov : List String) (i : Nat) (rest : List String)
    (hlen : i + rest.length = ov.length) :
    equalsLoop ov i rest = some (decide (rest = ov.drop i)) := by
  induction rest generalizing i with
  | nil =>
    have hi : ov.length ≤ i := by simp at hlen; omega
    simp [equalsLoop, List.drop_eq_nil_of_le hi]
  | cons v rest ih =>
    have hi : i < ov.length := by simp at hlen; omega
    obtain ⟨w, hget, hdrop⟩ : ∃ w, ov[i]? = some w ∧ ov.drop i = w :: ov.drop (i + 1) :=
      ⟨ov[i], List.getElem?_eq_getElem hi, List.drop_eq_getElem_cons hi⟩
    have hlen2 : (i + 1) + rest.length = ov.length := by simp at hlen; omega
    rw [equalsLoop, hget, hdrop]
    by_cases hv : v = w
    · have hb : (v != w) = false := by simp [hv]
      simp only [hb, ih (i + 1) hlen2]
      simp [hv]
    · have hb : (v != w) = true := by simp [hv]
      simp only [hb]
      simp [hv]

theorem Equals_eq_decide (r s : DNSRecord) :
    r.Equals s = some (decide (r = s)) := by
  obtain ⟨rd, rt, rv⟩ := r
  obtain ⟨sd, st, sv⟩ := s
  unfold DNSRecord.Equals
  by_cases hd : rd = sd
  · by_cases ht : rt = st
    · by_cases hl : rv.length = sv.length
      · have h := equalsLoop_drop sv 0 rv (by simpa using hl)
        simp [hd, ht, hl, h]
      · have hne : rv ≠ sv := fun h => hl (by rw [h])
        simp [hd, ht, hl, hne]
    · simp [hd, ht]
  · simp [hd]

/-- C6: `r.Equals(s)` returns (it never indexes `s.Values` out of range, which
would be the panic `none`), and its result is `true` exactly when the domains
are equal, the types are equal, the value sequences have the same length and
the values agree at every index. -/
theorem C6_equals_iff_fieldwise (r s : DNSRecord) :
    ∃ b, r.Equals s = some b ∧
      (b = true ↔ (r.Domain = s.Domain ∧ r.Typ = s.Typ ∧
        r.Values.length = s.Values.length ∧
        ∀ i, i < r.Values.length → r.Values[i]? = s.Values[i]?)) := by
  refine ⟨decide (r = s), Equals_eq_decide r s, ?_⟩
  obtain ⟨rd, rt, rv⟩ := r
  obtain ⟨sd, st, sv⟩ := s
  simp only [decide_eq_true_eq, DNSRecord.mk.injEq]
  constructor
  · rintro ⟨h1, h2, h3⟩
    subst h1 h2 h3
    exact ⟨rfl, rfl, rfl, fun _ _ => rfl⟩
  · rintro ⟨h1, h2, h3, h4⟩
    refine ⟨h1, h2, ?_⟩
    apply List.ext_getElem? 
    intro i
    by_cases hi : i < rv.length
    · exact h4 i hi
    · have h5 : rv.length ≤ i := Nat.le_of_not_lt hi
      have h6 : sv.length ≤ i := h3 ▸ h5
      rw [List.getElem?_eq_none h5, List.getElem?_eq_none h6]

/-! ## The store -/

theorem Store.get_put_same (s : Store) (key : String) (r : DNSRecord) :
    (s.put key r).get key = some r := by
  simp [Store.get, Store.put]

theorem Store.get_put_other (s : Store) (key k : String) (r : DNSRecord) (h : k ≠ key) :
    (s.put key r).get k = s.get k := by
  simp [Store.get, Store.put, h]

theorem Equals_ne_true (r s : DNSRecord) (h : r.Equals s ≠ some true) :
    r.Equals s = some false := by
  rw [Equals_eq_decide] at h ⊢
  by_cases hrs : r = s
  · exact absurd (by simp [hrs]) h
  · simp [hrs]

/-! ## Telling the reports apart -/

/-- Two texts that share a beginning and continue with different characters
are different. -/
theorem append_ne_of_char_ne (p a b x y : String) (c a' b' : List Char) (u v : Char)
    (ha : a.data = c ++ u :: a') (hb : b.data = c ++ v :: b') (huv : u ≠ v) :
    p ++ a ++ x ≠ p ++ b ++ y := by
  intro h
  have hd := congrArg String.data h
  simp only [String.data_append, ha, hb, List.append_assoc, List.append_cancel_left_eq,
    List.cons_append, List.cons.injEq] at hd
  exact huv hd.1

theorem singleInitial_ne_unchanged (config : Config) (timestamp domain : String)
    (r a : DNSRecord) :
    singleInitialReport config timestamp domain r
      ≠ singleUnchangedReport config timestamp domain a := by
  intro h
  simp only [singleInitialReport, singleUnchangedReport, List.cons.injEq, Output.logger.injEq]
    at h
  exact append_ne_of_char_ne _ ") - Initial: " ") - No change: " _ _
    [')', ' ', '-', ' '] ['n', 'i', 't', 'i', 'a', 'l', ':', ' ']
    ['o', ' ', 'c', 'h', 'a', 'n', 'g', 'e', ':', ' '] 'I' 'N' rfl rfl (by decide) h.2.1

theorem singleInitial_ne_changed (config : Config) (timestamp domain : String)
    (r a b : DNSRecord) :
    singleInitialReport config timestamp domain r
      ≠ singleChangedReport config timestamp domain a b := by
  intro h
  simp [singleInitialReport, singleChangedReport] at h

theorem groupInitial_ne_unchanged (config : Config) (domain : String) (isLast : Bool)
    (r a : DNSRecord) :
    groupInitialReport config domain isLast r ≠ groupUnchangedReport config domain isLast a := by
  intro h
  simp [groupInitialReport, groupUnchangedReport] at h

theorem groupInitial_ne_changed (config : Config) (domain : String) (isLast : Bool)
    (r a b : DNSRecord) :
    groupInitialReport config domain isLast r ≠ groupChangedReport config domain isLast a b := by
  intro h
  simp only [groupInitialReport, groupChangedReport, List.cons.injEq, Output.logger.injEq] at h
  have h2 := h.2.1
  have e1 : ∀ x : String, "INITIAL: " ++ x = "" ++ "INITIAL: " ++ x := fun x => by simp
  have e2 : ∀ x : String, "CHANGE: " ++ x = "" ++ "CHANGE: " ++ x := fun x => by simp
  simp only [String.append_assoc] at h2
  rw [e1, e2] at h2
  exact append_ne_of_char_ne "" "INITIAL: " "CHANGE: " _ _ []
    ['N', 'I', 'T', 'I', 'A', 'L', ':', ' '] ['H', 'A', 'N', 'G', 'E', ':', ' '] 'I' 'C'
    rfl rfl (by decide) h2

/-! ## The four branches of a check -/

theorem checkSingleDomain_changed (env : Env) (config : Config) (store : Store)
    (domain timestamp : String) (record last : DNSRecord)
    (hq : Query env domain config.RecordType = .ok record)
    (hs : store.get (domain ++ ":" ++ config.RecordType) = some last)
    (hne : record.Equals last ≠ some true) :
    checkSingleDomain env config store domain timestamp =
      some { changed := true,
             lastRecords := store.put (domain ++ ":" ++ config.RecordType) record,
             out := singleChangedReport config timestamp domain last record } := by
  have he := Equals_ne_true record last hne
  simp only [checkSingleDomain, hq, hs, he]

theorem checkDomainInGroup_changed (env : Env) (config : Config) (store : Store)
    (domain : String) (isLast : Bool) (record last : DNSRecord)
    (hq : Query env domain config.RecordType = .ok record)
    (hs : store.get (domain ++ ":" ++ config.RecordType) = some last)
    (hne : record.Equals last ≠ some true) :
    checkDomainInGroup env config store domain isLast =
      some { changed := true,
             lastRecords := store.put (domain ++ ":" ++ config.RecordType) record,
             out := groupChangedReport config domain isLast last record } := by
  have he := Equals_ne_true record last hne
  simp only [checkDomainInGroup, hq, hs, he]

theorem checkSingleDomain_initial (env : Env) (config : Config) (store : Store)
    (domain timestamp : String) (record : DNSRecord)
    (hq : Query env domain config.RecordType = .ok record)
    (hs : store.get (domain ++ ":" ++ config.RecordType) = none) :
    checkSingleDomain env config store domain timestamp =
      some { changed := false,
             lastRecords := store.put (domain ++ ":" ++ config.RecordType) record,
             out := singleInitialReport config timestamp domain record } := by
  simp only [checkSingleDomain, hq, hs]

theorem checkDomainInGroup_initial (env : Env) (config : Config) (store : Store)
    (domain : String) (isLast : Bool) (record : DNSRecord)
    (hq : Query env domain config.RecordType = .ok record)
    (hs : store.get (domain ++ ":" ++ config.RecordType) = none) :
    checkDomainInGroup env config store domain isLast =
      some { changed := false,
             lastRecords := store.put (domain ++ ":" ++ config.RecordType) record,
             out := groupInitialReport config domain isLast record } := by
  simp only [checkDomainInGroup, hq, hs]

theorem checkSingleDomain_unchanged (env : Env) (config : Config) (store : Store)
    (domain timestamp : String) (record last : DNSRecord)
    (hq : Query env domain config.RecordType = .ok record)
    (hs : store.get (domain ++ ":" ++ config.RecordType) = some last)
    (heq : record.Equals last = some true) :
    checkSingleDomain env config store domain timestamp =
      some { changed := false, lastRecords := store,
             out := singleUnchangedReport config timestamp domain record } := by
  simp only [checkSingleDomain, hq, hs, heq]

theorem checkDomainInGroup_unchanged (env : Env) (config : Config) (store : Store)
    (domain : String) (isLast : Bool) (record last : DNSRecord)
    (hq : Query env domain config.RecordType = .ok record)
    (hs : store.get (domain ++ ":" ++ config.RecordType) = some last)
    (heq : record.Equals last = some true) :
    checkDomainInGroup env config store domain isLast =
      some { changed := false, lastRecords := store,
             out := groupUnchangedReport config domain isLast record } := by
  simp only [checkDomainInGroup, hq, hs, heq]

theorem checkSingleDomain_error (env : Env) (config : Config) (store : Store)
    (domain timestamp err : String)
    (hq : Query env domain config.RecordType = .error err) :
    checkSingleDomain env config store domain timestamp =
      some { changed := false, lastRecords := store,
             out := singleErrorReport config timestamp domain err } := by
  simp only [checkSingleDomain, hq]

theorem checkDomainInGroup_error (env : Env) (config : Config) (store : Store)
    (domain : String) (isLast : Bool) (err : String)
    (hq : Query env domain config.RecordType = .error err) :
    checkDomainInGroup env config store domain isLast =
      some { changed := false, lastRecords := store,
             out := groupErrorReport config domain isLast err } := by
  simp only [checkDomainInGroup, hq]

/-- C1: when the store holds `last` under the key `domain:recordType` and the
resolution succeeds with a record that is not `Equals` to `last`, both
`checkSingleDomain` and `checkDomainInGroup` return `true`, write the change
report with `last` as the value before and the new record as the value after,
and leave the old store with the key set to the new record, so that a read of
the key gives the new record. -/
theorem C1_changed_reports_and_updates (env : Env) (config : Config) (store : Store)
    (domain timestamp : String) (isLast : Bool) (record last : DNSRecord)
    (hq : Query env domain config.RecordType = .ok record)
    (hs : store.get (domain ++ ":" ++ config.RecordType) = some last)
    (hne : record.Equals last ≠ some true) :
    checkSingleDomain env config store domain timestamp =
      some { changed := true,
             lastRecords := store.put (domain ++ ":" ++ config.RecordType) record,
             out := singleChangedReport config timestamp domain last record }
    ∧ checkDomainInGroup env config store domain isLast =
      some { changed := true,
             lastRecords := store.put (domain ++ ":" ++ config.RecordType) record,
             out := groupChangedReport config domain isLast last record }
    ∧ (store.put (domain ++ ":" ++ config.RecordType) record).get
        (domain ++ ":" ++ config.RecordType) = some record
    ∧ singleChangedReport config timestamp domain last record =
        [printColored config ("[" ++ timestamp ++ "] " ++ domain ++ " ("
           ++ config.RecordType ++ ") - CHANGE DETECTED:") ColorRed,
         .logger ("[" ++ timestamp ++ "] " ++ domain ++ " ("
           ++ config.RecordType ++ ") - CHANGE DETECTED:"),
         printColored config ("  Before: " ++ last.String) ColorRed,
         printColored config ("  After:  " ++ record.String) ColorBlue,
         .logger ("  Before: " ++ last.String),
         .logger ("  After:  " ++ record.String)]
    ∧ groupChangedReport config domain isLast last record =
        [printColored config ((if isLast then "└─" else "├─") ++ " " ++ domain
           ++ " (" ++ config.RecordType ++ "): " ++ last.String ++ " → "
           ++ record.String ++ " (CHANGED)") ColorRed,
         .logger ("CHANGE: " ++ domain ++ " (" ++ config.RecordType ++ ") - "
           ++ last.String ++ " → " ++ record.String)] := by
  exact ⟨checkSingleDomain_changed env config store domain timestamp record last hq hs hne,
    checkDomainInGroup_changed env config store domain isLast record last hq hs hne,
    Store.get_put_same _ _ _, rfl, rfl⟩

/-- C1 at a concrete input: the store holds 93.184.216.34 for example.com and
the resolver now answers 93.184.216.35. -/
theorem C1_changed_witness :
    checkSingleDomain (fixedEnv [⟨[93, 184, 216, 35]⟩] []) { RecordType := "A", NoColor := true }
        (Store.empty.put "example.com:A" ⟨"example.com", "A", ["93.184.216.34"]⟩)
        "example.com" "2024-01-01 00:00:05" =
      some { changed := true,
             lastRecords := (Store.empty.put "example.com:A"
                 ⟨"example.com", "A", ["93.184.216.34"]⟩).put "example.com:A"
                 ⟨"example.com", "A", ["93.184.216.35"]⟩,
             out := [.stdout "[2024-01-01 00:00:05] example.com (A) - CHANGE DETECTED:\n",
                     .logger "[2024-01-01 00:00:05] example.com (A) - CHANGE DETECTED:",
                     .stdout "  Before: [93.184.216.34]\n",
                     .stdout "  After:  [93.184.216.35]\n",
                     .logger "  Before: [93.184.216.34]",
                     .logger "  After:  [93.184.216.35]"] } :=
  (C1_changed_reports_and_updates (fixedEnv [⟨[93, 184, 216, 35]⟩] [])
    { RecordType := "A", NoColor := true }
    (Store.empty.put "example.com:A" ⟨"example.com", "A", ["93.184.216.34"]⟩)
    "example.com" "2024-01-01 00:00:05" true
    ⟨"example.com", "A", ["93.184.216.35"]⟩ ⟨"example.com", "A", ["93.184.216.34"]⟩
    (by rfl) (by rfl) (by decide)).1

/-- C2: when the store has no entry under the key of (domain, recordType) and
the resolution succeeds, both checks return `false`, write the initial report
(which is neither a change report nor a no-change report, whatever records
those would name), and leave the old store with the new record inserted under
the key. -/
theorem C2_first_lookup_is_initial (env : Env) (config : Config) (store : Store)
    (domain timestamp : String) (isLast : Bool) (record : DNSRecord)
    (hq : Query env domain config.RecordType = .ok record)
    (hs : store.get (domain ++ ":" ++ config.RecordType) = none) :
    checkSingleDomain env config store domain timestamp =
      some { changed := false,
             lastRecords := store.put (domain ++ ":" ++ config.RecordType) record,
             out := singleInitialReport config timestamp domain record }
    ∧ checkDomainInGroup env config store domain isLast =
      some { changed := false,
             lastRecords := store.put (domain ++ ":" ++ config.RecordType) record,
             out := groupInitialReport config domain isLast record }
    ∧ (store.put (domain ++ ":" ++ config.RecordType) record).get
        (domain ++ ":" ++ config.RecordType) = some record
    ∧ (∀ a b, singleInitialReport config timestamp domain record
          ≠ singleChangedReport config timestamp domain a b)
    ∧ (∀ a, singleInitialReport config timestamp domain record
          ≠ singleUnchangedReport config timestamp domain a)
    ∧ (∀ a b, groupInitialReport config domain isLast record
          ≠ groupChangedReport config domain isLast a b)
    ∧ (∀ a, groupInitialReport config domain isLast record
          ≠ groupUnchangedReport config domain isLast a)
    ∧ singleInitialReport config timestamp domain record =
        [printColored config ("[" ++ timestamp ++ "] " ++ domain ++ " ("
           ++ config.RecordType ++ ") - Initial: " ++ record.String) ColorGreen,
         .logger ("[" ++ timestamp ++ "] " ++ domain ++ " ("
           ++ config.RecordType ++ ") - Initial: " ++ record.String)]
    ∧ groupInitialReport config domain isLast record =
        [printColored config ((if isLast then "└─" else "├─") ++ " " ++ domain
           ++ " (" ++ config.RecordType ++ "): " ++ record.String ++ " (initial)") ColorGreen,
         .logger ("INITIAL: " ++ domain ++ " (" ++ config.RecordType ++ ") - "
           ++ record.String)] := by
  exact ⟨checkSingleDomain_initial env config store domain timestamp record hq hs,
    checkDomainInGroup_initial env config store domain isLast record hq hs,
    Store.get_put_same _ _ _,
    fun a b => singleInitial_ne_changed config timestamp domain record a b,
    fun a => singleInitial_ne_unchanged config timestamp domain record a,
    fun a b => groupInitial_ne_changed config domain isLast record a b,
    fun a => groupInitial_ne_unchanged config domain isLast record a, rfl, rfl⟩

/-- C2 at a concrete input: the empty store and an answer 93.184.216.34. -/
theorem C2_first_lookup_witness :
    checkSingleDomain (fixedEnv [⟨[93, 184, 216, 34]⟩] []) { RecordType := "A", NoColor := true }
        Store.empty "example.com" "2024-01-01 00:00:05" =
      some { changed := false,
             lastRecords := Store.empty.put "example.com:A"
                 ⟨"example.com", "A", ["93.184.216.34"]⟩,
             out := [.stdout "[2024-01-01 00:00:05] example.com (A) - Initial: [93.184.216.34]\n",
                     .logger "[2024-01-01 00:00:05] example.com (A) - Initial: [93.184.216.34]"] } :=
  (C2_first_lookup_is_initial (fixedEnv [⟨[93, 184, 216, 34]⟩] [])
    { RecordType := "A", NoColor := true } Store.empty
    "example.com" "2024-01-01 00:00:05" true ⟨"example.com", "A", ["93.184.216.34"]⟩
    (by rfl) (by rfl)).1

/-- C3: when the store holds `last` under the key and the resolution succeeds
with a record that `Equals` `last`, both checks return `false`, write the
no-change report, and return the very store they were given: every key,
the checked one included, reads as before. -/
theorem C3_unchanged_leaves_store (env : Env) (config : Config) (store : Store)
    (domain timestamp : String) (isLast : Bool) (record last : DNSRecord)
    (hq : Query env domain config.RecordType = .ok record)
    (hs : store.get (domain ++ ":" ++ config.RecordType) = some last)
    (heq : record.Equals last = some true) :
    checkSingleDomain env config store domain timestamp =
      some { changed := false, lastRecords := store,
             out := singleUnchangedReport config timestamp domain record }
    ∧ checkDomainInGroup env config store domain isLast =
      some { changed := false, lastRecords := store,
             out := groupUnchangedReport config domain isLast record }
    ∧ (∀ r, (checkSingleDomain env config store domain timestamp = some r
          ∨ checkDomainInGroup env config store domain isLast = some r) →
        r.changed = false ∧ r.lastRecords = store ∧
        (∀ k, r.lastRecords.get k = store.get k) ∧
        r.lastRecords.get (domain ++ ":" ++ config.RecordType) = some last)
    ∧ singleUnchangedReport config timestamp domain record =
        [printColored config ("[" ++ timestamp ++ "] " ++ domain ++ " ("
           ++ config.RecordType ++ ") - No change: " ++ record.String) ColorGreen,
         .logger ("[" ++ timestamp ++ "] " ++ domain ++ " ("
           ++ config.RecordType ++ ") - No change: " ++ record.String)]
    ∧ groupUnchangedReport config domain isLast record =
        [printColored config ((if isLast then "└─" else "├─") ++ " " ++ domain
           ++ " (" ++ config.RecordType ++ "): " ++ record.String ++ " (no change)")
           ColorGreen] := by
  have h1 : checkSingleDomain env config store domain timestamp =
      some { changed := false, lastRecords := store,
             out := singleUnchangedReport config timestamp domain record } :=
    checkSingleDomain_unchanged env config store domain timestamp record last hq hs heq
  have h2 : checkDomainInGroup env config store domain isLast =
      some { changed := false, lastRecords := store,
             out := groupUnchangedReport config domain isLast record } :=
    checkDomainInGroup_unchanged env config store domain isLast record last hq hs heq
  refine ⟨h1, h2, ?_, rfl, rfl⟩
  intro r hr
  rcases hr with hr | hr
  · rw [h1] at hr
    cases hr
    exact ⟨rfl, rfl, fun _ => rfl, hs⟩
  · rw [h2] at hr
    cases hr
    exact ⟨rfl, rfl, fun _ => rfl, hs⟩

/-- C3 at a concrete input: the store holds 93.184.216.34 and the resolver
answers 93.184.216.34 again. -/
theorem C3_unchanged_witness :
    checkSingleDomain (fixedEnv [⟨[93, 184, 216, 34]⟩] []) { RecordType := "A", NoColor := true }
        (Store.empty.put "example.com:A" ⟨"example.com", "A", ["93.184.216.34"]⟩)
        "example.com" "2024-01-01 00:00:10" =
      some { changed := false,
             lastRecords := Store.empty.put "example.com:A"
                 ⟨"example.com", "A", ["93.184.216.34"]⟩,
             out := [.stdout "[2024-01-01 00:00:10] example.com (A) - No change: [93.184.216.34]\n",
                     .logger "[2024-01-01 00:00:10] example.com (A) - No change: [93.184.216.34]"] } :=
  (C3_unchanged_leaves_store (fixedEnv [⟨[93, 184, 216, 34]⟩] [])
    { RecordType := "A", NoColor := true }
    (Store.empty.put "example.com:A" ⟨"example.com", "A", ["93.184.216.34"]⟩)
    "example.com" "2024-01-01 00:00:10" false
    ⟨"example.com", "A", ["93.184.216.34"]⟩ ⟨"example.com", "A", ["93.184.216.34"]⟩
    (by rfl) (by rfl) (by decide)).1

/-- C4: when the resolution of a domain fails with the error text `err`, both
checks return `false`, write the error report and return the very store they
were given. Hence the rest of the same tick runs as if the failed domain were
not in the list (only the error lines are added in front), and after a
single-domain tick that fails the later ticks run exactly as they would from
the store before it. -/
theorem C4_error_leaves_store (env : Env) (config : Config) (store : Store)
    (domain timestamp : String) (isLast : Bool) (err : String)
    (hq : Query env domain config.RecordType = .error err) :
    checkSingleDomain env config store domain timestamp =
      some { changed := false, lastRecords := store,
             out := singleErrorReport config timestamp domain err }
    ∧ checkDomainInGroup env config store domain isLast =
      some { changed := false, lastRecords := store,
             out := groupErrorReport config domain isLast err }
    ∧ (∀ (n i : Nat) (rest : List String) (hasChanges : Bool),
        checkGroupLoop env config n i (domain :: rest) hasChanges store =
          (checkGroupLoop env config n (i + 1) rest hasChanges store).map
            (fun r => { r with out := groupErrorReport config domain (i == n - 1) err ++ r.out }))
    ∧ (config.Domains = [domain] → ∀ later : List (Env × String),
        runTicks config store ((env, timestamp) :: later) =
          (runTicks config store later).map
            (fun rs => { changed := false, lastRecords := store,
                         out := singleErrorReport config timestamp domain err } :: rs))
    ∧ singleErrorReport config timestamp domain err =
        [printColored config ("[" ++ timestamp ++ "] " ++ domain ++ " ("
           ++ config.RecordType ++ ") - ERROR: " ++ err) ColorYellow,
         .logger ("[" ++ timestamp ++ "] " ++ domain ++ " ("
           ++ config.RecordType ++ ") - ERROR: " ++ err)]
    ∧ groupErrorReport config domain isLast err =
        [printColored config ((if isLast then "└─" else "├─") ++ " " ++ domain
           ++ " (" ++ config.RecordType ++ "): ERROR - " ++ err) ColorYellow,
         .logger ("ERROR: " ++ domain ++ " (" ++ config.RecordType ++ ") - " ++ err)] := by
  have h1 : checkSingleDomain env config store domain timestamp =
      some { changed := false, lastRecords := store,
             out := singleErrorReport config timestamp domain err } :=
    checkSingleDomain_error env config store domain timestamp err hq
  have h2 : ∀ b, checkDomainInGroup env config store domain b =
      some { changed := false, lastRecords := store,
             out := groupErrorReport config domain b err } := by
    intro b
    exact checkDomainInGroup_error env config store domain b err hq
  refine ⟨h1, h2 isLast, ?_, ?_, rfl, rfl⟩
  · intro n i rest hasChanges
    rw [checkGroupLoop, h2]
    simp only [Bool.or_false]
    cases checkGroupLoop env config n (i + 1) rest hasChanges store <;> rfl
  · intro hd later
    rw [runTicks]
    simp only [checkDomains, hd, h1, Bool.false_or]
    cases runTicks config store later <;> rfl

/-- C4 at a concrete input: the resolver has no answer for example.com. -/
theorem C4_error_witness :
    checkSingleDomain (fixedEnv [] []) { RecordType := "A", NoColor := true }
        (Store.empty.put "example.com:A" ⟨"example.com", "A", ["93.184.216.34"]⟩)
        "example.com" "2024-01-01 00:00:10" =
      some { changed := false,
             lastRecords := Store.empty.put "example.com:A"
                 ⟨"example.com", "A", ["93.184.216.34"]⟩,
             out := [.stdout ("[2024-01-01 00:00:10] example.com (A) - ERROR: "
                       ++ "failed to lookup A record for example.com: no such host\n"),
                     .logger ("[2024-01-01 00:00:10] example.com (A) - ERROR: "
                       ++ "failed to lookup A record for example.com: no such host")] } :=
  (C4_error_leaves_store (fixedEnv [] []) { RecordType := "A", NoColor := true }
    (Store.empty.put "example.com:A" ⟨"example.com", "A", ["93.184.216.34"]⟩)
    "example.com" "2024-01-01 00:00:10" false
    "failed to lookup A record for example.com: no such host" (by rfl)).1

/-! ## Consecutive ticks on one domain -/

theorem checkDomains_single (env : Env) (config : Config) (store : Store)
    (domain timestamp : String) (hd : config.Domains = [domain]) :
    checkDomains env config store timestamp =
      checkSingleDomain env config store domain timestamp := by
  simp only [checkDomains, hd, Bool.false_or]
  cases checkSingleDomain env config store domain timestamp <;> rfl

/-- The ticks after the first: the store already holds `prev` under the key. -/
theorem runTicks_from_known (config : Config) (domain : String)
    (hd : config.Domains = [domain]) (ticks : List (Env × String)) (recs : List DNSRecord)
    (hq : List.Forall₂ (fun tk r => Query tk.1 domain config.RecordType = .ok r) ticks recs) :
    ∀ (store : Store) (prev : DNSRecord),
      store.get (domain ++ ":" ++ config.RecordType) = some prev →
      ∃ results, runTicks config store ticks = some results ∧
        results.length = recs.length ∧
        ∀ (k : Nat) (res : CheckResult) (r : DNSRecord) (tk : Env × String),
          results[k]? = some res → recs[k]? = some r → ticks[k]? = some tk →
          res.lastRecords.get (domain ++ ":" ++ config.RecordType) = some r ∧
          ∀ p, (prev :: recs)[k]? = some p →
            (r = p → res.changed = false ∧
              res.out = singleUnchangedReport config tk.2 domain r) ∧
            (r ≠ p → res.changed = true ∧
              res.out = singleChangedReport config tk.2 domain p r) := by
  induction hq with
  | nil =>
    intro store prev _
    exact ⟨[], rfl, rfl, fun k res r tk h => by simp at h⟩
  | @cons tk r ticks recs hq1 _ ih =>
    intro store prev hs
    obtain ⟨env, ts⟩ := tk
    simp only at hq1
    by_cases hrp : r = prev
    · have he : r.Equals prev = some true := by rw [Equals_eq_decide]; simp [hrp]
      have hc := checkSingleDomain_unchanged env config store domain ts r prev hq1 hs he
      obtain ⟨rest, hrest, hlen, hall⟩ := ih store r (by rw [hs, hrp])
      refine ⟨{ changed := false, lastRecords := store,
                out := singleUnchangedReport config ts domain r } :: rest, ?_,
        by simp [hlen], ?_⟩
      · rw [runTicks, checkDomains_single env config store domain ts hd, hc]
        simp only [hrest]
      · intro k res r' tk' h1 h2 h3
        cases k with
        | zero =>
          simp only [List.getElem?_cons_zero, Option.some.injEq] at h1 h2 h3
          subst h1 h2 h3
          refine ⟨by rw [hs, hrp], ?_⟩
          intro p hp
          simp only [List.getElem?_cons_zero, Option.some.injEq] at hp
          subst hp
          exact ⟨fun _ => ⟨rfl, rfl⟩, fun h => absurd hrp h⟩
        | succ k =>
          simp only [List.getElem?_cons_succ] at h1 h2 h3
          obtain ⟨g1, g2⟩ := hall k res r' tk' h1 h2 h3
          refine ⟨g1, ?_⟩
          intro p hp
          simp only [List.getElem?_cons_succ] at hp
          exact g2 p hp
    · have he : r.Equals prev ≠ some true := by
        rw [Equals_eq_decide]; simp [hrp]
      have hc := checkSingleDomain_changed env config store domain ts r prev hq1 hs he
      obtain ⟨rest, hrest, hlen, hall⟩ :=
        ih (store.put (domain ++ ":" ++ config.RecordType) r) r (Store.get_put_same _ _ _)
      refine ⟨{ changed := true,
                lastRecords := store.put (domain ++ ":" ++ config.RecordType) r,
                out := singleChangedReport config ts domain prev r } :: rest, ?_,
        by simp [hlen], ?_⟩
      · rw [runTicks, checkDomains_single env config store domain ts hd, hc]
        simp only [hrest]
      · intro k res r' tk' h1 h2 h3
        cases k with
        | zero =>
          simp only [List.getElem?_cons_zero, Option.some.injEq] at h1 h2 h3
          subst h1 h2 h3
          refine ⟨Store.get_put_same _ _ _, ?_⟩
          intro p hp
          simp only [List.getElem?_cons_zero, Option.some.injEq] at hp
          subst hp
          exact ⟨fun h => absurd h hrp, fun _ => ⟨rfl, rfl⟩⟩
        | succ k =>
          simp only [List.getElem?_cons_succ] at h1 h2 h3
          obtain ⟨g1, g2⟩ := hall k res r' tk' h1 h2 h3
          refine ⟨g1, ?_⟩
          intro p hp
          simp only [List.getElem?_cons_succ] at hp
          exact g2 p hp

theorem DNSRecord.eq_iff_fields (r p : DNSRecord) :
    r = p ↔ (r.Domain = p.Domain ∧ r.Typ = p.Typ ∧ r.Values = p.Values) := by
  obtain ⟨rd, rt, rv⟩ := r
  obtain ⟨pd, pt, pv⟩ := p
  simp

/-- C5: one monitored domain, an empty store, and ticks on each of which the
resolution succeeds, with records r1, r2, ..., rn. The ticks all complete;
tick 1 writes the initial report and returns `false`; a later tick k writes
the no-change report and returns `false` when rk has the domain, type and
value sequence of r(k-1), and otherwise writes the change report naming
r(k-1) as before and rk as after and returns `true`; after every tick k the
store read at the key gives rk. -/
theorem C5_tick_sequence (config : Config) (domain : String)
    (hd : config.Domains = [domain]) (ticks : List (Env × String)) (recs : List DNSRecord)
    (hq : List.Forall₂ (fun tk r => Query tk.1 domain config.RecordType = .ok r) ticks recs) :
    ∃ results, runTicks config Store.empty ticks = some results ∧
      results.length = recs.length ∧
      ∀ (k : Nat) (res : CheckResult) (r : DNSRecord) (tk : Env × String),
        results[k]? = some res → recs[k]? = some r → ticks[k]? = some tk →
        res.lastRecords.get (domain ++ ":" ++ config.RecordType) = some r ∧
        (k = 0 → res.changed = false ∧
          res.out = singleInitialReport config tk.2 domain r) ∧
        (∀ (j : Nat) (p : DNSRecord), k = j + 1 → recs[j]? = some p →
          ((r.Domain = p.Domain ∧ r.Typ = p.Typ ∧ r.Values = p.Values) →
            res.changed = false ∧ res.out = singleUnchangedReport config tk.2 domain r) ∧
          (¬ (r.Domain = p.Domain ∧ r.Typ = p.Typ ∧ r.Values = p.Values) →
            res.changed = true ∧ res.out = singleChangedReport config tk.2 domain p r)) := by
  cases hq with
  | nil => exact ⟨[], rfl, rfl, fun k res r tk h => by simp at h⟩
  | @cons tk1 r1 ticks recs hq1 hrest =>
    obtain ⟨env, ts⟩ := tk1
    simp only at hq1
    have hc := checkSingleDomain_initial env config Store.empty domain ts r1 hq1 rfl
    obtain ⟨rest, hrun, hlen, hall⟩ := runTicks_from_known config domain hd ticks recs hrest
      (Store.empty.put (domain ++ ":" ++ config.RecordType) r1) r1 (Store.get_put_same _ _ _)
    refine ⟨{ changed := false,
              lastRecords := Store.empty.put (domain ++ ":" ++ config.RecordType) r1,
              out := singleInitialReport config ts domain r1 } :: rest, ?_,
      by simp [hlen], ?_⟩
    · rw [runTicks, checkDomains_single env config Store.empty domain ts hd, hc]
      simp only [hrun]
    · intro k res r tk h1 h2 h3
      cases k with
      | zero =>
        simp only [List.getElem?_cons_zero, Option.some.injEq] at h1 h2 h3
        subst h1 h2 h3
        exact ⟨Store.get_put_same _ _ _, fun _ => ⟨rfl, rfl⟩,
          fun j p hj => absurd hj (by omega)⟩
      | succ k =>
        simp only [List.getElem?_cons_succ] at h1 h2 h3
        obtain ⟨g1, g2⟩ := hall k res r tk h1 h2 h3
        refine ⟨g1, fun h0 => absurd h0 (by omega), ?_⟩
        intro j p hj hp
        have hjk : j = k := by omega
        subst hjk
        obtain ⟨g3, g4⟩ := g2 p hp
        rw [← DNSRecord.eq_iff_fields]
        exact ⟨g3, g4⟩

/-- C5 at the scenario of the specification: example.com, type A, three ticks
answering 93.184.216.34, 93.184.216.34 and 93.184.216.35. -/
theorem C5_tick_sequence_witness :
    ∃ results,
      runTicks { Domains := ["example.com"], RecordType := "A", NoColor := true } Store.empty
        [(fixedEnv [⟨[93, 184, 216, 34]⟩] [], "t1"), (fixedEnv [⟨[93, 184, 216, 34]⟩] [], "t2"),
         (fixedEnv [⟨[93, 184, 216, 35]⟩] [], "t3")] = some results ∧
      results.length = 3 :=
  (C5_tick_sequence { Domains := ["example.com"], RecordType := "A", NoColor := true }
    "example.com" rfl
    [(fixedEnv [⟨[93, 184, 216, 34]⟩] [], "t1"), (fixedEnv [⟨[93, 184, 216, 34]⟩] [], "t2"),
     (fixedEnv [⟨[93, 184, 216, 35]⟩] [], "t3")]
    [⟨"example.com", "A", ["93.184.216.34"]⟩, ⟨"example.com", "A", ["93.184.216.34"]⟩,
     ⟨"example.com", "A", ["93.184.216.35"]⟩]
    (List.Forall₂.cons (by rfl) (List.Forall₂.cons (by rfl)
      (List.Forall₂.cons (by rfl) List.Forall₂.nil)))).imp
    (fun _ h => ⟨h.1, h.2.1⟩)

/-- The scenario of the specification, evaluated: the three ticks return
`false`, `false`, `true` and write the initial, the no-change and the change
report. -/
theorem C5_scenario_evaluated :
    (runTicks { Domains := ["example.com"], RecordType := "A", NoColor := true } Store.empty
        [(fixedEnv [⟨[93, 184, 216, 34]⟩] [], "t1"), (fixedEnv [⟨[93, 184, 216, 34]⟩] [], "t2"),
         (fixedEnv [⟨[93, 184, 216, 35]⟩] [], "t3")]).map
      (fun rs => rs.map (fun r => (r.changed, r.out, r.lastRecords.get "example.com:A"))) =
    some [(false, [.stdout "[t1] example.com (A) - Initial: [93.184.216.34]\n",
                   .logger "[t1] example.com (A) - Initial: [93.184.216.34]"],
             some ⟨"example.com", "A", ["93.184.216.34"]⟩),
          (false, [.stdout "[t2] example.com (A) - No change: [93.184.216.34]\n",
                   .logger "[t2] example.com (A) - No change: [93.184.216.34]"],
             some ⟨"example.com", "A", ["93.184.216.34"]⟩),
          (true, [.stdout "[t3] example.com (A) - CHANGE DETECTED:\n",
                  .logger "[t3] example.com (A) - CHANGE DETECTED:",
                  .stdout "  Before: [93.184.216.34]\n",
                  .stdout "  After:  [93.184.216.35]\n",
                  .logger "  Before: [93.184.216.34]",
                  .logger "  After:  [93.184.216.35]"],
             some ⟨"example.com", "A", ["93.184.216.35"]⟩)] := by
  decide

/-! ## Order-independence of the resolver adapter -/

theorem sortStrings_sorted (l : List String) :
    (sortStrings l).Sorted (fun a b => a.data ≤ b.data) := by
  haveI : IsTotal String (fun a b => a.data ≤ b.data) := ⟨fun a b => le_total a.data b.data⟩
  haveI : IsTrans String (fun a b => a.data ≤ b.data) :=
    ⟨fun a b c hab hbc => le_trans hab hbc⟩
  exact List.sorted_insertionSort _ l

theorem sortStrings_perm (l : List String) : (sortStrings l).Perm l :=
  List.perm_insertionSort _ l

theorem sortStrings_eq_of_perm (l₁ l₂ : List String) (h : l₁.Perm l₂) :
    sortStrings l₁ = sortStrings l₂ := by
  haveI : IsAntisymm String (fun a b => a.data ≤ b.data) :=
    ⟨fun a b hab hba => String.ext (le_antisymm hab hba)⟩
  exact List.eq_of_perm_of_sorted
    (((sortStrings_perm l₁).trans h).trans (sortStrings_perm l₂).symm)
    (sortStrings_sorted l₁) (sortStrings_sorted l₂)

theorem queryA_perm (e₁ e₂ : Env) (domain : String) (ips₁ ips₂ : List IP)
    (hstr : e₁.ipString = e₂.ipString)
    (h₁ : e₁.LookupIP domain = .ok ips₁) (h₂ : e₂.LookupIP domain = .ok ips₂)
    (hp : ips₁.Perm ips₂) : queryA e₁ domain = queryA e₂ domain := by
  have hv : ((ips₁.filter (fun ip => ip.To4.isSome)).map e₁.ipString).Perm
      ((ips₂.filter (fun ip => ip.To4.isSome)).map e₂.ipString) := by
    rw [hstr]
    exact (hp.filter _).map _
  simp only [queryA, h₁, h₂, hv.length_eq, sortStrings_eq_of_perm _ _ hv]

theorem queryAAAA_perm (e₁ e₂ : Env) (domain : String) (ips₁ ips₂ : List IP)
    (hstr : e₁.ipString = e₂.ipString)
    (h₁ : e₁.LookupIP domain = .ok ips₁) (h₂ : e₂.LookupIP domain = .ok ips₂)
    (hp : ips₁.Perm ips₂) : queryAAAA e₁ domain = queryAAAA e₂ domain := by
  have hv : ((ips₁.filter (fun ip => ip.To4.isNone && ip.To16.isSome)).map e₁.ipString).Perm
      ((ips₂.filter (fun ip => ip.To4.isNone && ip.To16.isSome)).map e₂.ipString) := by
    rw [hstr]
    exact (hp.filter _).map _
  simp only [queryAAAA, h₁, h₂, hv.length_eq, sortStrings_eq_of_perm _ _ hv]

theorem queryMX_perm (e₁ e₂ : Env) (domain : String) (mxs₁ mxs₂ : List MX)
    (h₁ : e₁.LookupMX domain = .ok mxs₁) (h₂ : e₂.LookupMX domain = .ok mxs₂)
    (hp : mxs₁.Perm mxs₂) : queryMX e₁ domain = queryMX e₂ domain := by
  simp only [queryMX, h₁, h₂, sortStrings_eq_of_perm _ _ (hp.map mxValue)]

theorem queryTXT_perm (e₁ e₂ : Env) (domain : String) (txts₁ txts₂ : List String)
    (h₁ : e₁.LookupTXT domain = .ok txts₁) (h₂ : e₂.LookupTXT domain = .ok txts₂)
    (hp : txts₁.Perm txts₂) : queryTXT e₁ domain = queryTXT e₂ domain := by
  simp only [queryTXT, h₁, h₂, hp.length_eq, sortStrings_eq_of_perm _ _ hp]

/-- C7: take two runs of the resolver adapter for the same domain and a record
type that `Query` dispatches to `queryA`, `queryAAAA`, `queryMX` or
`queryTXT`, in which the platform resolver returns for that type two answer
lists that are permutations of each other. The two runs give the same result
(the same record, or the same error when the filter leaves nothing), and when
they give records `r1` and `r2` then `r1.Equals(r2)` is `true`. -/
theorem C7_query_order_independent (e₁ e₂ : Env) (domain recordType : String)
    (hup : e₁.ToUpper = e₂.ToUpper) (hstr : e₁.ipString = e₂.ipString)
    (ht : ((e₁.ToUpper recordType = "A" ∨ e₁.ToUpper recordType = "AAAA") ∧
            ∃ ips₁ ips₂, e₁.LookupIP domain = .ok ips₁ ∧ e₂.LookupIP domain = .ok ips₂
              ∧ ips₁.Perm ips₂)
        ∨ (e₁.ToUpper recordType = "MX" ∧
            ∃ mxs₁ mxs₂, e₁.LookupMX domain = .ok mxs₁ ∧ e₂.LookupMX domain = .ok mxs₂
              ∧ mxs₁.Perm mxs₂)
        ∨ (e₁.ToUpper recordType = "TXT" ∧
            ∃ txts₁ txts₂, e₁.LookupTXT domain = .ok txts₁ ∧ e₂.LookupTXT domain = .ok txts₂
              ∧ txts₁.Perm txts₂)) :
    Query e₁ domain recordType = Query e₂ domain recordType ∧
    ∀ r₁ r₂, Query e₁ domain recordType = .ok r₁ → Query e₂ domain recordType = .ok r₂ →
      r₁.Equals r₂ = some true := by
  have hQ : Query e₁ domain recordType = Query e₂ domain recordType := by
    rcases ht with ⟨h, ips₁, ips₂, h₁, h₂, hp⟩ | ⟨h, mxs₁, mxs₂, h₁, h₂, hp⟩
        | ⟨h, txts₁, txts₂, h₁, h₂, hp⟩
    · have hA := queryA_perm e₁ e₂ domain ips₁ ips₂ hstr h₁ h₂ hp
      have hAAAA := queryAAAA_perm e₁ e₂ domain ips₁ ips₂ hstr h₁ h₂ hp
      rcases h with h | h <;> simp [Query, ← hup, h, hA, hAAAA]
    · have hMX := queryMX_perm e₁ e₂ domain mxs₁ mxs₂ h₁ h₂ hp
      simp [Query, ← hup, h, hMX]
    · have hTXT := queryTXT_perm e₁ e₂ domain txts₁ txts₂ h₁ h₂ hp
      simp [Query, ← hup, h, hTXT]
  refine ⟨hQ, ?_⟩
  intro r₁ r₂ h₁ h₂
  rw [hQ, h₂] at h₁
  cases h₁
  rw [Equals_eq_decide]
  simp

/-- C7 at a concrete input: the A lookup of example.com with the two
addresses in either order gives the record with the sorted values. -/
theorem C7_query_order_independent_witness :
    Query (fixedEnv [⟨[93, 184, 216, 34]⟩, ⟨[10, 0, 0, 1]⟩] []) "example.com" "A" =
      Query (fixedEnv [⟨[10, 0, 0, 1]⟩, ⟨[93, 184, 216, 34]⟩] []) "example.com" "A"
    ∧ Query (fixedEnv [⟨[93, 184, 216, 34]⟩, ⟨[10, 0, 0, 1]⟩] []) "example.com" "A" =
      .ok ⟨"example.com", "A", ["10.0.0.1", "93.184.216.34"]⟩ :=
  ⟨(C7_query_order_independent
    (fixedEnv [⟨[93, 184, 216, 34]⟩, ⟨[10, 0, 0, 1]⟩] [])
    (fixedEnv [⟨[10, 0, 0, 1]⟩, ⟨[93, 184, 216, 34]⟩] [])
    "example.com" "A" rfl rfl
    (Or.inl ⟨Or.inl (by rfl), [⟨[93, 184, 216, 34]⟩, ⟨[10, 0, 0, 1]⟩],
      [⟨[10, 0, 0, 1]⟩, ⟨[93, 184, 216, 34]⟩], rfl, rfl, List.Perm.swap _ _ _⟩)).1, by rfl⟩

/-! ## Intervals -/

theorem hasSuffix_append_self (n suf : String) : hasSuffix (n ++ suf) suf = true := by
  simp [hasSuffix, String.data_append]

theorem hasSuffix_append_ne (n suf₁ suf₂ : String) (c d : Char) (h₁ : suf₁.data = [c])
    (h₂ : suf₂.data = [d]) (hcd : c ≠ d) : hasSuffix (n ++ suf₁) suf₂ = false := by
  rw [Bool.eq_false_iff]
  intro h
  simp only [hasSuffix, String.data_append, h₁, h₂, List.isSuffixOf_iff_suffix] at h
  obtain ⟨t, ht⟩ := h
  have := congrArg List.getLast? ht
  simp at this
  exact hcd this.symm

theorem dropLast_append_char (n suf : String) (c : Char) (h : suf.data = [c]) :
    dropLast (n ++ suf) = n := by
  apply String.ext
  simp [dropLast, String.data_append, h]

theorem eq_dropLast_append (s suf : String) (c : Char) (h : suf.data = [c])
    (hs : hasSuffix s suf = true) : s = dropLast s ++ suf := by
  simp only [hasSuffix, h, List.isSuffixOf_iff_suffix] at hs
  obtain ⟨t, ht⟩ := hs
  apply String.ext
  simp [dropLast, String.data_append, h, ← ht]

theorem foldl_digits_ge (ds : List Char) (n : Nat) :
    n ≤ ds.foldl (fun n c => n * 10 + (c.toNat - '0'.toNat)) n := by
  induction ds generalizing n with
  | nil => simp
  | cons c cs ih =>
    simp only [List.foldl_cons]
    exact le_trans (by omega) (ih _)

theorem parseUintLoop_digits (ds : List Char) (hall : ds.all isDigit = true) (n : Nat)
    (hn : n ≤ 2 ^ 64 - 1) :
    parseUintLoop n ds =
      if ds.foldl (fun n c => n * 10 + (c.toNat - '0'.toNat)) n ≤ 2 ^ 64 - 1
      then .ok (ds.foldl (fun n c => n * 10 + (c.toNat - '0'.toNat)) n)
      else .error .ErrRange := by
  induction ds generalizing n with
  | nil =>
    norm_num at hn
    simp [parseUintLoop, hn]
  | cons c cs ih =>
    simp only [List.all_cons, Bool.and_eq_true] at hall
    have hge := foldl_digits_ge cs (n * 10 + (c.toNat - '0'.toNat))
    rw [parseUintLoop]
    simp only [hall.1, Bool.not_true, Bool.false_eq_true, if_false, List.foldl_cons]
    by_cases h1 : n ≥ (2 ^ 64 - 1) / 10 + 1
    · rw [if_pos h1, if_neg]
      norm_num at h1 ⊢
      omega
    · rw [if_neg h1]
      by_cases h2 : n * 10 + (c.toNat - '0'.toNat) > 2 ^ 64 - 1
      · rw [if_pos h2, if_neg]
        omega
      · rw [if_neg h2]
        exact ih hall.2 _ (by omega)

theorem parseUintLoop_ok_digits (ds : List Char) (n v : Nat)
    (h : parseUintLoop n ds = .ok v) : ds.all isDigit = true := by
  induction ds generalizing n with
  | nil => rfl
  | cons c cs ih =>
    rw [parseUintLoop] at h
    by_cases hc : isDigit c = true
    · simp only [hc, Bool.not_true, Bool.false_eq_true, if_false] at h
      split at h
      · cases h
      · split at h
        · cases h
        · simp [hc, ih _ h]
    · simp [hc] at h


/-- The part of `Atoi` after the sign has been split off. -/
theorem atoi_core (s : String) (neg : Bool) (digits : List Char) (n : Int) :
    (if digits.isEmpty then (.error (.numError "Atoi" s .ErrSyntax) : Except GoError Int)
      else
        match parseUintLoop 0 digits with
        | .error cause => .error (.numError "Atoi" s cause)
        | .ok un =>
          if !neg && un ≥ 2 ^ 63 then .error (.numError "Atoi" s .ErrRange)
          else if neg && un > 2 ^ 63 then .error (.numError "Atoi" s .ErrRange)
          else .ok (if neg then -(un : Int) else (un : Int))) = .ok n ↔
      ((!digits.isEmpty && digits.all isDigit) = true ∧
        (if neg then -(digitsValue digits : Int) else (digitsValue digits : Int)) = n ∧
        -2 ^ 63 ≤ n ∧ n < 2 ^ 63) := by
  by_cases he : digits.isEmpty = true
  · simp [he]
  · by_cases hall : digits.all isDigit = true
    · have hl := parseUintLoop_digits digits hall 0 (by norm_num)
      rw [if_neg he, hl]
      simp only [Bool.not_eq_true] at he
      simp only [he, hall, Bool.not_false, Bool.and_self, true_and]
      change _ ↔ ((if neg = true then -(digitsValue digits : Int) else (digitsValue digits : Int)) = n ∧ _)
      unfold digitsValue
      generalize List.foldl (fun n c => n * 10 + (c.toNat - '0'.toNat)) 0 digits = v
      by_cases hv : v ≤ 2 ^ 64 - 1
      · rw [if_pos hv]
        cases neg
        · simp only [Bool.not_false, Bool.true_and, Bool.false_and, Bool.false_eq_true, if_false,
            decide_eq_true_eq]
          by_cases h63 : v ≥ 2 ^ 63
          · rw [if_pos h63]
            constructor
            · intro h; cases h
            · rintro ⟨h1, h2, h3⟩
              subst h1
              norm_num at h63 h3
              omega
          · rw [if_neg h63]
            constructor
            · intro h
              cases h
              norm_num at h63 ⊢
              omega
            · rintro ⟨h1, _, _⟩
              rw [h1]
        · simp only [Bool.not_true, Bool.false_and, Bool.false_eq_true, if_false, Bool.true_and,
            decide_eq_true_eq, if_true]
          by_cases h63 : v > 2 ^ 63
          · rw [if_pos h63]
            constructor
            · intro h; cases h
            · rintro ⟨h1, h2, h3⟩
              subst h1
              norm_num at h63 h2
              omega
          · rw [if_neg h63]
            constructor
            · intro h
              cases h
              norm_num at h63 ⊢
              omega
            · rintro ⟨h1, _, _⟩
              rw [h1]
      · rw [if_neg hv]
        constructor
        · intro h; cases h
        · rintro ⟨h1, h2, h3⟩
          exfalso
          norm_num at hv
          cases neg
          · simp only [Bool.false_eq_true, if_false] at h1
            subst h1
            norm_num at h3
            omega
          · simp only [if_true] at h1
            subst h1
            norm_num at h2
            omega
    · rw [if_neg he]
      have hne : ∀ v, parseUintLoop 0 digits ≠ .ok v :=
        fun v hv => hall (parseUintLoop_ok_digits digits 0 v hv)
      constructor
      · intro h
        cases hp : parseUintLoop 0 digits with
        | error e => rw [hp] at h; cases h
        | ok v => exact absurd hp (hne v)
      · rintro ⟨h1, _⟩
        simp [hall] at h1

theorem Atoi_ok_iff (s : String) (n : Int) :
    Atoi s = .ok n ↔
      (isIntegerNumeral s = true ∧ numeralValue s = n ∧ -2 ^ 63 ≤ n ∧ n < 2 ^ 63) := by
  obtain ⟨cs⟩ := s
  cases cs with
  | nil => simp [Atoi, isIntegerNumeral]
  | cons c cs =>
    by_cases hm : c = '-'
    · subst hm
      have := atoi_core ⟨'-' :: cs⟩ true cs n
      simpa [Atoi, isIntegerNumeral, numeralValue] using this
    · by_cases hp : c = '+'
      · subst hp
        have := atoi_core ⟨'+' :: cs⟩ false cs n
        simpa [Atoi, isIntegerNumeral, numeralValue] using this
      · have := atoi_core ⟨c :: cs⟩ false (c :: cs) n
        have e1 : isIntegerNumeral ⟨c :: cs⟩ = (!(c :: cs).isEmpty && (c :: cs).all isDigit) := by
          unfold isIntegerNumeral
          split
          · rename_i h; simp at h; exact absurd h.1 hm
          · rename_i h; simp at h; exact absurd h.1 hp
          · rfl
        have e2 : numeralValue ⟨c :: cs⟩ = (digitsValue (c :: cs) : Int) := by
          unfold numeralValue
          split
          · rename_i h; simp at h; exact absurd h.1 hm
          · rename_i h; simp at h; exact absurd h.1 hp
          · rfl
        rw [e1, e2]
        simpa [Atoi, hm, hp] using this

theorem numeral_not_hasSuffix (s suf : String) (c : Char) (hs : isIntegerNumeral s = true)
    (h : suf.data = [c]) (hc : isDigit c = false) : hasSuffix s suf = false := by
  rw [Bool.eq_false_iff]
  intro hsuf
  simp only [hasSuffix, h, List.isSuffixOf_iff_suffix] at hsuf
  obtain ⟨t, ht⟩ := hsuf
  have key : ∀ ds : List Char, ds.all isDigit = true → ∀ t', ds ≠ t' ++ [c] := by
    intro ds hds t' he
    rw [he] at hds
    simp [hc] at hds
  unfold isIntegerNumeral at hs
  split at hs
  · rename_i ds hd
    simp only [Bool.and_eq_true, Bool.not_eq_true', List.isEmpty_eq_false] at hs
    rw [hd] at ht
    cases t with
    | nil => simp at ht; exact hs.1 ht.2
    | cons a t' =>
      simp only [List.cons_append, List.cons.injEq] at ht
      exact key ds hs.2 t' ht.2.symm
  · rename_i ds hd
    simp only [Bool.and_eq_true, Bool.not_eq_true', List.isEmpty_eq_false] at hs
    rw [hd] at ht
    cases t with
    | nil => simp at ht; exact hs.1 ht.2
    | cons a t' =>
      simp only [List.cons_append, List.cons.injEq] at ht
      exact key ds hs.2 t' ht.2.symm
  · simp only [Bool.and_eq_true] at hs
    exact key _ hs.2 t ht.symm

theorem parseDuration_suffix_s (numeral : String) :
    parseDuration (numeral ++ "s") =
      (match Atoi numeral with
       | .error err => .error err
       | .ok seconds => .ok (wrap64 (seconds * Second))) := by
  rw [parseDuration, if_pos (hasSuffix_append_self numeral "s"),
    dropLast_append_char numeral "s" 's' rfl]

theorem parseDuration_suffix_m (numeral : String) :
    parseDuration (numeral ++ "m") =
      (match Atoi numeral with
       | .error err => .error err
       | .ok minutes => .ok (wrap64 (minutes * Minute))) := by
  have h1 : hasSuffix (numeral ++ "m") "s" = false :=
    hasSuffix_append_ne numeral "m" "s" 'm' 's' rfl rfl (by decide)
  rw [parseDuration, h1, if_pos (hasSuffix_append_self numeral "m"),
    dropLast_append_char numeral "m" 'm' rfl]
  simp

theorem parseDuration_suffix_h (numeral : String) :
    parseDuration (numeral ++ "h") =
      (match Atoi numeral with
       | .error err => .error err
       | .ok hours => .ok (wrap64 (hours * Hour))) := by
  have h1 : hasSuffix (numeral ++ "h") "s" = false :=
    hasSuffix_append_ne numeral "h" "s" 'h' 's' rfl rfl (by decide)
  have h2 : hasSuffix (numeral ++ "h") "m" = false :=
    hasSuffix_append_ne numeral "h" "m" 'h' 'm' rfl rfl (by decide)
  rw [parseDuration, h1, h2, if_pos (hasSuffix_append_self numeral "h"),
    dropLast_append_char numeral "h" 'h' rfl]
  simp

theorem parseDuration_bare (numeral : String) (n : Int) (h : Atoi numeral = .ok n) :
    parseDuration numeral = .ok (wrap64 (n * Second)) := by
  have hnum := ((Atoi_ok_iff numeral n).1 h).1
  have h1 := numeral_not_hasSuffix numeral "s" 's' hnum rfl (by decide)
  have h2 := numeral_not_hasSuffix numeral "m" 'm' hnum rfl (by decide)
  have h3 := numeral_not_hasSuffix numeral "h" 'h' hnum rfl (by decide)
  rw [parseDuration, h1, h2, h3, h]
  simp

theorem wrap64_of_fits (x : Int) (h1 : -2 ^ 63 ≤ x) (h2 : x < 2 ^ 63) : wrap64 x = x := by
  unfold wrap64
  rw [Int.emod_eq_of_lt (by omega) (by omega)]
  omega

/-- C8, as the code has it: for every integer `n` whose numeral `Atoi`
accepts, `parseDuration` returns the 64-bit product of `n` and the unit for the
numeral followed by `s` (unit second), `m` (unit minute), `h` (unit hour) and
for the bare numeral (unit second); whenever the product fits in an int64
this is exactly `n` seconds, `60*n` seconds, `3600*n` seconds and `n`
seconds. -/
theorem C8_parseDuration_values (numeral : String) (n : Int) (h : Atoi numeral = .ok n) :
    parseDuration (numeral ++ "s") = .ok (wrap64 (n * Second))
    ∧ parseDuration (numeral ++ "m") = .ok (wrap64 (60 * n * Second))
    ∧ parseDuration (numeral ++ "h") = .ok (wrap64 (3600 * n * Second))
    ∧ parseDuration numeral = .ok (wrap64 (n * Second))
    ∧ ((-2 ^ 63 ≤ n * Second ∧ n * Second < 2 ^ 63) →
        parseDuration (numeral ++ "s") = .ok (n * Second)
        ∧ parseDuration numeral = .ok (n * Second))
    ∧ ((-2 ^ 63 ≤ 60 * n * Second ∧ 60 * n * Second < 2 ^ 63) →
        parseDuration (numeral ++ "m") = .ok (60 * n * Second))
    ∧ ((-2 ^ 63 ≤ 3600 * n * Second ∧ 3600 * n * Second < 2 ^ 63) →
        parseDuration (numeral ++ "h") = .ok (3600 * n * Second)) := by
  have hs : parseDuration (numeral ++ "s") = .ok (wrap64 (n * Second)) := by
    rw [parseDuration_suffix_s, h]
  have hm : parseDuration (numeral ++ "m") = .ok (wrap64 (60 * n * Second)) := by
    rw [parseDuration_suffix_m, h]
    simp only [Minute]
    congr 2
    ring
  have hh : parseDuration (numeral ++ "h") = .ok (wrap64 (3600 * n * Second)) := by
    rw [parseDuration_suffix_h, h]
    simp only [Hour, Minute]
    congr 2
    ring
  have hb := parseDuration_bare numeral n h
  refine ⟨hs, hm, hh, hb, ?_, ?_, ?_⟩
  · rintro ⟨h1, h2⟩
    rw [hs, hb, wrap64_of_fits _ h1 h2]
    exact ⟨rfl, rfl⟩
  · rintro ⟨h1, h2⟩
    rw [hm, wrap64_of_fits _ h1 h2]
  · rintro ⟨h1, h2⟩
    rw [hh, wrap64_of_fits _ h1 h2]

/-- C8 at the inputs of the specification: "30s", "5m", "2h" and "45". -/
theorem C8_parseDuration_witness :
    parseDuration "30s" = .ok (30 * Second) ∧ parseDuration "5m" = .ok (300 * Second)
    ∧ parseDuration "2h" = .ok (7200 * Second) ∧ parseDuration "45" = .ok (45 * Second) :=
  ⟨((C8_parseDuration_values "30" 30 (by decide)).2.2.2.2.1 (by decide)).1,
   (C8_parseDuration_values "5" 5 (by decide)).2.2.2.2.2.1 (by decide),
   (C8_parseDuration_values "2" 2 (by decide)).2.2.2.2.2.2 (by decide),
   ((C8_parseDuration_values "45" 45 (by decide)).2.2.2.2.1 (by decide)).2⟩

/-- C8 as stated fails where the product leaves 64 bits: `Atoi` accepts
"9223372037", and "9223372037s" parses to a negative duration, not to
9223372037 seconds. -/
theorem C8_overflow_counterexample :
    Atoi "9223372037" = .ok 9223372037
    ∧ parseDuration ("9223372037" ++ "s") = .ok (-9223372036709551616)
    ∧ parseDuration ("9223372037" ++ "s") ≠ .ok (9223372037 * Second) := by
  decide

theorem parseDuration_ok_decompose (s : String) (d : Int) (h : parseDuration s = .ok d) :
    ∃ numeral suffix n, s = numeral ++ suffix ∧
      (suffix = "" ∨ suffix = "s" ∨ suffix = "m" ∨ suffix = "h") ∧ Atoi numeral = .ok n := by
  have split3 : ∀ (suf : String) (c : Char) (unit : Int), suf.data = [c] →
      hasSuffix s suf = true →
      (match Atoi (dropLast s) with
       | .error err => (.error err : Except GoError Int)
       | .ok v => .ok (wrap64 (v * unit))) = .ok d →
      ∃ n, s = dropLast s ++ suf ∧ Atoi (dropLast s) = .ok n := by
    intro suf c unit hsuf hs hm
    cases ha : Atoi (dropLast s) with
    | error e => rw [ha] at hm; cases hm
    | ok n => exact ⟨n, eq_dropLast_append s suf c hsuf hs, rfl⟩
  rw [parseDuration] at h
  by_cases h1 : hasSuffix s "s" = true
  · rw [if_pos h1] at h
    obtain ⟨n, e, ha⟩ := split3 "s" 's' Second rfl h1 h
    exact ⟨dropLast s, "s", n, e, Or.inr (Or.inl rfl), ha⟩
  · rw [if_neg h1] at h
    by_cases h2 : hasSuffix s "m" = true
    · rw [if_pos h2] at h
      obtain ⟨n, e, ha⟩ := split3 "m" 'm' Minute rfl h2 h
      exact ⟨dropLast s, "m", n, e, Or.inr (Or.inr (Or.inl rfl)), ha⟩
    · rw [if_neg h2] at h
      by_cases h3 : hasSuffix s "h" = true
      · rw [if_pos h3] at h
        obtain ⟨n, e, ha⟩ := split3 "h" 'h' Hour rfl h3 h
        exact ⟨dropLast s, "h", n, e, Or.inr (Or.inr (Or.inr rfl)), ha⟩
      · rw [if_neg h3] at h
        cases ha : Atoi s with
        | error e => rw [ha] at h; cases h
        | ok n => exact ⟨s, "", n, by simp, Or.inl rfl, ha⟩

theorem parseDuration_ok_of_decompose (numeral suffix : String) (n : Int)
    (hsuf : suffix = "" ∨ suffix = "s" ∨ suffix = "m" ∨ suffix = "h")
    (ha : Atoi numeral = .ok n) : ∃ d, parseDuration (numeral ++ suffix) = .ok d := by
  rcases hsuf with h | h | h | h <;> subst h
  · exact ⟨_, by rw [String.append_empty]; exact parseDuration_bare numeral n ha⟩
  · exact ⟨_, by rw [parseDuration_suffix_s, ha]⟩
  · exact ⟨_, by rw [parseDuration_suffix_m, ha]⟩
  · exact ⟨_, by rw [parseDuration_suffix_h, ha]⟩

theorem parseArgsLoop_interval_error (toUpper : String → String) (config : Config)
    (flag value : String) (rest : List String) (err : GoError)
    (hf : flag = "-i" ∨ flag = "--interval") (hv : parseDuration value = .error err) :
    parseArgsLoop toUpper config (flag :: value :: rest) =
      .returned (.error (.errorfV "invalid interval: " err)) := by
  rcases hf with h | h <;> subst h <;> simp [parseArgsLoop, hv]

/-- C9, as the code has it: `parseDuration` succeeds exactly on the strings
that are an integer numeral (optional sign, one or more decimal digits) whose
value lies in the int64 range, optionally followed by exactly one of `s`, `m`,
`h`. On every other string it returns an error, and `ParseArgs` returns an
error when the loop reads that string as the value of `-i` or `--interval`
(as the first option, or after any options read before it). -/
theorem C9_parseDuration_succeeds_iff (s : String) :
    ((∃ d, parseDuration s = .ok d) ↔
      ∃ numeral suffix, s = numeral ++ suffix ∧
        (suffix = "" ∨ suffix = "s" ∨ suffix = "m" ∨ suffix = "h") ∧
        isIntegerNumeral numeral = true ∧
        -2 ^ 63 ≤ numeralValue numeral ∧ numeralValue numeral < 2 ^ 63)
    ∧ ((¬ ∃ d, parseDuration s = .ok d) →
        (∃ err, parseDuration s = .error err) ∧
        ∀ (toUpper : String → String) (flag : String) (rest : List String),
          (flag = "-i" ∨ flag = "--interval") →
          (∀ config : Config, ∃ err,
            parseArgsLoop toUpper config (flag :: s :: rest) = .returned (.error err)) ∧
          (∀ prog : String, ∃ err, ParseArgs toUpper (prog :: flag :: s :: rest) = .error err)) := by
  constructor
  · constructor
    · rintro ⟨d, hd⟩
      obtain ⟨numeral, suffix, n, e, hsuf, ha⟩ := parseDuration_ok_decompose s d hd
      obtain ⟨h1, h2, h3, h4⟩ := (Atoi_ok_iff numeral n).1 ha
      exact ⟨numeral, suffix, e, hsuf, h1, by rw [h2]; exact h3, by rw [h2]; exact h4⟩
    · rintro ⟨numeral, suffix, e, hsuf, h1, h3, h4⟩
      rw [e]
      exact parseDuration_ok_of_decompose numeral suffix (numeralValue numeral) hsuf
        ((Atoi_ok_iff numeral _).2 ⟨h1, rfl, h3, h4⟩)
  · intro hno
    have herr : ∃ err, parseDuration s = .error err := by
      cases hp : parseDuration s with
      | error e => exact ⟨e, rfl⟩
      | ok d => exact absurd ⟨d, hp⟩ hno
    refine ⟨herr, ?_⟩
    obtain ⟨err, herr⟩ := herr
    intro toUpper flag rest hf
    have hl := fun config =>
      parseArgsLoop_interval_error toUpper config flag s rest err hf herr
    refine ⟨fun config => ⟨_, hl config⟩, fun prog => ⟨.errorfV "invalid interval: " err, ?_⟩⟩
    simp only [ParseArgs, List.drop_succ_cons, List.drop_zero, hl]

/-- C9 at the strings of the specification: "30s" is accepted through the
decomposition "30" followed by "s"; "5x", "abc", the empty string and "s" are
rejected, and so is the argument list of the test. -/
theorem C9_parseDuration_witness :
    (∃ d, parseDuration "30s" = .ok d)
    ∧ (¬ ∃ d, parseDuration "5x" = .ok d) ∧ (¬ ∃ d, parseDuration "abc" = .ok d)
    ∧ (¬ ∃ d, parseDuration "" = .ok d) ∧ (¬ ∃ d, parseDuration "s" = .ok d)
    ∧ ∃ err, ParseArgs String.toUpper ["dns-monitor", "-i", "invalid", "example.com"]
        = .error err :=
  have no : ∀ s : String, (parseDuration s).toBool = false →
      ¬ ∃ d, parseDuration s = .ok d := fun s he ⟨d, hd⟩ => by
    rw [hd] at he; cases he
  ⟨(C9_parseDuration_succeeds_iff "30s").1.2
      ⟨"30", "s", by decide, Or.inr (Or.inl rfl), by decide, by decide, by decide⟩,
   no "5x" (by decide), no "abc" (by decide), no "" (by decide), no "s" (by decide),
   (((C9_parseDuration_succeeds_iff "invalid").2 (no "invalid" (by decide))).2
      String.toUpper "-i" ["example.com"] (Or.inl rfl)).2 "dns-monitor"⟩

/-- C9 as stated fails on an integer numeral outside the int64 range:
"9223372036854775808" is an integer numeral with no suffix, and `parseDuration`
rejects it. -/
theorem C9_out_of_range_counterexample :
    ¬ ((∃ d, parseDuration "9223372036854775808" = .ok d) ↔
      ∃ numeral suffix, "9223372036854775808" = numeral ++ suffix ∧
        (suffix = "" ∨ suffix = "s" ∨ suffix = "m" ∨ suffix = "h") ∧
        isIntegerNumeral numeral = true) := by
  intro h
  obtain ⟨d, hd⟩ := h.2 ⟨"9223372036854775808", "", by decide, Or.inl rfl, by decide⟩
  have he : parseDuration "9223372036854775808" = .error (.text
      "invalid duration format: 9223372036854775808 (use formats like 5s, 2m, 1h)") := by
    decide
  rw [he] at hd
  cases hd

/-! ## The argument loop -/

theorem parseArgsLoop_cons (toUpper : String → String) (config : Config) (arg : String)
    (rest : List String) :
    parseArgsLoop toUpper config (arg :: rest) =
      if arg = "-h" ∨ arg = "--help" then
        .returned (.ok { config with ShowHelp := true })
      else if arg = "-v" ∨ arg = "--version" then
        .returned (.ok { config with ShowVersion := true })
      else if arg = "-t" ∨ arg = "--type" then
        match rest with
        | [] => .returned (.error (.text ("option " ++ arg ++ " requires a value")))
        | value :: rest' =>
          parseArgsLoop toUpper { config with RecordType := toUpper value } rest'
      else if arg = "-i" ∨ arg = "--interval" then
        match rest with
        | [] => .returned (.error (.text ("option " ++ arg ++ " requires a value")))
        | value :: rest' =>
          match parseDuration value with
          | .error err => .returned (.error (.errorfV "invalid interval: " err))
          | .ok duration => parseArgsLoop toUpper { config with Interval := duration } rest'
      else if arg = "-s" ∨ arg = "--server" then
        match rest with
        | [] => .returned (.error (.text ("option " ++ arg ++ " requires a value")))
        | value :: rest' =>
          parseArgsLoop toUpper
            { config with Servers := config.Servers ++
                [if !stringsContains value ":" then value ++ ":53" else value] } rest'
      else if arg = "--all-servers" then
        parseArgsLoop toUpper { config with AllServers := true } rest
      else if arg = "--until-change" then
        parseArgsLoop toUpper { config with UntilChange := true } rest
      else if arg = "-o" ∨ arg = "--output" then
        match rest with
        | [] => .returned (.error (.text ("option " ++ arg ++ " requires a value")))
        | value :: rest' => parseArgsLoop toUpper { config with OutputFile := value } rest'
      else if arg = "--no-color" then
        parseArgsLoop toUpper { config with NoColor := true } rest
      else if hasPrefix arg "-" then
        .returned (.error (.text ("unknown option: " ++ arg)))
      else
        .done { config with Domains := config.Domains ++ (arg :: rest) } := by
  cases rest <;> simp only [parseArgsLoop]

theorem parseArgsLoop_help (toUpper : String → String) (config : Config) (arg : String)
    (rest : List String) (h : arg = "-h" ∨ arg = "--help") :
    parseArgsLoop toUpper config (arg :: rest) =
      .returned (.ok { config with ShowHelp := true }) := by
  rw [parseArgsLoop_cons, if_pos h]

theorem parseArgsLoop_version (toUpper : String → String) (config : Config) (arg : String)
    (rest : List String) (h : arg = "-v" ∨ arg = "--version") :
    parseArgsLoop toUpper config (arg :: rest) =
      .returned (.ok { config with ShowVersion := true }) := by
  rcases h with h | h <;> subst h <;> simp [parseArgsLoop_cons]

theorem parseArgsLoop_missing_value (toUpper : String → String) (config : Config)
    (arg : String)
    (h : arg = "-t" ∨ arg = "--type" ∨ arg = "-i" ∨ arg = "--interval" ∨ arg = "-s"
      ∨ arg = "--server" ∨ arg = "-o" ∨ arg = "--output") :
    parseArgsLoop toUpper config [arg] =
      .returned (.error (.text ("option " ++ arg ++ " requires a value"))) := by
  rcases h with h | h | h | h | h | h | h | h <;> subst h <;> simp [parseArgsLoop_cons]

theorem parseArgsLoop_type (toUpper : String → String) (config : Config) (arg value : String)
    (rest : List String) (h : arg = "-t" ∨ arg = "--type") :
    parseArgsLoop toUpper config (arg :: value :: rest) =
      parseArgsLoop toUpper { config with RecordType := toUpper value } rest := by
  rcases h with h | h <;> subst h <;> simp [parseArgsLoop_cons]

theorem parseArgsLoop_interval (toUpper : String → String) (config : Config)
    (arg value : String) (rest : List String) (h : arg = "-i" ∨ arg = "--interval") :
    parseArgsLoop toUpper config (arg :: value :: rest) =
      match parseDuration value with
      | .error err => .returned (.error (.errorfV "invalid interval: " err))
      | .ok duration => parseArgsLoop toUpper { config with Interval := duration } rest := by
  rcases h with h | h <;> subst h <;> simp [parseArgsLoop_cons]

theorem parseArgsLoop_server (toUpper : String → String) (config : Config)
    (arg value : String) (rest : List String) (h : arg = "-s" ∨ arg = "--server") :
    parseArgsLoop toUpper config (arg :: value :: rest) =
      parseArgsLoop toUpper
        { config with Servers := config.Servers ++
            [if !stringsContains value ":" then value ++ ":53" else value] } rest := by
  rcases h with h | h <;> subst h <;> simp [parseArgsLoop_cons]

theorem parseArgsLoop_output (toUpper : String → String) (config : Config)
    (arg value : String) (rest : List String) (h : arg = "-o" ∨ arg = "--output") :
    parseArgsLoop toUpper config (arg :: value :: rest) =
      parseArgsLoop toUpper { config with OutputFile := value } rest := by
  rcases h with h | h <;> subst h <;> simp [parseArgsLoop_cons]

theorem parseArgsLoop_all_servers (toUpper : String → String) (config : Config)
    (rest : List String) :
    parseArgsLoop toUpper config ("--all-servers" :: rest) =
      parseArgsLoop toUpper { config with AllServers := true } rest := by
  simp [parseArgsLoop_cons]

theorem parseArgsLoop_until_change (toUpper : String → String) (config : Config)
    (rest : List String) :
    parseArgsLoop toUpper config ("--until-change" :: rest) =
      parseArgsLoop toUpper { config with UntilChange := true } rest := by
  simp [parseArgsLoop_cons]

theorem parseArgsLoop_no_color (toUpper : String → String) (config : Config)
    (rest : List String) :
    parseArgsLoop toUpper config ("--no-color" :: rest) =
      parseArgsLoop toUpper { config with NoColor := true } rest := by
  simp [parseArgsLoop_cons]

/-- A token that is none of the options: an unknown option when it starts with
`-`, else the first domain. -/
theorem parseArgsLoop_other (toUpper : String → String) (config : Config) (arg : String)
    (rest : List String)
    (h : ¬ (arg = "-h" ∨ arg = "--help" ∨ arg = "-v" ∨ arg = "--version" ∨ arg = "-t"
      ∨ arg = "--type" ∨ arg = "-i" ∨ arg = "--interval" ∨ arg = "-s" ∨ arg = "--server"
      ∨ arg = "--all-servers" ∨ arg = "--until-change" ∨ arg = "-o" ∨ arg = "--output"
      ∨ arg = "--no-color")) :
    parseArgsLoop toUpper config (arg :: rest) =
      if hasPrefix arg "-" then .returned (.error (.text ("unknown option: " ++ arg)))
      else .done { config with Domains := config.Domains ++ (arg :: rest) } := by
  simp only [not_or] at h
  obtain ⟨h1, h2, h3, h4, h5, h6, h7, h8, h9, h10, h11, h12, h13, h14, h15⟩ := h
  rw [parseArgsLoop_cons]
  simp only [h1, h2, h3, h4, h5, h6, h7, h8, h9, h10, h11, h12, h13, h14, h15, or_self,
    if_false]

/-- The address `ParseArgs` stores for a value of `-s` / `--server`. -/
theorem server_value_eq (value : String) :
    (if !stringsContains value ":" then value ++ ":53" else value) =
      (if stringsContains value ":" then value else value ++ ":53") := by
  cases stringsContains value ":" <;> rfl

theorem serverValues_cons (arg : String) (rest : List String) :
    serverValues (arg :: rest) =
      if arg = "-s" ∨ arg = "--server" then
        match rest with
        | [] => []
        | value :: rest' => value :: serverValues rest'
      else if arg = "-t" ∨ arg = "--type" ∨ arg = "-i" ∨ arg = "--interval"
          ∨ arg = "-o" ∨ arg = "--output" then
        match rest with
        | [] => []
        | _ :: rest' => serverValues rest'
      else if arg = "--all-servers" ∨ arg = "--until-change" ∨ arg = "--no-color" then
        serverValues rest
      else [] := by
  cases rest <;> simp only [serverValues]

theorem parseArgsLoop_servers (toUpper : String → String) :
    ∀ (n : Nat) (toks : List String), toks.length ≤ n → ∀ (config c : Config),
      (parseArgsLoop toUpper config toks = .returned (.ok c)
        ∨ parseArgsLoop toUpper config toks = .done c) →
      c.Servers = config.Servers ++
        (serverValues toks).map (fun v => if stringsContains v ":" then v else v ++ ":53") := by
  intro n
  induction n with
  | zero =>
    intro toks hlen config c h
    have : toks = [] := List.length_eq_zero.mp (by omega)
    subst this
    simp [parseArgsLoop, serverValues] at h ⊢
    rw [h]
  | succ n ih =>
    intro toks hlen config c h
    cases toks with
    | nil =>
      simp [parseArgsLoop, serverValues] at h ⊢
      rw [h]
    | cons arg rest =>
      have hr : rest.length ≤ n := by simp at hlen; omega
      by_cases h1 : arg = "-h" ∨ arg = "--help"
      · rw [parseArgsLoop_help _ _ _ _ h1] at h
        rcases h1 with h1 | h1 <;> subst h1 <;> simp at h <;> rw [← h] <;>
          simp [serverValues_cons]
      by_cases h2 : arg = "-v" ∨ arg = "--version"
      · rw [parseArgsLoop_version _ _ _ _ h2] at h
        rcases h2 with h2 | h2 <;> subst h2 <;> simp at h <;> rw [← h] <;>
          simp [serverValues_cons]
      by_cases h3 : arg = "-t" ∨ arg = "--type"
      · cases rest with
        | nil =>
          rw [parseArgsLoop_missing_value _ _ _ (by tauto)] at h
          simp at h
        | cons value rest' =>
          rw [parseArgsLoop_type _ _ _ _ _ h3] at h
          have := ih rest' (by simp at hr; omega) _ c h
          rcases h3 with h3 | h3 <;> subst h3 <;> simpa [serverValues_cons] using this
      by_cases h4 : arg = "-i" ∨ arg = "--interval"
      · cases rest with
        | nil =>
          rw [parseArgsLoop_missing_value _ _ _ (by tauto)] at h
          simp at h
        | cons value rest' =>
          rw [parseArgsLoop_interval _ _ _ _ _ h4] at h
          cases hp : parseDuration value with
          | error e => rw [hp] at h; simp at h
          | ok d =>
            rw [hp] at h
            have := ih rest' (by simp at hr; omega) _ c h
            rcases h4 with h4 | h4 <;> subst h4 <;> simpa [serverValues_cons] using this
      by_cases h5 : arg = "-s" ∨ arg = "--server"
      · cases rest with
        | nil =>
          rw [parseArgsLoop_missing_value _ _ _ (by tauto)] at h
          simp at h
        | cons value rest' =>
          rw [parseArgsLoop_server _ _ _ _ _ h5, server_value_eq] at h
          have := ih rest' (by simp at hr; omega) _ c h
          rcases h5 with h5 | h5 <;> subst h5 <;> simpa [serverValues_cons] using this
      by_cases h6 : arg = "--all-servers"
      · subst h6
        rw [parseArgsLoop_all_servers] at h
        simpa [serverValues_cons] using ih rest hr _ c h
      by_cases h7 : arg = "--until-change"
      · subst h7
        rw [parseArgsLoop_until_change] at h
        simpa [serverValues_cons] using ih rest hr _ c h
      by_cases h8 : arg = "-o" ∨ arg = "--output"
      · cases rest with
        | nil =>
          rw [parseArgsLoop_missing_value _ _ _ (by tauto)] at h
          simp at h
        | cons value rest' =>
          rw [parseArgsLoop_output _ _ _ _ _ h8] at h
          have := ih rest' (by simp at hr; omega) _ c h
          rcases h8 with h8 | h8 <;> subst h8 <;> simpa [serverValues_cons] using this
      by_cases h9 : arg = "--no-color"
      · subst h9
        rw [parseArgsLoop_no_color] at h
        simpa [serverValues_cons] using ih rest hr _ c h
      · rw [parseArgsLoop_other _ _ _ _ (by tauto)] at h
        simp only [not_or] at h1 h2 h3 h4 h5 h8
        have hsv : serverValues (arg :: rest) = [] := by
          simp [serverValues_cons, h1, h2, h3, h4, h5, h6, h7, h8, h9]
        rw [hsv]
        split_ifs at h with hp
        · simp at h
        · simp at h
          rw [← h]
          simp

/-- C10 (amended): in every configuration `ParseArgs` returns with `AllServers`
unset, `Servers` is the list of the values that the loop read as values of `-s` /
`--server` (those before any help or version flag and before the first domain), in
the order read, each one unchanged when it contains a `:` and with `:53` appended
when it does not. -/
theorem C10_servers_default_port (toUpper : String → String) (args : List String)
    (config : Config) (h : ParseArgs toUpper args = .ok config)
    (hall : config.AllServers = false) :
    config.Servers = (serverValues (args.drop 1)).map
        (fun v => if stringsContains v ":" then v else v ++ ":53")
    ∧ ∀ v ∈ serverValues (args.drop 1),
        (stringsContains v ":" = false → v ++ ":53" ∈ config.Servers)
        ∧ (stringsContains v ":" = true → v ∈ config.Servers) := by
  have key : config.Servers = (serverValues (args.drop 1)).map
      (fun v => if stringsContains v ":" then v else v ++ ":53") := by
    unfold ParseArgs at h
    cases hl : parseArgsLoop toUpper
        { RecordType := "A", Interval := 5 * Second, Servers := [] } (args.drop 1) with
    | returned r =>
      rw [hl] at h
      simp only at h
      subst h
      have := parseArgsLoop_servers toUpper _ _ (le_refl _) _ config (Or.inl hl)
      simpa using this
    | done c =>
      rw [hl] at h
      have hc := parseArgsLoop_servers toUpper _ _ (le_refl _) _ c (Or.inr hl)
      simp only [List.nil_append] at hc
      by_cases ha : c.AllServers = true
      · simp only [ha, if_true] at h
        split_ifs at h
        cases h
        simp at hall
      · simp only [ha, Bool.false_eq_true, if_false] at h
        split_ifs at h
        cases h
        exact hc
  refine ⟨key, ?_⟩
  intro v hv
  rw [key]
  constructor
  · intro hf
    exact List.mem_map.2 ⟨v, hv, by simp [hf]⟩
  · intro ht
    exact List.mem_map.2 ⟨v, hv, by simp [ht]⟩

/-- C10 at the argument list `-s 8.8.8.8 -s 1.1.1.1:5353 example.com`: the
first server gains `:53`, the second is kept, in the order given. -/
theorem C10_servers_witness :
    ParseArgs String.toUpper
        ["dns-monitor", "-s", "8.8.8.8", "-s", "1.1.1.1:5353", "example.com"] =
      .ok { Domains := ["example.com"], RecordType := "A", Interval := 5 * Second,
            Servers := ["8.8.8.8:53", "1.1.1.1:5353"] }
    ∧ ["8.8.8.8:53", "1.1.1.1:5353"] =
        (serverValues ["-s", "8.8.8.8", "-s", "1.1.1.1:5353", "example.com"]).map
          (fun v => if stringsContains v ":" then v else v ++ ":53") :=
  ⟨by decide,
   (C10_servers_default_port String.toUpper
      ["dns-monitor", "-s", "8.8.8.8", "-s", "1.1.1.1:5353", "example.com"]
      { Domains := ["example.com"], RecordType := "A", Interval := 5 * Second,
        Servers := ["8.8.8.8:53", "1.1.1.1:5353"] } (by decide) rfl).1⟩

/-- C10 as stated fails for a `-s` that the loop does not read: after the first
domain the tokens `-s 8.8.8.8` are domains, and after `-h` they are not read at
all; both argument lists are accepted, `--all-servers` is absent, and `8.8.8.8:53`
is not in `Servers`. -/
theorem C10_unread_server_counterexample :
    (ParseArgs asciiUpper ["dns-monitor", "example.com", "-s", "8.8.8.8"] =
        .ok { Domains := ["example.com", "-s", "8.8.8.8"], RecordType := "A",
              Interval := 5 * Second, Servers := [] }
      ∧ "8.8.8.8" ∈ givenServerValues ["example.com", "-s", "8.8.8.8"]
      ∧ stringsContains "8.8.8.8" ":" = false
      ∧ "8.8.8.8:53" ∉ ([] : List String))
    ∧ (ParseArgs asciiUpper ["dns-monitor", "-s", "9.9.9.9", "-h", "-s", "8.8.8.8"] =
        .ok { RecordType := "A", Interval := 5 * Second, Servers := ["9.9.9.9:53"],
              ShowHelp := true }
      ∧ "8.8.8.8" ∈ givenServerValues ["-s", "9.9.9.9", "-h", "-s", "8.8.8.8"]
      ∧ "8.8.8.8:53" ∉ ["9.9.9.9:53"]) := by
  decide

/-! ## The argument loop and the reading of the command line -/

theorem scanArgs_cons (arg : String) (rest : List String) :
    scanArgs (arg :: rest) =
      if arg = "-h" ∨ arg = "--help" then ([], .help)
      else if arg = "-v" ∨ arg = "--version" then ([], .version)
      else if arg = "-t" ∨ arg = "--type" then
        match rest with
        | [] => ([], .missingValue arg)
        | value :: rest' => (.type value :: (scanArgs rest').1, (scanArgs rest').2)
      else if arg = "-i" ∨ arg = "--interval" then
        match rest with
        | [] => ([], .missingValue arg)
        | value :: rest' => (.interval value :: (scanArgs rest').1, (scanArgs rest').2)
      else if arg = "-s" ∨ arg = "--server" then
        match rest with
        | [] => ([], .missingValue arg)
        | value :: rest' => (.server value :: (scanArgs rest').1, (scanArgs rest').2)
      else if arg = "--all-servers" then (.allServers :: (scanArgs rest).1, (scanArgs rest).2)
      else if arg = "--until-change" then (.untilChange :: (scanArgs rest).1, (scanArgs rest).2)
      else if arg = "-o" ∨ arg = "--output" then
        match rest with
        | [] => ([], .missingValue arg)
        | value :: rest' => (.output value :: (scanArgs rest').1, (scanArgs rest').2)
      else if arg = "--no-color" then (.noColor :: (scanArgs rest).1, (scanArgs rest).2)
      else if hasPrefix arg "-" then ([], .unknown arg)
      else ([], .domains (arg :: rest)) := by
  cases rest <;> simp only [scanArgs]

/-- The loop of `ParseArgs` applies the options `scanArgs` reads, from the left,
and ends as the stop says. -/
theorem parseArgsLoop_eq_scan (toUpper : String → String) :
    ∀ (config : Config) (toks : List String),
      parseArgsLoop toUpper config toks =
        match applyOpts toUpper config (scanArgs toks).1 with
        | .error err => .returned (.error err)
        | .ok config' => finishArgs config' (scanArgs toks).2 := by
  apply parseArgsLoop.induct toUpper
  case case10 =>
    intro config arg h1 h2 h3 h4 h5 value rest' server ih
    simp only [server] at ih
    rw [parseArgsLoop_server toUpper config arg value rest' h5, ih]
    rcases h5 with h | h <;> subst h <;> simp [scanArgs_cons, applyOpts, applyOpt]
  all_goals intros
  all_goals simp_all [parseArgsLoop_cons, scanArgs_cons, applyOpts, applyOpt, finishArgs, scanArgs,
    parseArgsLoop]

theorem applyOpts_fields (toUpper : String → String) (opts : List Opt) :
    ∀ (config c : Config), applyOpts toUpper config opts = .ok c →
      c.Domains = config.Domains ∧ c.ShowHelp = config.ShowHelp
        ∧ c.ShowVersion = config.ShowVersion
        ∧ (c.AllServers = true ↔ (config.AllServers = true ∨ Opt.allServers ∈ opts)) := by
  induction opts with
  | nil =>
    intro config c h
    simp only [applyOpts, Except.ok.injEq] at h
    subst h
    simp
  | cons opt opts ih =>
    intro config c h
    rw [applyOpts] at h
    cases ha : applyOpt toUpper config opt with
    | error e => rw [ha] at h; cases h
    | ok c1 =>
      rw [ha] at h
      obtain ⟨h1, h2, h3, h4⟩ := ih c1 c h
      cases opt with
      | interval v =>
        simp only [applyOpt] at ha
        cases hp : parseDuration v with
        | error e => rw [hp] at ha; cases ha
        | ok d =>
          rw [hp] at ha
          cases ha
          simp_all
      | _ =>
        simp only [applyOpt, Except.ok.injEq] at ha
        subst ha
        simp_all

theorem applyOpts_ok_of_intervals (toUpper : String → String) (opts : List Opt) :
    ∀ config : Config, (∀ v, Opt.interval v ∈ opts → ∃ d, parseDuration v = .ok d) →
      ∃ c, applyOpts toUpper config opts = .ok c := by
  induction opts with
  | nil => exact fun config _ => ⟨config, rfl⟩
  | cons opt opts ih =>
    intro config h
    have hrest : ∀ v, Opt.interval v ∈ opts → ∃ d, parseDuration v = .ok d :=
      fun v hv => h v (List.mem_cons_of_mem _ hv)
    rw [applyOpts]
    cases opt with
    | interval v =>
      obtain ⟨d, hd⟩ := h v (List.mem_cons_self _ _)
      simp only [applyOpt, hd]
      exact ih _ hrest
    | _ =>
      simp only [applyOpt]
      exact ih _ hrest

/-- `ParseArgs` in terms of the reading of the command line. -/
theorem ParseArgs_eq_scan (toUpper : String → String) (args : List String) :
    ParseArgs toUpper args =
      match applyOpts toUpper { RecordType := "A", Interval := 5 * Second, Servers := [] }
          (scanArgs (args.drop 1)).1 with
      | .error err => .error err
      | .ok config' =>
        match finishArgs config' (scanArgs (args.drop 1)).2 with
        | .returned result => result
        | .done config =>
          let config := if config.AllServers then
              { config with Servers := ["8.8.8.8:53", "1.1.1.1:53", "1.0.0.1:53"] }
            else config
          if config.Domains.length = 0 && !config.ShowHelp && !config.ShowVersion then
            .error (.text "at least one domain must be specified")
          else if !isValidRecordType config.RecordType then
            .error (.text ("unsupported record type: " ++ config.RecordType))
          else .ok config := by
  rw [ParseArgs, parseArgsLoop_eq_scan]
  cases applyOpts toUpper { RecordType := "A", Interval := 5 * Second, Servers := [] }
      (scanArgs (args.drop 1)).1 <;> rfl

/-- Every configuration `ParseArgs` returns: the options applied to the start
configuration, then the help mark, the version mark, or the domains with the
`--all-servers` override and a valid record type. -/
theorem ParseArgs_ok_cases (toUpper : String → String) (args : List String) (c : Config)
    (h : ParseArgs toUpper args = .ok c) :
    ∃ c0, applyOpts toUpper { RecordType := "A", Interval := 5 * Second, Servers := [] }
        (scanArgs (args.drop 1)).1 = .ok c0 ∧
      (((scanArgs (args.drop 1)).2 = .help ∧ c = { c0 with ShowHelp := true })
      ∨ ((scanArgs (args.drop 1)).2 = .version ∧ c = { c0 with ShowVersion := true })
      ∨ (∃ d rest, (scanArgs (args.drop 1)).2 = .domains (d :: rest) ∧
          isValidRecordType c0.RecordType = true ∧
          c = { c0 with
                Domains := d :: rest,
                Servers := if c0.AllServers then ["8.8.8.8:53", "1.1.1.1:53", "1.0.0.1:53"]
                  else c0.Servers })) := by
  rw [ParseArgs_eq_scan] at h
  cases ha : applyOpts toUpper { RecordType := "A", Interval := 5 * Second, Servers := [] }
      (scanArgs (args.drop 1)).1 with
  | error e => rw [ha] at h; cases h
  | ok c0 =>
    rw [ha] at h
    obtain ⟨f1, f2, f3, _⟩ := applyOpts_fields toUpper _ _ c0 ha
    simp only at f1 f2 f3
    refine ⟨c0, rfl, ?_⟩
    cases hs : (scanArgs (args.drop 1)).2 with
    | help =>
      rw [hs] at h
      simp only [finishArgs, Except.ok.injEq] at h
      exact Or.inl ⟨rfl, h.symm⟩
    | version =>
      rw [hs] at h
      simp only [finishArgs, Except.ok.injEq] at h
      exact Or.inr (Or.inl ⟨rfl, h.symm⟩)
    | missingValue o => rw [hs] at h; simp [finishArgs] at h
    | unknown t => rw [hs] at h; simp [finishArgs] at h
    | finished =>
      rw [hs] at h
      cases hA : c0.AllServers <;> simp [finishArgs, hA, f1, f2, f3] at h
    | domains ds =>
      rw [hs] at h
      cases ds with
      | nil => cases hA : c0.AllServers <;> simp [finishArgs, hA, f1, f2, f3] at h
      | cons d rest =>
        refine Or.inr (Or.inr ⟨d, rest, rfl, ?_⟩)
        by_cases hv : isValidRecordType c0.RecordType = true
        · refine ⟨hv, ?_⟩
          obtain ⟨cd, crt, ci, cs, ca, cu, co, cn, ch, cv⟩ := c0
          simp only at f1 f2 f3 hv
          subst f1 f2 f3
          cases ca <;> simp [finishArgs, hv] at h ⊢ <;> exact h.symm
        · exfalso
          cases hA : c0.AllServers <;> simp [finishArgs, hA, f1, f2, f3, hv] at h

theorem ParseArgs_of_help (toUpper : String → String) (args : List String) (c0 : Config)
    (ha : applyOpts toUpper { RecordType := "A", Interval := 5 * Second, Servers := [] }
        (scanArgs (args.drop 1)).1 = .ok c0)
    (hs : (scanArgs (args.drop 1)).2 = .help) :
    ParseArgs toUpper args = .ok { c0 with ShowHelp := true } := by
  rw [ParseArgs_eq_scan, ha, hs]
  rfl

theorem ParseArgs_of_version (toUpper : String → String) (args : List String) (c0 : Config)
    (ha : applyOpts toUpper { RecordType := "A", Interval := 5 * Second, Servers := [] }
        (scanArgs (args.drop 1)).1 = .ok c0)
    (hs : (scanArgs (args.drop 1)).2 = .version) :
    ParseArgs toUpper args = .ok { c0 with ShowVersion := true } := by
  rw [ParseArgs_eq_scan, ha, hs]
  rfl

theorem ParseArgs_of_domains (toUpper : String → String) (args : List String) (c0 : Config)
    (d : String) (rest : List String)
    (ha : applyOpts toUpper { RecordType := "A", Interval := 5 * Second, Servers := [] }
        (scanArgs (args.drop 1)).1 = .ok c0)
    (hs : (scanArgs (args.drop 1)).2 = .domains (d :: rest))
    (hv : isValidRecordType c0.RecordType = true) :
    ParseArgs toUpper args = .ok { c0 with
        Domains := d :: rest,
        Servers := if c0.AllServers then ["8.8.8.8:53", "1.1.1.1:53", "1.0.0.1:53"]
          else c0.Servers } := by
  obtain ⟨f1, f2, f3, _⟩ := applyOpts_fields toUpper _ _ c0 ha
  rw [ParseArgs_eq_scan, ha, hs]
  obtain ⟨cd, crt, ci, cs, ca, cu, co, cn, ch, cv⟩ := c0
  simp only at f1 f2 f3 hv
  subst f1 f2 f3
  cases ca <;> simp [finishArgs, hv]

theorem ParseArgs_error_of_no_domain (toUpper : String → String) (args : List String)
    (h1 : (scanArgs (args.drop 1)).2 ≠ .help) (h2 : (scanArgs (args.drop 1)).2 ≠ .version)
    (h3 : ∀ ds, (scanArgs (args.drop 1)).2 ≠ .domains ds) :
    ∃ err, ParseArgs toUpper args = .error err := by
  rw [ParseArgs_eq_scan]
  cases ha : applyOpts toUpper { RecordType := "A", Interval := 5 * Second, Servers := [] }
      (scanArgs (args.drop 1)).1 with
  | error e => exact ⟨e, rfl⟩
  | ok c0 =>
    obtain ⟨f1, f2, f3, _⟩ := applyOpts_fields toUpper _ _ c0 ha
    simp only at f1 f2 f3
    cases hs : (scanArgs (args.drop 1)).2 with
    | help => exact absurd hs h1
    | version => exact absurd hs h2
    | domains ds => exact absurd hs (h3 ds)
    | missingValue o => exact ⟨_, rfl⟩
    | unknown t => exact ⟨_, rfl⟩
    | finished =>
      refine ⟨.text "at least one domain must be specified", ?_⟩
      cases hA : c0.AllServers <;> simp [finishArgs, hA, f1, f2, f3]

/-- Tokens that are read entirely as options can be followed by anything: the
reading goes on with what follows. -/
theorem scanArgs_append :
    ∀ (pre : List String) (opts : List Opt), scanArgs pre = (opts, .finished) →
      ∀ tail, scanArgs (pre ++ tail) = (opts ++ (scanArgs tail).1, (scanArgs tail).2) := by
  intro pre
  induction pre using scanArgs.induct
  all_goals intro opts h tail
  all_goals simp_all [scanArgs_cons, scanArgs]
  all_goals
    rename_i ih
    obtain ⟨ho, hs⟩ := h
    have e5 := ih _ (Prod.ext rfl hs) tail
    clear ih
    subst ho
    simp [scanArgs_cons, e5, *]

/-- Every argument list is some tokens read entirely as options, followed by
the tokens at which the reading ends. -/
theorem scanArgs_split :
    ∀ (toks : List String) (opts : List Opt) (stop : Stop), scanArgs toks = (opts, stop) →
      ∃ pre tail, toks = pre ++ tail ∧ scanArgs pre = (opts, .finished)
        ∧ scanArgs tail = ([], stop) := by
  intro toks
  induction toks using scanArgs.induct
  all_goals intro opts stop h
  all_goals simp_all [scanArgs_cons, scanArgs]
  all_goals
    first
    | (rename_i ih
       obtain ⟨ho, hs⟩ := h
       obtain ⟨pre, tail, e1, e2, e3⟩ := ih _ stop (Prod.ext rfl hs)
       clear ih
       subst e1
       first
       | (refine ⟨_ :: _ :: pre, tail, rfl, ?_, e3⟩
          subst ho
          simp [scanArgs_cons, e2, *])
       | (refine ⟨_ :: pre, tail, rfl, ?_, e3⟩
          subst ho
          simp [scanArgs_cons, e2, *]))
    | (obtain ⟨ho, hs⟩ := h
       subst ho hs
       exact ⟨[], [], ⟨rfl, rfl⟩, by simp [scanArgs], by simp [scanArgs]⟩)
    | (obtain ⟨ho, hs⟩ := h
       subst ho hs
       refine ⟨[], _, rfl, by simp [scanArgs], ?_⟩
       simp [scanArgs_cons, scanArgs, *])

/-- The one step at which the reading ends. -/
theorem scanArgs_stop_step (tail : List String) (stop : Stop)
    (h : scanArgs tail = ([], stop)) :
    (tail = [] ∧ stop = .finished)
    ∨ ∃ x rest, tail = x :: rest ∧
        (((x = "-h" ∨ x = "--help") ∧ stop = .help)
        ∨ ((x = "-v" ∨ x = "--version") ∧ stop = .version)
        ∨ ((x = "-t" ∨ x = "--type" ∨ x = "-i" ∨ x = "--interval" ∨ x = "-s" ∨ x = "--server"
              ∨ x = "-o" ∨ x = "--output") ∧ rest = [] ∧ stop = .missingValue x)
        ∨ (hasPrefix x "-" = true ∧ stop = .unknown x ∧
            ¬ (x = "-h" ∨ x = "--help" ∨ x = "-v" ∨ x = "--version" ∨ x = "-t"
              ∨ x = "--type" ∨ x = "-i" ∨ x = "--interval" ∨ x = "-s" ∨ x = "--server"
              ∨ x = "--all-servers" ∨ x = "--until-change" ∨ x = "-o" ∨ x = "--output"
              ∨ x = "--no-color"))
        ∨ (hasPrefix x "-" = false ∧ stop = .domains (x :: rest))) := by
  cases tail with
  | nil =>
    simp only [scanArgs, Prod.mk.injEq, true_and] at h
    exact Or.inl ⟨rfl, h.symm⟩
  | cons x rest =>
    refine Or.inr ⟨x, rest, rfl, ?_⟩
    rw [scanArgs_cons] at h
    by_cases h1 : x = "-h" ∨ x = "--help"
    · simp [h1] at h
      exact Or.inl ⟨h1, h.symm⟩
    by_cases h2 : x = "-v" ∨ x = "--version"
    · simp [h1, h2] at h
      exact Or.inr (Or.inl ⟨h2, h.symm⟩)
    by_cases h3 : x = "-t" ∨ x = "--type"
    · cases rest <;> simp [h1, h2, h3] at h
      exact Or.inr (Or.inr (Or.inl ⟨by tauto, rfl, h.symm⟩))
    by_cases h4 : x = "-i" ∨ x = "--interval"
    · cases rest <;> simp [h1, h2, h3, h4] at h
      exact Or.inr (Or.inr (Or.inl ⟨by tauto, rfl, h.symm⟩))
    by_cases h5 : x = "-s" ∨ x = "--server"
    · cases rest <;> simp [h1, h2, h3, h4, h5] at h
      exact Or.inr (Or.inr (Or.inl ⟨by tauto, rfl, h.symm⟩))
    by_cases h6 : x = "--all-servers"
    · simp [h6] at h
    by_cases h7 : x = "--until-change"
    · simp [h7] at h
    by_cases h8 : x = "-o" ∨ x = "--output"
    · cases rest <;> simp [h1, h2, h3, h4, h5, h6, h7, h8] at h
      exact Or.inr (Or.inr (Or.inl ⟨by tauto, rfl, h.symm⟩))
    by_cases h9 : x = "--no-color"
    · simp [h9] at h
    by_cases h10 : hasPrefix x "-" = true
    · simp [h1, h2, h3, h4, h5, h6, h7, h8, h9, h10] at h
      exact Or.inr (Or.inr (Or.inr (Or.inl ⟨h10, h.symm, by tauto⟩)))
    · simp [h1, h2, h3, h4, h5, h6, h7, h8, h9, h10] at h
      exact Or.inr (Or.inr (Or.inr (Or.inr ⟨by simpa using h10, h.symm⟩)))

theorem isValidRecordType_iff (s : String) :
    isValidRecordType s = true ↔
      (s = "A" ∨ s = "AAAA" ∨ s = "CNAME" ∨ s = "MX" ∨ s = "TXT") := by
  simp only [isValidRecordType, List.any_cons, List.any_nil, Bool.or_false, Bool.or_eq_true,
    beq_iff_eq]
  constructor
  · rintro (h | h | h | h | h) <;> simp [← h]
  · rintro (h | h | h | h | h) <;> simp [h]

/-! ## `--all-servers` -/

/-- C11, as the code has it: when `--all-servers` is read as an option and
`ParseArgs` returns a monitoring configuration (neither the help nor the
version mark set), `Servers` is exactly the three fixed servers, whatever
`-s` / `--server` options stand before or after it, and `AllServers` is set. -/
theorem C11_all_servers_override (toUpper : String → String) (args : List String)
    (c : Config) (hflag : Opt.allServers ∈ (scanArgs (args.drop 1)).1)
    (h : ParseArgs toUpper args = .ok c)
    (hh : c.ShowHelp = false) (hv : c.ShowVersion = false) :
    c.Servers = ["8.8.8.8:53", "1.1.1.1:53", "1.0.0.1:53"] ∧ c.AllServers = true := by
  obtain ⟨c0, ha, hc⟩ := ParseArgs_ok_cases toUpper args c h
  have hA : c0.AllServers = true :=
    (applyOpts_fields toUpper _ _ c0 ha).2.2.2.2 (Or.inr hflag)
  rcases hc with ⟨_, e⟩ | ⟨_, e⟩ | ⟨d, rest, _, _, e⟩
  · rw [e] at hh; simp at hh
  · rw [e] at hv; simp at hv
  · rw [e]
    simp [hA]

/-- C11 at the argument list `-s 9.9.9.9 --all-servers -s 8.8.4.4 example.com`. -/
theorem C11_all_servers_witness :
    ParseArgs String.toUpper
        ["dns-monitor", "-s", "9.9.9.9", "--all-servers", "-s", "8.8.4.4", "example.com"] =
      .ok { Domains := ["example.com"], RecordType := "A", Interval := 5 * Second,
            Servers := ["8.8.8.8:53", "1.1.1.1:53", "1.0.0.1:53"], AllServers := true }
    ∧ (({ Domains := ["example.com"], RecordType := "A", Interval := 5 * Second,
          Servers := ["8.8.8.8:53", "1.1.1.1:53", "1.0.0.1:53"], AllServers := true }
          : Config).Servers = ["8.8.8.8:53", "1.1.1.1:53", "1.0.0.1:53"]
       ∧ ({ Domains := ["example.com"], RecordType := "A", Interval := 5 * Second,
            Servers := ["8.8.8.8:53", "1.1.1.1:53", "1.0.0.1:53"], AllServers := true }
            : Config).AllServers = true) :=
  ⟨by decide,
   C11_all_servers_override String.toUpper
    ["dns-monitor", "-s", "9.9.9.9", "--all-servers", "-s", "8.8.4.4", "example.com"]
    { Domains := ["example.com"], RecordType := "A", Interval := 5 * Second,
      Servers := ["8.8.8.8:53", "1.1.1.1:53", "1.0.0.1:53"], AllServers := true }
    (by decide) (by decide) rfl rfl⟩

/-- C11 as stated fails when a help flag follows: `--all-servers -h` is an
argument list that contains the flag and for which `ParseArgs` returns a
configuration, and its `Servers` is empty. -/
theorem C11_help_counterexample :
    Opt.allServers ∈ (scanArgs ["--all-servers", "-h"]).1
    ∧ ParseArgs String.toUpper ["dns-monitor", "--all-servers", "-h"] =
        .ok { RecordType := "A", Interval := 5 * Second, Servers := [], AllServers := true,
              ShowHelp := true }
    ∧ ({ RecordType := "A", Interval := 5 * Second, Servers := [], AllServers := true,
         ShowHelp := true } : Config).Servers ≠ ["8.8.8.8:53", "1.1.1.1:53", "1.0.0.1:53"] := by
  decide

/-! ## The record type option -/

theorem not_option_of_no_dash (d : String) (hd : hasPrefix d "-" = false) :
    ¬ (d = "-h" ∨ d = "--help" ∨ d = "-v" ∨ d = "--version" ∨ d = "-t"
      ∨ d = "--type" ∨ d = "-i" ∨ d = "--interval" ∨ d = "-s" ∨ d = "--server"
      ∨ d = "--all-servers" ∨ d = "--until-change" ∨ d = "-o" ∨ d = "--output"
      ∨ d = "--no-color") := by
  intro h
  rcases h with h | h | h | h | h | h | h | h | h | h | h | h | h | h | h <;>
    subst h <;> revert hd <;> decide

theorem ParseArgs_type_then_domains (toUpper : String → String) (prog flag T d : String)
    (rest : List String) (hf : flag = "-t" ∨ flag = "--type")
    (hd : hasPrefix d "-" = false) :
    ParseArgs toUpper (prog :: flag :: T :: d :: rest) =
      if !isValidRecordType (toUpper T) then
        .error (.text ("unsupported record type: " ++ toUpper T))
      else .ok { Domains := d :: rest, RecordType := toUpper T, Interval := 5 * Second,
                 Servers := [] } := by
  simp only [ParseArgs, List.drop_succ_cons, List.drop_zero]
  rw [parseArgsLoop_type _ _ _ _ _ hf, parseArgsLoop_other _ _ _ _ (not_option_of_no_dash d hd)]
  simp [hd]

/-- C12: for every string `T` and every domain list `d :: rest` whose first
domain does not start with `-`, `ParseArgs` on program, `-t` or `--type`, `T`
and the domains returns the configuration with `RecordType` the upper-cased
`T` and `Domains` the given list when the upper-cased `T` is one of A, AAAA,
CNAME, MX, TXT, and an error otherwise; `isValidRecordType` is true for
exactly those five strings and false for every other string, the empty one
and the lower-case spellings included. -/
theorem C12_type_flag (toUpper : String → String) (prog flag T d : String)
    (rest : List String) (hf : flag = "-t" ∨ flag = "--type")
    (hd : hasPrefix d "-" = false) :
    ((toUpper T = "A" ∨ toUpper T = "AAAA" ∨ toUpper T = "CNAME" ∨ toUpper T = "MX"
        ∨ toUpper T = "TXT") →
      ParseArgs toUpper (prog :: flag :: T :: d :: rest) =
        .ok { Domains := d :: rest, RecordType := toUpper T, Interval := 5 * Second,
              Servers := [] })
    ∧ (¬ (toUpper T = "A" ∨ toUpper T = "AAAA" ∨ toUpper T = "CNAME" ∨ toUpper T = "MX"
        ∨ toUpper T = "TXT") →
      ParseArgs toUpper (prog :: flag :: T :: d :: rest) =
        .error (.text ("unsupported record type: " ++ toUpper T)))
    ∧ (∀ s, isValidRecordType s = true ↔
        (s = "A" ∨ s = "AAAA" ∨ s = "CNAME" ∨ s = "MX" ∨ s = "TXT"))
    ∧ isValidRecordType "" = false ∧ isValidRecordType "a" = false
    ∧ isValidRecordType "cname" = false := by
  have hp := ParseArgs_type_then_domains toUpper prog flag T d rest hf hd
  refine ⟨?_, ?_, isValidRecordType_iff, by decide, by decide, by decide⟩
  · intro h
    rw [hp, (isValidRecordType_iff _).2 h]
    rfl
  · intro h
    have hv : isValidRecordType (toUpper T) = false := by
      cases hb : isValidRecordType (toUpper T)
      · rfl
      · exact absurd ((isValidRecordType_iff _).1 hb) h
    rw [hp, hv]
    rfl

/-- C12 at `-t cname example.com test.com` and at `-t INVALID example.com`. -/
theorem C12_type_flag_witness :
    ParseArgs asciiUpper ["dns-monitor", "-t", "cname", "example.com", "test.com"] =
      .ok { Domains := ["example.com", "test.com"], RecordType := "CNAME",
            Interval := 5 * Second, Servers := [] }
    ∧ ParseArgs asciiUpper ["dns-monitor", "--type", "INVALID", "example.com"] =
      .error (.text "unsupported record type: INVALID") :=
  ⟨(C12_type_flag asciiUpper "dns-monitor" "-t" "cname" "example.com" ["test.com"]
      (Or.inl rfl) (by decide)).1 (by decide),
   (C12_type_flag asciiUpper "dns-monitor" "--type" "INVALID" "example.com" []
      (Or.inr rfl) (by decide)).2.1 (by decide)⟩

/-! ## Help, version, errors and domains -/

theorem scanArgs_single_domain (d : String) (rest : List String)
    (hd : hasPrefix d "-" = false) : scanArgs (d :: rest) = ([], .domains (d :: rest)) := by
  have h := not_option_of_no_dash d hd
  simp only [not_or] at h
  obtain ⟨h1, h2, h3, h4, h5, h6, h7, h8, h9, h10, h11, h12, h13, h14, h15⟩ := h
  rw [scanArgs_cons]
  simp [h1, h2, h3, h4, h5, h6, h7, h8, h9, h10, h11, h12, h13, h14, h15, hd]

theorem cons_of_drop_one (args l : List String) (x : String) (h : args.drop 1 = x :: l) :
    ∃ prog, args = prog :: x :: l := by
  cases args with
  | nil => simp at h
  | cons prog t => exact ⟨prog, by simpa using h⟩

/-- C13: an argument list in which the reading of options ends neither at a
help or version flag nor at a domain makes `ParseArgs` return an error; and
every configuration `ParseArgs` returns with neither `ShowHelp` nor
`ShowVersion` set has at least one domain. -/
theorem C13_no_domain_is_error (toUpper : String → String) (args : List String) :
    ((scanArgs (args.drop 1)).2 ≠ .help → (scanArgs (args.drop 1)).2 ≠ .version →
      (∀ ds, (scanArgs (args.drop 1)).2 ≠ .domains ds) →
      ∃ err, ParseArgs toUpper args = .error err)
    ∧ (∀ c, ParseArgs toUpper args = .ok c → c.ShowHelp = false → c.ShowVersion = false →
        c.Domains ≠ []) := by
  refine ⟨ParseArgs_error_of_no_domain toUpper args, ?_⟩
  intro c h hh hv
  obtain ⟨c0, _, hc⟩ := ParseArgs_ok_cases toUpper args c h
  rcases hc with ⟨_, e⟩ | ⟨_, e⟩ | ⟨d, rest, _, _, e⟩
  · rw [e] at hh; simp at hh
  · rw [e] at hv; simp at hv
  · rw [e]; simp

/-- C13 at the argument list with the program name only, and at a list whose
`-h` is the value of `-o`. -/
theorem C13_no_domain_witness :
    (∃ err, ParseArgs String.toUpper ["dns-monitor"] = .error err)
    ∧ (∃ err, ParseArgs String.toUpper ["dns-monitor", "--no-color", "-o", "-h"] = .error err) :=
  ⟨(C13_no_domain_is_error String.toUpper ["dns-monitor"]).1
      (by decide) (by decide)
      (fun ds h => by
        rw [show (scanArgs (List.drop 1 ["dns-monitor"])).2 = Stop.finished from by decide] at h
        cases h),
   (C13_no_domain_is_error String.toUpper ["dns-monitor", "--no-color", "-o", "-h"]).1
      (by decide) (by decide)
      (fun ds h => by
        rw [show (scanArgs (List.drop 1 ["dns-monitor", "--no-color", "-o", "-h"])).2 =
          Stop.finished from by decide] at h
        cases h)⟩

/-- C14, as the code has it: when the reading of options ends at a help flag
(every token before it is a known flag or a value-taking option with its
value) and every interval value before it parses, `ParseArgs` returns without
error a configuration with `ShowHelp` set and no domain, whatever the record
type given before and whatever follows the flag; likewise with the version
flag and `ShowVersion`. -/
theorem C14_help_version_when_read (toUpper : String → String) (args : List String)
    (hint : ∀ v, Opt.interval v ∈ (scanArgs (args.drop 1)).1 → ∃ d, parseDuration v = .ok d) :
    ((scanArgs (args.drop 1)).2 = .help →
      ∃ c pre flag rest, args.drop 1 = pre ++ flag :: rest ∧ (flag = "-h" ∨ flag = "--help") ∧
        ParseArgs toUpper args = .ok c ∧ c.ShowHelp = true ∧ c.Domains = [] ∧
        ∀ prog rest', ParseArgs toUpper (prog :: (pre ++ flag :: rest')) = .ok c)
    ∧ ((scanArgs (args.drop 1)).2 = .version →
      ∃ c pre flag rest, args.drop 1 = pre ++ flag :: rest ∧
        (flag = "-v" ∨ flag = "--version") ∧
        ParseArgs toUpper args = .ok c ∧ c.ShowVersion = true ∧ c.Domains = [] ∧
        ∀ prog rest', ParseArgs toUpper (prog :: (pre ++ flag :: rest')) = .ok c) := by
  obtain ⟨c0, ha⟩ := applyOpts_ok_of_intervals toUpper (scanArgs (args.drop 1)).1
    { RecordType := "A", Interval := 5 * Second, Servers := [] } hint
  have hD : c0.Domains = [] := (applyOpts_fields toUpper _ _ c0 ha).1
  constructor
  · intro hs
    obtain ⟨pre, tail, e1, e2, e3⟩ := scanArgs_split (args.drop 1) _ _
      (Prod.ext rfl hs : scanArgs (args.drop 1) = ((scanArgs (args.drop 1)).1, Stop.help))
    rcases scanArgs_stop_step tail _ e3 with ⟨_, hf⟩ | ⟨x, rest, et, hx⟩
    · cases hf
    · rcases hx with ⟨hx, _⟩ | ⟨_, hf⟩ | ⟨_, _, hf⟩ | ⟨_, hf, _⟩ | ⟨_, hf⟩ <;>
        first | cases hf | skip
      subst et
      refine ⟨{ c0 with ShowHelp := true }, pre, x, rest, e1, hx,
        ParseArgs_of_help toUpper args c0 ha hs, rfl, hD, ?_⟩
      intro prog rest'
      have hsc : scanArgs (pre ++ x :: rest') = ((scanArgs (args.drop 1)).1, Stop.help) := by
        rw [scanArgs_append pre _ e2]
        rcases hx with h | h <;> subst h <;> simp [scanArgs_cons]
      apply ParseArgs_of_help
      · simpa [hsc] using ha
      · simp [hsc]
  · intro hs
    obtain ⟨pre, tail, e1, e2, e3⟩ := scanArgs_split (args.drop 1) _ _
      (Prod.ext rfl hs : scanArgs (args.drop 1) = ((scanArgs (args.drop 1)).1, Stop.version))
    rcases scanArgs_stop_step tail _ e3 with ⟨_, hf⟩ | ⟨x, rest, et, hx⟩
    · cases hf
    · rcases hx with ⟨_, hf⟩ | ⟨hx, _⟩ | ⟨_, _, hf⟩ | ⟨_, hf, _⟩ | ⟨_, hf⟩ <;>
        first | cases hf | skip
      subst et
      refine ⟨{ c0 with ShowVersion := true }, pre, x, rest, e1, hx,
        ParseArgs_of_version toUpper args c0 ha hs, rfl, hD, ?_⟩
      intro prog rest'
      have hsc : scanArgs (pre ++ x :: rest') =
          ((scanArgs (args.drop 1)).1, Stop.version) := by
        rw [scanArgs_append pre _ e2]
        rcases hx with h | h <;> subst h <;> simp [scanArgs_cons]
      apply ParseArgs_of_version
      · simpa [hsc] using ha
      · simp [hsc]

/-- C14 at `-t bogus --help --unknown`: the record type is not validated and
what follows the help flag is not read. -/
theorem C14_help_witness :
    (∃ c, ParseArgs asciiUpper ["dns-monitor", "-t", "bogus", "--help", "--unknown"] = .ok c
      ∧ c.ShowHelp = true ∧ c.Domains = [])
    ∧ ParseArgs asciiUpper ["dns-monitor", "-t", "bogus", "--help", "--unknown"] =
        .ok { RecordType := "BOGUS", Interval := 5 * Second, Servers := [], ShowHelp := true } :=
  ⟨match (C14_help_version_when_read asciiUpper
        ["dns-monitor", "-t", "bogus", "--help", "--unknown"]
        (fun v hv => by
          rw [show (scanArgs (List.drop 1
              ["dns-monitor", "-t", "bogus", "--help", "--unknown"])).1 = [Opt.type "bogus"]
            from by decide] at hv
          simp at hv)).1 (by decide) with
    | ⟨c, _, _, _, _, _, h3, h4, h5, _⟩ => ⟨c, h3, h4, h5⟩,
   by decide⟩

/-- C14 as stated fails when something before the help flag ends the reading:
`--unknown -h` contains `-h` and is an error, and `example.com -h` contains
`-h` and is a monitoring configuration with the two domains `example.com`
and `-h`. -/
theorem C14_help_not_first_counterexample :
    "-h" ∈ ["dns-monitor", "--unknown", "-h"]
    ∧ ParseArgs String.toUpper ["dns-monitor", "--unknown", "-h"] =
        .error (.text "unknown option: --unknown")
    ∧ "-h" ∈ ["dns-monitor", "example.com", "-h"]
    ∧ ParseArgs String.toUpper ["dns-monitor", "example.com", "-h"] =
        .ok { Domains := ["example.com", "-h"], RecordType := "A", Interval := 5 * Second,
              Servers := [], ShowHelp := false } := by
  decide

/-- C15, as the code has it: `ParseArgs` returns an error for every argument
list in which the reading of options ends at a token in option position that
starts with `-` and is no known option, or at a value-taking option in option
position that is the last token. Such a token stands after tokens that are
read entirely as options, so before the first domain and before any help or
version flag. -/
theorem C15_unknown_or_missing_is_error (toUpper : String → String) (args : List String)
    (h : (∃ t, (scanArgs (args.drop 1)).2 = .unknown t)
      ∨ (∃ o, (scanArgs (args.drop 1)).2 = .missingValue o)) :
    (∃ err, ParseArgs toUpper args = .error err)
    ∧ (∀ t, (scanArgs (args.drop 1)).2 = .unknown t →
        hasPrefix t "-" = true
        ∧ ¬ (t = "-h" ∨ t = "--help" ∨ t = "-v" ∨ t = "--version" ∨ t = "-t"
          ∨ t = "--type" ∨ t = "-i" ∨ t = "--interval" ∨ t = "-s" ∨ t = "--server"
          ∨ t = "--all-servers" ∨ t = "--until-change" ∨ t = "-o" ∨ t = "--output"
          ∨ t = "--no-color")
        ∧ ∃ pre rest, args.drop 1 = pre ++ t :: rest ∧ (scanArgs pre).2 = .finished)
    ∧ (∀ o, (scanArgs (args.drop 1)).2 = .missingValue o →
        (o = "-t" ∨ o = "--type" ∨ o = "-i" ∨ o = "--interval" ∨ o = "-s" ∨ o = "--server"
          ∨ o = "-o" ∨ o = "--output")
        ∧ ∃ pre, args.drop 1 = pre ++ [o] ∧ (scanArgs pre).2 = .finished) := by
  refine ⟨?_, ?_, ?_⟩
  · apply ParseArgs_error_of_no_domain
    · rcases h with ⟨t, ht⟩ | ⟨o, ho⟩
      · rw [ht]; simp
      · rw [ho]; simp
    · rcases h with ⟨t, ht⟩ | ⟨o, ho⟩
      · rw [ht]; simp
      · rw [ho]; simp
    · intro ds
      rcases h with ⟨t, ht⟩ | ⟨o, ho⟩
      · rw [ht]; simp
      · rw [ho]; simp
  · intro t ht
    obtain ⟨pre, tail, e1, e2, e3⟩ := scanArgs_split (args.drop 1) _ _
      (Prod.ext rfl ht : scanArgs (args.drop 1) = ((scanArgs (args.drop 1)).1, Stop.unknown t))
    rcases scanArgs_stop_step tail _ e3 with ⟨_, hf⟩ | ⟨x, rest, et, hx⟩
    · cases hf
    · rcases hx with ⟨_, hf⟩ | ⟨_, hf⟩ | ⟨_, _, hf⟩ | ⟨hp, hf, hn⟩ | ⟨_, hf⟩ <;>
        cases hf
      subst et
      exact ⟨hp, hn, pre, rest, e1, by rw [e2]⟩
  · intro o ho
    obtain ⟨pre, tail, e1, e2, e3⟩ := scanArgs_split (args.drop 1) _ _
      (Prod.ext rfl ho :
        scanArgs (args.drop 1) = ((scanArgs (args.drop 1)).1, Stop.missingValue o))
    rcases scanArgs_stop_step tail _ e3 with ⟨_, hf⟩ | ⟨x, rest, et, hx⟩
    · cases hf
    · rcases hx with ⟨_, hf⟩ | ⟨_, hf⟩ | ⟨hv, hr, hf⟩ | ⟨_, hf, _⟩ | ⟨_, hf⟩ <;>
        cases hf
      subst et hr
      exact ⟨hv, pre, e1, by rw [e2]⟩

/-- C15 at the argument lists of the tests: `--unknown example.com` and `-i`. -/
theorem C15_unknown_or_missing_witness :
    (∃ err, ParseArgs String.toUpper ["dns-monitor", "--unknown", "example.com"] = .error err)
    ∧ (∃ err, ParseArgs String.toUpper ["dns-monitor", "-i"] = .error err) :=
  ⟨(C15_unknown_or_missing_is_error String.toUpper
      ["dns-monitor", "--unknown", "example.com"] (Or.inl ⟨"--unknown", by decide⟩)).1,
   (C15_unknown_or_missing_is_error String.toUpper ["dns-monitor", "-i"]
      (Or.inr ⟨"-i", by decide⟩)).1⟩

/-- C15 as stated fails on a token that is the value of an option: in
`-o -x example.com` the token `-x` starts with `-`, is no known option and
stands before the first domain, and `ParseArgs` returns a configuration. -/
theorem C15_value_token_counterexample :
    hasPrefix "-x" "-" = true
    ∧ "-x" ∉ ["-h", "--help", "-v", "--version", "-t", "--type", "-i", "--interval", "-s",
        "--server", "--all-servers", "--until-change", "-o", "--output", "--no-color"]
    ∧ ParseArgs String.toUpper ["dns-monitor", "-o", "-x", "example.com"] =
        .ok { Domains := ["example.com"], RecordType := "A", Interval := 5 * Second,
              Servers := [], OutputFile := "-x" } := by
  decide

/-- C16: every monitoring configuration `ParseArgs` returns (neither
`ShowHelp` nor `ShowVersion` set) comes from an argument list of the form
program, tokens read entirely as options, a first domain that does not start
with `-`, and the rest; `Domains` is that first domain and everything after
it, verbatim and in order; and replacing what follows the first domain by any
other tokens changes `Domains` only, so none of them is read as an option. -/
theorem C16_domains_are_suffix (toUpper : String → String) (args : List String) (c : Config)
    (h : ParseArgs toUpper args = .ok c) (hh : c.ShowHelp = false)
    (hv : c.ShowVersion = false) :
    ∃ prog pre d rest, args = prog :: (pre ++ d :: rest) ∧ (scanArgs pre).2 = .finished ∧
      hasPrefix d "-" = false ∧ c.Domains = d :: rest ∧
      ∀ rest', ParseArgs toUpper (prog :: (pre ++ d :: rest')) =
        .ok { c with Domains := d :: rest' } := by
  obtain ⟨c0, ha, hc⟩ := ParseArgs_ok_cases toUpper args c h
  rcases hc with ⟨_, e⟩ | ⟨_, e⟩ | ⟨d, rest, hs, hvalid, e⟩
  · rw [e] at hh; simp at hh
  · rw [e] at hv; simp at hv
  · obtain ⟨pre, tail, e1, e2, e3⟩ := scanArgs_split (args.drop 1) _ _
      (Prod.ext rfl hs :
        scanArgs (args.drop 1) = ((scanArgs (args.drop 1)).1, Stop.domains (d :: rest)))
    rcases scanArgs_stop_step tail _ e3 with ⟨_, hf⟩ | ⟨x, r, et, hx⟩
    · cases hf
    · rcases hx with ⟨_, hf⟩ | ⟨_, hf⟩ | ⟨_, _, hf⟩ | ⟨_, hf, _⟩ | ⟨hp, hf⟩ <;>
        cases hf
      subst et
      obtain ⟨prog, hargs⟩ : ∃ prog, args = prog :: (pre ++ d :: rest) := by
        cases args with
        | nil => simp at e1
        | cons prog t => exact ⟨prog, by simpa using e1⟩
      refine ⟨prog, pre, d, rest, hargs, by rw [e2], hp, by rw [e], ?_⟩
      intro rest'
      have hsc : scanArgs (pre ++ d :: rest') =
          ((scanArgs (args.drop 1)).1, Stop.domains (d :: rest')) := by
        rw [scanArgs_append pre _ e2, scanArgs_single_domain d rest' hp]
        simp
      have hp' := ParseArgs_of_domains toUpper (prog :: (pre ++ d :: rest')) c0 d rest'
        (by simpa [hsc] using ha) (by simp [hsc]) hvalid
      rw [hp', e]

/-- C16 at `--no-color example.com -t test.com`: the domains are
`example.com`, `-t` and `test.com`, and the record type stays `A`. -/
theorem C16_domains_witness :
    ∃ prog pre d rest,
      ["dns-monitor", "--no-color", "example.com", "-t", "test.com"] = prog :: (pre ++ d :: rest)
      ∧ ({ Domains := ["example.com", "-t", "test.com"], RecordType := "A",
           Interval := 5 * Second, Servers := [], NoColor := true } : Config).Domains
          = d :: rest :=
  match C16_domains_are_suffix String.toUpper
      ["dns-monitor", "--no-color", "example.com", "-t", "test.com"]
      { Domains := ["example.com", "-t", "test.com"], RecordType := "A",
        Interval := 5 * Second, Servers := [], NoColor := true }
      (by decide) rfl rfl with
  | ⟨prog, pre, d, rest, h1, _, _, h4, _⟩ => ⟨prog, pre, d, rest, h1, h4⟩

/-! ## One tick -/

theorem checkSingleDomain_cases (env : Env) (config : Config) (store : Store)
    (domain timestamp : String) :
    (∃ err, Query env domain config.RecordType = .error err ∧
      checkSingleDomain env config store domain timestamp =
        some { changed := false, lastRecords := store,
               out := singleErrorReport config timestamp domain err })
    ∨ (∃ record, Query env domain config.RecordType = .ok record ∧
        store.get (domain ++ ":" ++ config.RecordType) = none ∧
        checkSingleDomain env config store domain timestamp =
          some { changed := false,
                 lastRecords := store.put (domain ++ ":" ++ config.RecordType) record,
                 out := singleInitialReport config timestamp domain record })
    ∨ (∃ record last, Query env domain config.RecordType = .ok record ∧
        store.get (domain ++ ":" ++ config.RecordType) = some last ∧
        record.Equals last = some false ∧
        checkSingleDomain env config store domain timestamp =
          some { changed := true,
                 lastRecords := store.put (domain ++ ":" ++ config.RecordType) record,
                 out := singleChangedReport config timestamp domain last record })
    ∨ (∃ record last, Query env domain config.RecordType = .ok record ∧
        store.get (domain ++ ":" ++ config.RecordType) = some last ∧
        record.Equals last = some true ∧
        checkSingleDomain env config store domain timestamp =
          some { changed := false, lastRecords := store,
                 out := singleUnchangedReport config timestamp domain record }) := by
  cases hq : Query env domain config.RecordType with
  | error err => exact Or.inl ⟨err, rfl, checkSingleDomain_error env config store _ _ err hq⟩
  | ok record =>
    cases hs : store.get (domain ++ ":" ++ config.RecordType) with
    | none =>
      exact Or.inr (Or.inl ⟨record, rfl, rfl,
        checkSingleDomain_initial env config store _ _ record hq hs⟩)
    | some last =>
      by_cases he : record.Equals last = some true
      · exact Or.inr (Or.inr (Or.inr ⟨record, last, rfl, rfl, he,
          checkSingleDomain_unchanged env config store _ _ record last hq hs he⟩))
      · exact Or.inr (Or.inr (Or.inl ⟨record, last, rfl, rfl, Equals_ne_true _ _ he,
          checkSingleDomain_changed env config store _ _ record last hq hs he⟩))

theorem checkDomainInGroup_cases (env : Env) (config : Config) (store : Store)
    (domain : String) (isLast : Bool) :
    (∃ err, Query env domain config.RecordType = .error err ∧
      checkDomainInGroup env config store domain isLast =
        some { changed := false, lastRecords := store,
               out := groupErrorReport config domain isLast err })
    ∨ (∃ record, Query env domain config.RecordType = .ok record ∧
        store.get (domain ++ ":" ++ config.RecordType) = none ∧
        checkDomainInGroup env config store domain isLast =
          some { changed := false,
                 lastRecords := store.put (domain ++ ":" ++ config.RecordType) record,
                 out := groupInitialReport config domain isLast record })
    ∨ (∃ record last, Query env domain config.RecordType = .ok record ∧
        store.get (domain ++ ":" ++ config.RecordType) = some last ∧
        record.Equals last = some false ∧
        checkDomainInGroup env config store domain isLast =
          some { changed := true,
                 lastRecords := store.put (domain ++ ":" ++ config.RecordType) record,
                 out := groupChangedReport config domain isLast last record })
    ∨ (∃ record last, Query env domain config.RecordType = .ok record ∧
        store.get (domain ++ ":" ++ config.RecordType) = some last ∧
        record.Equals last = some true ∧
        checkDomainInGroup env config store domain isLast =
          some { changed := false, lastRecords := store,
                 out := groupUnchangedReport config domain isLast record }) := by
  cases hq : Query env domain config.RecordType with
  | error err => exact Or.inl ⟨err, rfl, checkDomainInGroup_error env config store _ _ err hq⟩
  | ok record =>
    cases hs : store.get (domain ++ ":" ++ config.RecordType) with
    | none =>
      exact Or.inr (Or.inl ⟨record, rfl, rfl,
        checkDomainInGroup_initial env config store _ _ record hq hs⟩)
    | some last =>
      by_cases he : record.Equals last = some true
      · exact Or.inr (Or.inr (Or.inr ⟨record, last, rfl, rfl, he,
          checkDomainInGroup_unchanged env config store _ _ record last hq hs he⟩))
      · exact Or.inr (Or.inr (Or.inl ⟨record, last, rfl, rfl, Equals_ne_true _ _ he,
          checkDomainInGroup_changed env config store _ _ record last hq hs he⟩))

/-- A check changes the result of the tick exactly in its change branch. -/
theorem checkDomainInGroup_changed_iff (env : Env) (config : Config) (store : Store)
    (domain : String) (isLast : Bool) (r : CheckResult)
    (h : checkDomainInGroup env config store domain isLast = some r) :
    r.changed = true ↔
      ∃ record last, Query env domain config.RecordType = .ok record ∧
        store.get (domain ++ ":" ++ config.RecordType) = some last ∧
        record.Equals last = some false := by
  rcases checkDomainInGroup_cases env config store domain isLast with
    ⟨err, hq, e⟩ | ⟨record, hq, hs, e⟩ | ⟨record, last, hq, hs, he, e⟩
      | ⟨record, last, hq, hs, he, e⟩
  all_goals
    rw [e] at h
    cases h
    simp_all

theorem checkSingleDomain_changed_iff (env : Env) (config : Config) (store : Store)
    (domain timestamp : String) (r : CheckResult)
    (h : checkSingleDomain env config store domain timestamp = some r) :
    r.changed = true ↔
      ∃ record last, Query env domain config.RecordType = .ok record ∧
        store.get (domain ++ ":" ++ config.RecordType) = some last ∧
        record.Equals last = some false := by
  rcases checkSingleDomain_cases env config store domain timestamp with
    ⟨err, hq, e⟩ | ⟨record, hq, hs, e⟩ | ⟨record, last, hq, hs, he, e⟩
      | ⟨record, last, hq, hs, he, e⟩
  all_goals
    rw [e] at h
    cases h
    simp_all

theorem checkDomainInGroup_total (env : Env) (config : Config) (store : Store)
    (domain : String) (isLast : Bool) :
    ∃ r, checkDomainInGroup env config store domain isLast = some r := by
  rcases checkDomainInGroup_cases env config store domain isLast with
    ⟨_, _, e⟩ | ⟨_, _, _, e⟩ | ⟨_, _, _, _, _, e⟩ | ⟨_, _, _, _, _, e⟩ <;> exact ⟨_, e⟩

theorem checkSingleDomain_total (env : Env) (config : Config) (store : Store)
    (domain timestamp : String) :
    ∃ r, checkSingleDomain env config store domain timestamp = some r := by
  rcases checkSingleDomain_cases env config store domain timestamp with
    ⟨_, _, e⟩ | ⟨_, _, _, e⟩ | ⟨_, _, _, _, _, e⟩ | ⟨_, _, _, _, _, e⟩ <;> exact ⟨_, e⟩

theorem storeBefore_zero (store : Store) (results : List CheckResult) :
    storeBefore store results 0 = store := by
  simp [storeBefore]

theorem storeBefore_cons_succ (store : Store) (r : CheckResult) (results : List CheckResult)
    (i : Nat) : storeBefore store (r :: results) (i + 1) = storeBefore r.lastRecords results i := by
  simp [storeBefore]

/-- The loop of `checkDomains` runs `checkDomainInGroup` once on every domain, in
order, each on the map the previous one left. -/
theorem checkGroupLoop_spec (env : Env) (config : Config) (n : Nat) :
    ∀ (ds : List String) (i : Nat) (hasChanges : Bool) (store : Store),
      ∃ results : List CheckResult, results.length = ds.length ∧
        checkGroupLoop env config n i ds hasChanges store =
          some { changed := hasChanges || results.any (fun r => r.changed),
                 lastRecords := storeBefore store results results.length,
                 out := (results.map (fun r => r.out)).flatten } ∧
        ∀ j d, ds[j]? = some d → ∃ r, results[j]? = some r ∧
          checkDomainInGroup env config (storeBefore store results j) d (i + j == n - 1)
            = some r := by
  intro ds
  induction ds with
  | nil =>
    intro i hc store
    exact ⟨[], rfl, by simp [checkGroupLoop, storeBefore], fun j d h => by simp at h⟩
  | cons d ds ih =>
    intro i hc store
    obtain ⟨r, hr⟩ := checkDomainInGroup_total env config store d (i == n - 1)
    obtain ⟨results, hlen, hloop, hall⟩ := ih (i + 1) (hc || r.changed) r.lastRecords
    refine ⟨r :: results, by simp [hlen], ?_, ?_⟩
    · rw [checkGroupLoop, hr]
      simp only [hloop, List.length_cons, storeBefore_cons_succ, List.any_cons, Bool.or_assoc,
        List.map_cons, List.flatten_cons]
    · intro j d' hj
      cases j with
      | zero =>
        simp only [List.getElem?_cons_zero, Option.some.injEq] at hj
        subst hj
        exact ⟨r, by simp, by simpa [storeBefore_zero] using hr⟩
      | succ k =>
        simp only [List.getElem?_cons_succ] at hj
        obtain ⟨r', h1, h2⟩ := hall k d' hj
        refine ⟨r', by simpa using h1, ?_⟩
        rw [storeBefore_cons_succ]
        have : i + (k + 1) = i + 1 + k := by omega
        rw [this]
        exact h2

theorem any_changed_iff (results : List CheckResult) :
    results.any (fun r => r.changed) = true ↔
      ∃ (i : Nat) (r : CheckResult), results[i]? = some r ∧ r.changed = true := by
  rw [List.any_eq_true]
  constructor
  · rintro ⟨r, hm, hc⟩
    obtain ⟨i, hi⟩ := List.mem_iff_getElem?.1 hm
    exact ⟨i, r, hi, hc⟩
  · rintro ⟨i, r, hi, hc⟩
    exact ⟨r, List.mem_iff_getElem?.2 ⟨i, hi⟩, hc⟩

/-- One tick in terms of the checks it runs. -/
theorem checkDomains_spec (env : Env) (config : Config) (store : Store) (timestamp : String) :
    ∃ (results : List CheckResult) (final : CheckResult),
      checkDomains env config store timestamp = some final
      ∧ results.length = config.Domains.length
      ∧ (∀ i d, config.Domains[i]? = some d → ∃ r, results[i]? = some r
          ∧ ((config.Domains.length = 1 ∧
                checkSingleDomain env config (storeBefore store results i) d timestamp = some r)
            ∨ (config.Domains.length ≠ 1 ∧
                checkDomainInGroup env config (storeBefore store results i) d
                  (i == config.Domains.length - 1) = some r)))
      ∧ final.lastRecords = storeBefore store results results.length
      ∧ final.changed = results.any (fun r => r.changed)
      ∧ final.out =
          if config.Domains.length = 1 then (results.map (fun r => r.out)).flatten
          else [Output.stdout ("[" ++ timestamp ++ "]\n")]
            ++ (results.map (fun r => r.out)).flatten ++ [Output.stdout "\n"] := by
  by_cases h1 : ∃ d, config.Domains = [d]
  · obtain ⟨d, hd⟩ := h1
    obtain ⟨r, hr⟩ := checkSingleDomain_total env config store d timestamp
    refine ⟨[r], r, ?_, by simp [hd], ?_, by simp [storeBefore], by simp, by simp [hd]⟩
    · rw [checkDomains_single env config store d timestamp hd, hr]
    · intro i d' hi
      rw [hd] at hi
      cases i with
      | zero =>
        simp only [List.getElem?_cons_zero, Option.some.injEq] at hi
        subst hi
        exact ⟨r, by simp, Or.inl ⟨by simp [hd], by simpa [storeBefore_zero] using hr⟩⟩
      | succ k => simp at hi
  · have hlen : config.Domains.length ≠ 1 := by
      intro hl
      apply h1
      match hD : config.Domains, hl with
      | [d], _ => exact ⟨d, rfl⟩
    obtain ⟨results, hl, hloop, hall⟩ :=
      checkGroupLoop_spec env config config.Domains.length config.Domains 0 false store
    have hcd : checkDomains env config store timestamp =
        match checkGroupLoop env config config.Domains.length 0 config.Domains false store with
        | none => none
        | some r =>
          some { r with out := [Output.stdout ("[" ++ timestamp ++ "]\n")] ++ r.out
                          ++ [Output.stdout "\n"] } := by
      unfold checkDomains
      split
      · rename_i d hd
        exact absurd ⟨d, hd⟩ h1
      · rfl
    refine ⟨results, _, by rw [hcd, hloop], hl, ?_, rfl, by simp, by simp [hlen]⟩
    intro i d hi
    obtain ⟨r, h1', h2⟩ := hall i d hi
    exact ⟨r, h1', Or.inr ⟨hlen, by simpa using h2⟩⟩

/-- C18: one tick runs one check per configured domain, in the order of the
list, each on the map the previous check left, also after a check that found
a change; the tick returns `true` exactly when one of these checks took the
change branch (the resolution succeeded, the map held a record under the key
and the new record was not `Equals` to it); and the loop of `Start`, on that
tick, returns exactly when the tick returned `true` and `UntilChange` is set,
and otherwise goes on with the next event. -/
theorem C18_tick_checks_every_domain (env : Env) (config : Config) (store : Store)
    (timestamp : String) :
    ∃ (results : List CheckResult) (final : CheckResult),
      checkDomains env config store timestamp = some final
      ∧ results.length = config.Domains.length
      ∧ (∀ i d, config.Domains[i]? = some d → ∃ r, results[i]? = some r
          ∧ ((config.Domains.length = 1 ∧
                checkSingleDomain env config (storeBefore store results i) d timestamp = some r)
            ∨ (config.Domains.length ≠ 1 ∧
                checkDomainInGroup env config (storeBefore store results i) d
                  (i == config.Domains.length - 1) = some r))
          ∧ (r.changed = true ↔
              ∃ record last, Query env d config.RecordType = .ok record ∧
                (storeBefore store results i).get (d ++ ":" ++ config.RecordType) = some last ∧
                record.Equals last = some false))
      ∧ final.lastRecords = storeBefore store results results.length
      ∧ (final.changed = true ↔
          ∃ (i : Nat) (r : CheckResult), results[i]? = some r ∧ r.changed = true)
      ∧ (∀ rest : List Event,
          startLoop config store (.tick env timestamp :: rest) =
            if final.changed && config.UntilChange then
              some { out := final.out ++
                       [.stdout "Change detected. Exiting due to --until-change mode.\n"],
                     lastRecords := final.lastRecords, returned := true }
            else
              (startLoop config final.lastRecords rest).map
                (fun s => { s with out := final.out ++ s.out })) := by
  obtain ⟨results, final, hfin, hlen, hall, hstore, hchanged, _⟩ :=
    checkDomains_spec env config store timestamp
  refine ⟨results, final, hfin, hlen, ?_, hstore, ?_, ?_⟩
  · intro i d hi
    obtain ⟨r, h1, h2⟩ := hall i d hi
    refine ⟨r, h1, h2, ?_⟩
    rcases h2 with ⟨_, h2⟩ | ⟨_, h2⟩
    · exact checkSingleDomain_changed_iff env config _ d timestamp r h2
    · exact checkDomainInGroup_changed_iff env config _ d _ r h2
  · rw [hchanged]
    exact any_changed_iff results
  · intro rest
    rw [startLoop, hfin]
    simp only
    split
    · rfl
    · cases startLoop config final.lastRecords rest <;> rfl

/-- A tick over two domains in which the first check finds a change: the
second domain is still checked (its record is stored), and the tick returns
`true`. With `UntilChange` set the loop of `Start` returns after this tick,
without it the loop goes on to the interrupt. -/
theorem C18_tick_evaluated :
    (checkDomains (fixedEnv [⟨[93, 184, 216, 35]⟩] [])
        { Domains := ["a.example", "b.example"], RecordType := "A", NoColor := true }
        (Store.empty.put "a.example:A" ⟨"a.example", "A", ["93.184.216.34"]⟩) "t1").map
      (fun r => (r.changed, r.lastRecords.get "a.example:A", r.lastRecords.get "b.example:A")) =
      some (true, some ⟨"a.example", "A", ["93.184.216.35"]⟩,
        some ⟨"b.example", "A", ["93.184.216.35"]⟩)
    ∧ (startLoop { Domains := ["a.example", "b.example"], RecordType := "A", NoColor := true,
                   UntilChange := true }
        (Store.empty.put "a.example:A" ⟨"a.example", "A", ["93.184.216.34"]⟩)
        [.tick (fixedEnv [⟨[93, 184, 216, 35]⟩] []) "t1",
         .tick (fixedEnv [⟨[93, 184, 216, 35]⟩] []) "t2"]).map
      (fun s => (s.returned, (stdoutTexts s.out).length)) = some (true, 5)
    ∧ (startLoop { Domains := ["a.example", "b.example"], RecordType := "A", NoColor := true }
        (Store.empty.put "a.example:A" ⟨"a.example", "A", ["93.184.216.34"]⟩)
        [.tick (fixedEnv [⟨[93, 184, 216, 35]⟩] []) "t1",
         .tick (fixedEnv [⟨[93, 184, 216, 35]⟩] []) "t2"]).map
      (fun s => (s.returned, (stdoutTexts s.out).length)) = some (false, 8) := by
  decide

/-! ## The layout of a tick on the display -/

theorem printColored_eq (config : Config) (message color : String) :
    printColored config message color = .stdout (coloredText config message color) := by
  cases hc : config.NoColor <;> simp [printColored, coloredText, hc]

/-- The one display line of a check in the multi-domain layout: the message
given to `printColored` starts with the marker and the domain. -/
theorem checkDomainInGroup_display (env : Env) (config : Config) (store : Store)
    (domain : String) (isLast : Bool) (r : CheckResult)
    (h : checkDomainInGroup env config store domain isLast = some r) :
    ∃ tail color, stdoutTexts r.out =
      [coloredText config (groupPrefix isLast ++ " " ++ domain ++ tail) color] := by
  rcases checkDomainInGroup_cases env config store domain isLast with
    ⟨err, hq, e⟩ | ⟨record, hq, hs, e⟩ | ⟨record, last, hq, hs, he, e⟩
      | ⟨record, last, hq, hs, he, e⟩
  · rw [e] at h
    cases h
    refine ⟨" (" ++ config.RecordType ++ "): ERROR - " ++ err, ColorYellow, ?_⟩
    simp [stdoutTexts, groupErrorReport, printColored_eq, String.append_assoc]
  · rw [e] at h
    cases h
    refine ⟨" (" ++ config.RecordType ++ "): " ++ record.String ++ " (initial)", ColorGreen, ?_⟩
    simp [stdoutTexts, groupInitialReport, printColored_eq, String.append_assoc]
  · rw [e] at h
    cases h
    refine ⟨" (" ++ config.RecordType ++ "): " ++ last.String ++ " → " ++ record.String
      ++ " (CHANGED)", ColorRed, ?_⟩
    simp [stdoutTexts, groupChangedReport, printColored_eq, String.append_assoc]
  · rw [e] at h
    cases h
    refine ⟨" (" ++ config.RecordType ++ "): " ++ record.String ++ " (no change)", ColorGreen, ?_⟩
    simp [stdoutTexts, groupUnchangedReport, printColored_eq, String.append_assoc]

theorem stdoutTexts_append (a b : List Output) :
    stdoutTexts (a ++ b) = stdoutTexts a ++ stdoutTexts b := by
  simp [stdoutTexts, List.filterMap_append]

theorem loggerMsgs_append (a b : List Output) :
    loggerMsgs (a ++ b) = loggerMsgs a ++ loggerMsgs b := by
  simp [loggerMsgs, List.filterMap_append]

theorem stdoutTexts_flatten (results : List CheckResult)
    (h : ∀ r ∈ results, ∃ t, stdoutTexts r.out = [t]) :
    stdoutTexts ((results.map (fun r => r.out)).flatten) =
      results.map (fun r => (stdoutTexts r.out).headD "") := by
  induction results with
  | nil => rfl
  | cons r rs ih =>
    obtain ⟨t, ht⟩ := h r (List.mem_cons_self _ _)
    simp only [List.map_cons, List.flatten_cons, stdoutTexts_append, ht,
      ih (fun r' hr' => h r' (List.mem_cons_of_mem _ hr'))]
    rfl

/-! ## The display and the log of one check -/

theorem hasEscape_append (a b : String) :
    hasEscape (a ++ b) = (hasEscape a || hasEscape b) := by
  simp [hasEscape, String.data_append]

theorem hasEscape_intercalate_go (sep : String) (hsep : hasEscape sep = false) :
    ∀ (l : List String) (acc : String), hasEscape acc = false →
      (∀ v ∈ l, hasEscape v = false) →
      hasEscape (String.intercalate.go acc sep l) = false := by
  intro l
  induction l with
  | nil => intro acc ha _; simpa [String.intercalate.go] using ha
  | cons a as ih =>
    intro acc ha hl
    rw [String.intercalate.go]
    apply ih
    · simp [hasEscape_append, ha, hsep, hl a (List.mem_cons_self _ _)]
    · exact fun v hv => hl v (List.mem_cons_of_mem _ hv)

theorem hasEscape_record (r : DNSRecord) (h : ∀ v ∈ r.Values, hasEscape v = false) :
    hasEscape r.String = false := by
  have hi : hasEscape (", ".intercalate r.Values) = false := by
    cases hv : r.Values with
    | nil => rfl
    | cons a as =>
      rw [hv] at h
      rw [String.intercalate]
      exact hasEscape_intercalate_go ", " (by decide) as a (h a (List.mem_cons_self _ _))
        (fun v hv => h v (List.mem_cons_of_mem _ hv))
  have h1 : hasEscape "[" = false := by decide
  have h2 : hasEscape "]" = false := by decide
  simp [DNSRecord.String, hasEscape_append, hi, h1, h2]

theorem single_display_matches_log (config : Config) (timestamp domain err : String)
    (record last : DNSRecord) :
    let P := fun (out : List Output) =>
      List.Forall₂ (fun text msg => ∃ color, text = coloredText config msg color)
        (stdoutTexts out) (loggerMsgs out)
    P (singleErrorReport config timestamp domain err)
    ∧ P (singleInitialReport config timestamp domain record)
    ∧ P (singleChangedReport config timestamp domain last record)
    ∧ P (singleUnchangedReport config timestamp domain record) := by
  intro P
  refine ⟨?_, ?_, ?_, ?_⟩ <;>
    simp only [P, singleErrorReport, singleInitialReport, singleChangedReport,
      singleUnchangedReport, stdoutTexts, loggerMsgs, printColored_eq, List.filterMap_cons,
      List.filterMap_nil] <;>
    repeat (first | exact List.Forall₂.nil | refine List.Forall₂.cons ⟨_, rfl⟩ ?_)

theorem loggerMsgs_reports (config : Config) (timestamp domain err : String) (isLast : Bool)
    (record last : DNSRecord) :
    loggerMsgs (singleErrorReport config timestamp domain err) =
      ["[" ++ timestamp ++ "] " ++ domain ++ " (" ++ config.RecordType ++ ") - ERROR: " ++ err]
    ∧ loggerMsgs (singleInitialReport config timestamp domain record) =
      ["[" ++ timestamp ++ "] " ++ domain ++ " (" ++ config.RecordType ++ ") - Initial: "
        ++ record.String]
    ∧ loggerMsgs (singleChangedReport config timestamp domain last record) =
      ["[" ++ timestamp ++ "] " ++ domain ++ " (" ++ config.RecordType
        ++ ") - CHANGE DETECTED:", "  Before: " ++ last.String, "  After:  " ++ record.String]
    ∧ loggerMsgs (singleUnchangedReport config timestamp domain record) =
      ["[" ++ timestamp ++ "] " ++ domain ++ " (" ++ config.RecordType ++ ") - No change: "
        ++ record.String]
    ∧ loggerMsgs (groupErrorReport config domain isLast err) =
      ["ERROR: " ++ domain ++ " (" ++ config.RecordType ++ ") - " ++ err]
    ∧ loggerMsgs (groupInitialReport config domain isLast record) =
      ["INITIAL: " ++ domain ++ " (" ++ config.RecordType ++ ") - " ++ record.String]
    ∧ loggerMsgs (groupChangedReport config domain isLast last record) =
      ["CHANGE: " ++ domain ++ " (" ++ config.RecordType ++ ") - " ++ last.String ++ " → "
        ++ record.String]
    ∧ loggerMsgs (groupUnchangedReport config domain isLast record) = [] := by
  simp [loggerMsgs, singleErrorReport, singleInitialReport, singleChangedReport,
    singleUnchangedReport, groupErrorReport, groupInitialReport, groupChangedReport,
    groupUnchangedReport, printColored_eq]

theorem hasEscape_reports (config : Config) (timestamp domain err : String) (isLast : Bool)
    (record last : DNSRecord)
    (ht : hasEscape timestamp = false) (hd : hasEscape domain = false)
    (hty : hasEscape config.RecordType = false) :
    (hasEscape err = false →
      (∀ m ∈ loggerMsgs (singleErrorReport config timestamp domain err), hasEscape m = false)
      ∧ ∀ m ∈ loggerMsgs (groupErrorReport config domain isLast err), hasEscape m = false)
    ∧ ((∀ v ∈ record.Values, hasEscape v = false) →
      (∀ m ∈ loggerMsgs (singleInitialReport config timestamp domain record),
        hasEscape m = false)
      ∧ (∀ m ∈ loggerMsgs (singleUnchangedReport config timestamp domain record),
        hasEscape m = false)
      ∧ (∀ m ∈ loggerMsgs (groupInitialReport config domain isLast record),
        hasEscape m = false)
      ∧ (∀ m ∈ loggerMsgs (groupUnchangedReport config domain isLast record),
        hasEscape m = false)
      ∧ ((∀ v ∈ last.Values, hasEscape v = false) →
        (∀ m ∈ loggerMsgs (singleChangedReport config timestamp domain last record),
          hasEscape m = false)
        ∧ ∀ m ∈ loggerMsgs (groupChangedReport config domain isLast last record),
          hasEscape m = false)) := by
  obtain ⟨e1, e2, e3, e4, e5, e6, e7, e8⟩ :=
    loggerMsgs_reports config timestamp domain err isLast record last
  have l1 : hasEscape "[" = false := by decide
  have l2 : hasEscape "] " = false := by decide
  have l3 : hasEscape " (" = false := by decide
  have l4 : hasEscape ") - ERROR: " = false := by decide
  have l5 : hasEscape ") - Initial: " = false := by decide
  have l6 : hasEscape ") - CHANGE DETECTED:" = false := by decide
  have l7 : hasEscape "  Before: " = false := by decide
  have l8 : hasEscape "  After:  " = false := by decide
  have l9 : hasEscape ") - No change: " = false := by decide
  have l10 : hasEscape "ERROR: " = false := by decide
  have l11 : hasEscape ") - " = false := by decide
  have l12 : hasEscape "INITIAL: " = false := by decide
  have l13 : hasEscape "CHANGE: " = false := by decide
  have l14 : hasEscape " → " = false := by decide
  rw [e1, e2, e3, e4, e5, e6, e7, e8]
  refine ⟨fun he => ?_, fun hr => ?_⟩
  · simp [hasEscape_append, *]
  · have hrs := hasEscape_record record hr
    refine ⟨?_, ?_, ?_, ?_, fun hl => ?_⟩
    · simp [hasEscape_append, *]
    · simp [hasEscape_append, *]
    · simp [hasEscape_append, *]
    · simp
    · have hls := hasEscape_record last hl
      simp [hasEscape_append, *]

theorem checkSingleDomain_log_noColor (env : Env) (config : Config) (store : Store)
    (domain timestamp : String) (b : Bool) :
    (checkSingleDomain env { config with NoColor := b } store domain timestamp).map
        (fun r => (r.changed, loggerMsgs r.out))
      = (checkSingleDomain env config store domain timestamp).map
        (fun r => (r.changed, loggerMsgs r.out)) := by
  simp only [checkSingleDomain]
  cases Query env domain config.RecordType with
  | error err => simp [loggerMsgs, singleErrorReport, singleInitialReport, groupErrorReport,
      groupInitialReport, printColored_eq]
  | ok record =>
    cases store.get (domain ++ ":" ++ config.RecordType) with
    | none => simp [loggerMsgs, singleErrorReport, singleInitialReport, groupErrorReport,
      groupInitialReport, printColored_eq]
    | some last =>
      simp only [Equals_eq_decide]
      by_cases h : record = last <;> simp [h, loggerMsgs, singleChangedReport, singleUnchangedReport,
        groupChangedReport, groupUnchangedReport, printColored_eq]

theorem checkDomainInGroup_log_noColor (env : Env) (config : Config) (store : Store)
    (domain : String) (isLast b : Bool) :
    (checkDomainInGroup env { config with NoColor := b } store domain isLast).map
        (fun r => (r.changed, loggerMsgs r.out))
      = (checkDomainInGroup env config store domain isLast).map
        (fun r => (r.changed, loggerMsgs r.out)) := by
  simp only [checkDomainInGroup]
  cases Query env domain config.RecordType with
  | error err => simp [loggerMsgs, singleErrorReport, singleInitialReport, groupErrorReport,
      groupInitialReport, printColored_eq]
  | ok record =>
    cases store.get (domain ++ ":" ++ config.RecordType) with
    | none => simp [loggerMsgs, singleErrorReport, singleInitialReport, groupErrorReport,
      groupInitialReport, printColored_eq]
    | some last =>
      simp only [Equals_eq_decide]
      by_cases h : record = last <;> simp [h, loggerMsgs, singleChangedReport, singleUnchangedReport,
        groupChangedReport, groupUnchangedReport, printColored_eq]

/-- C17 (amended): in the single-domain layout every display line of a check is
the coloured form of a message that the same check writes to the log, in the same
order; in the multi-domain layout the Error, Initial and Changed outcomes write one
log entry in their own format (`ERROR: `, `INITIAL: `, `CHANGE: ` followed by the
domain and record type, without the tree marker); what is logged, and whether a
change is reported, does not depend on the no-color flag; and when the timestamp, the
domain, the record type, the resolver's answer or error text and the stored values
hold no escape character, no logged message holds one. -/
theorem C17_display_and_log (env : Env) (config : Config) (store : Store)
    (domain timestamp : String) (isLast : Bool) :
    (∃ r, checkSingleDomain env config store domain timestamp = some r ∧
      List.Forall₂ (fun text msg => ∃ color, text = coloredText config msg color)
        (stdoutTexts r.out) (loggerMsgs r.out))
    ∧ (∃ r, checkDomainInGroup env config store domain isLast = some r ∧
        (∀ err, Query env domain config.RecordType = .error err →
          loggerMsgs r.out =
            ["ERROR: " ++ domain ++ " (" ++ config.RecordType ++ ") - " ++ err])
        ∧ (∀ record, Query env domain config.RecordType = .ok record →
            store.get (domain ++ ":" ++ config.RecordType) = none →
            loggerMsgs r.out =
              ["INITIAL: " ++ domain ++ " (" ++ config.RecordType ++ ") - "
                ++ record.String])
        ∧ (∀ record last, Query env domain config.RecordType = .ok record →
            store.get (domain ++ ":" ++ config.RecordType) = some last →
            record.Equals last = some false →
            loggerMsgs r.out =
              ["CHANGE: " ++ domain ++ " (" ++ config.RecordType ++ ") - "
                ++ last.String ++ " → " ++ record.String]))
    ∧ (∀ b : Bool,
        (checkSingleDomain env { config with NoColor := b } store domain timestamp).map
            (fun r => (r.changed, loggerMsgs r.out))
          = (checkSingleDomain env config store domain timestamp).map
            (fun r => (r.changed, loggerMsgs r.out))
        ∧ (checkDomainInGroup env { config with NoColor := b } store domain isLast).map
            (fun r => (r.changed, loggerMsgs r.out))
          = (checkDomainInGroup env config store domain isLast).map
            (fun r => (r.changed, loggerMsgs r.out)))
    ∧ (hasEscape timestamp = false → hasEscape domain = false →
        hasEscape config.RecordType = false →
        (∀ err, Query env domain config.RecordType = .error err → hasEscape err = false) →
        (∀ record, Query env domain config.RecordType = .ok record →
          ∀ v ∈ record.Values, hasEscape v = false) →
        (∀ last, store.get (domain ++ ":" ++ config.RecordType) = some last →
          ∀ v ∈ last.Values, hasEscape v = false) →
        ∀ r, (checkSingleDomain env config store domain timestamp = some r
              ∨ checkDomainInGroup env config store domain isLast = some r) →
          ∀ m ∈ loggerMsgs r.out, hasEscape m = false) := by
  refine ⟨?_, ?_, fun b => ⟨checkSingleDomain_log_noColor env config store domain timestamp b,
    checkDomainInGroup_log_noColor env config store domain isLast b⟩, ?_⟩
  · rcases checkSingleDomain_cases env config store domain timestamp with
      ⟨err, hq, e⟩ | ⟨record, hq, hs, e⟩ | ⟨record, last, hq, hs, he, e⟩
        | ⟨record, last, hq, hs, he, e⟩
    · exact ⟨_, e, (single_display_matches_log config timestamp domain err
        ⟨"", "", []⟩ ⟨"", "", []⟩).1⟩
    · exact ⟨_, e, (single_display_matches_log config timestamp domain ""
        record record).2.1⟩
    · exact ⟨_, e, (single_display_matches_log config timestamp domain ""
        record last).2.2.1⟩
    · exact ⟨_, e, (single_display_matches_log config timestamp domain ""
        record last).2.2.2⟩
  · rcases checkDomainInGroup_cases env config store domain isLast with
      ⟨err, hq, e⟩ | ⟨record, hq, hs, e⟩ | ⟨record, last, hq, hs, he, e⟩
        | ⟨record, last, hq, hs, he, e⟩
    · refine ⟨_, e, ?_, ?_, ?_⟩
      · intro err' h'
        rw [hq] at h'
        cases h'
        exact (loggerMsgs_reports config timestamp domain err isLast
          ⟨"", "", []⟩ ⟨"", "", []⟩).2.2.2.2.1
      · intro record h'
        rw [hq] at h'
        cases h'
      · intro record last h'
        rw [hq] at h'
        cases h'
    · refine ⟨_, e, ?_, ?_, ?_⟩
      · intro err' h'
        rw [hq] at h'
        cases h'
      · intro record' h' _
        rw [hq] at h'
        cases h'
        exact (loggerMsgs_reports config timestamp domain "" isLast
          record record).2.2.2.2.2.1
      · intro record' last h' hs'
        rw [hs] at hs'
        cases hs'
    · refine ⟨_, e, ?_, ?_, ?_⟩
      · intro err' h'
        rw [hq] at h'
        cases h'
      · intro record' h' hs'
        rw [hs] at hs'
        cases hs'
      · intro record' last' h' hs' _
        rw [hq] at h'
        rw [hs] at hs'
        cases h'
        cases hs'
        exact (loggerMsgs_reports config timestamp domain "" isLast
          record last).2.2.2.2.2.2.1
    · refine ⟨_, e, ?_, ?_, ?_⟩
      · intro err' h'
        rw [hq] at h'
        cases h'
      · intro record' h' hs'
        rw [hs] at hs'
        cases hs'
      · intro record' last' h' hs' he'
        rw [hq] at h'
        rw [hs] at hs'
        cases h'
        cases hs'
        rw [he] at he'
        cases he'
  · intro ht hd hty herr hrec hlast r hr m hm
    rcases hr with hr | hr
    · rcases checkSingleDomain_cases env config store domain timestamp with
        ⟨err, hq, e⟩ | ⟨record, hq, hs, e⟩ | ⟨record, last, hq, hs, he, e⟩
          | ⟨record, last, hq, hs, he, e⟩
      · rw [e] at hr
        cases hr
        exact ((hasEscape_reports config timestamp domain err isLast ⟨"", "", []⟩
          ⟨"", "", []⟩ ht hd hty).1 (herr err hq)).1 m hm
      · rw [e] at hr
        cases hr
        exact ((hasEscape_reports config timestamp domain "" isLast record record
          ht hd hty).2 (hrec record hq)).1 m hm
      · rw [e] at hr
        cases hr
        exact (((hasEscape_reports config timestamp domain "" isLast record last
          ht hd hty).2 (hrec record hq)).2.2.2.2 (hlast last hs)).1 m hm
      · rw [e] at hr
        cases hr
        exact ((hasEscape_reports config timestamp domain "" isLast record last
          ht hd hty).2 (hrec record hq)).2.1 m hm
    · rcases checkDomainInGroup_cases env config store domain isLast with
        ⟨err, hq, e⟩ | ⟨record, hq, hs, e⟩ | ⟨record, last, hq, hs, he, e⟩
          | ⟨record, last, hq, hs, he, e⟩
      · rw [e] at hr
        cases hr
        exact ((hasEscape_reports config timestamp domain err isLast ⟨"", "", []⟩
          ⟨"", "", []⟩ ht hd hty).1 (herr err hq)).2 m hm
      · rw [e] at hr
        cases hr
        exact ((hasEscape_reports config timestamp domain "" isLast record record
          ht hd hty).2 (hrec record hq)).2.2.1 m hm
      · rw [e] at hr
        cases hr
        exact (((hasEscape_reports config timestamp domain "" isLast record last
          ht hd hty).2 (hrec record hq)).2.2.2.2 (hlast last hs)).2 m hm
      · rw [e] at hr
        cases hr
        exact ((hasEscape_reports config timestamp domain "" isLast record last
          ht hd hty).2 (hrec record hq)).2.2.2.1 m hm

/-- C17 at a concrete check: the second look at a domain whose address changed,
single-domain layout with colours on; the three logged messages hold no escape
character. -/
theorem C17_display_and_log_witness :
    checkSingleDomain (fixedEnv [⟨[93, 184, 216, 34]⟩] [])
        { Domains := ["a.example"], RecordType := "A" }
        (Store.empty.put "a.example:A" ⟨"a.example", "A", ["10.0.0.1"]⟩)
        "a.example" "t2" =
      some { changed := true,
             lastRecords := (Store.empty.put "a.example:A"
               ⟨"a.example", "A", ["10.0.0.1"]⟩).put "a.example:A"
               ⟨"a.example", "A", ["93.184.216.34"]⟩,
             out := singleChangedReport { Domains := ["a.example"], RecordType := "A" }
               "t2" "a.example" ⟨"a.example", "A", ["10.0.0.1"]⟩
               ⟨"a.example", "A", ["93.184.216.34"]⟩ }
    ∧ loggerMsgs (singleChangedReport { Domains := ["a.example"], RecordType := "A" }
        "t2" "a.example" ⟨"a.example", "A", ["10.0.0.1"]⟩
        ⟨"a.example", "A", ["93.184.216.34"]⟩) =
      ["[t2] a.example (A) - CHANGE DETECTED:", "  Before: [10.0.0.1]",
       "  After:  [93.184.216.34]"]
    ∧ ((loggerMsgs (singleChangedReport { Domains := ["a.example"], RecordType := "A" }
        "t2" "a.example" ⟨"a.example", "A", ["10.0.0.1"]⟩
        ⟨"a.example", "A", ["93.184.216.34"]⟩)).all (fun m => !hasEscape m)) = true :=
  ⟨rfl, by decide,
   List.all_eq_true.mpr (fun m hm => by
    have h := (C17_display_and_log (fixedEnv [⟨[93, 184, 216, 34]⟩] [])
        { Domains := ["a.example"], RecordType := "A" }
        (Store.empty.put "a.example:A" ⟨"a.example", "A", ["10.0.0.1"]⟩)
        "a.example" "t2" false).2.2.2 (by decide) (by decide) (by decide)
        (fun err he => by
          rw [show Query (fixedEnv [⟨[93, 184, 216, 34]⟩] []) "a.example" "A"
            = .ok ⟨"a.example", "A", ["93.184.216.34"]⟩ from by decide] at he
          cases he)
        (fun record he => by
          rw [show Query (fixedEnv [⟨[93, 184, 216, 34]⟩] []) "a.example" "A"
            = .ok ⟨"a.example", "A", ["93.184.216.34"]⟩ from by decide] at he
          cases he
          decide)
        (fun last hl => by
          rw [show (Store.empty.put "a.example:A" ⟨"a.example", "A", ["10.0.0.1"]⟩).get
            ("a.example" ++ ":" ++ "A") = some ⟨"a.example", "A", ["10.0.0.1"]⟩
            from by decide] at hl
          cases hl
          decide)
        { changed := true,
          lastRecords := (Store.empty.put "a.example:A"
            ⟨"a.example", "A", ["10.0.0.1"]⟩).put "a.example:A"
            ⟨"a.example", "A", ["93.184.216.34"]⟩,
          out := singleChangedReport { Domains := ["a.example"], RecordType := "A" }
            "t2" "a.example" ⟨"a.example", "A", ["10.0.0.1"]⟩
            ⟨"a.example", "A", ["93.184.216.34"]⟩ }
        (Or.inl rfl) m hm
    simp [h])⟩

/-- C17 as stated fails in the multi-domain layout, colours off: the display line
of an Initial outcome is not among the logged messages (the log entry has another
format), and an Unchanged outcome writes a display line and logs nothing. -/
theorem C17_group_log_counterexample :
    (checkDomainInGroup (fixedEnv [⟨[93, 184, 216, 34]⟩] [])
        { Domains := ["a.example", "b.example"], RecordType := "A", NoColor := true }
        Store.empty "a.example" false).map
        (fun r => (stdoutTexts r.out, loggerMsgs r.out)) =
      some (["├─ a.example (A): [93.184.216.34] (initial)\n"],
            ["INITIAL: a.example (A) - [93.184.216.34]"])
    ∧ (checkDomainInGroup (fixedEnv [⟨[93, 184, 216, 34]⟩] [])
        { Domains := ["a.example", "b.example"], RecordType := "A", NoColor := true }
        (Store.empty.put "a.example:A" ⟨"a.example", "A", ["93.184.216.34"]⟩)
        "a.example" false).map
        (fun r => (stdoutTexts r.out, loggerMsgs r.out)) =
      some (["├─ a.example (A): [93.184.216.34] (no change)\n"], []) := by
  decide

/-! ## Record types that `Query` does not serve -/

/-- C20 (amended): for every domain and every record type whose upper-cased form
is not one of A, AAAA, CNAME, MX, TXT, `Query` returns no record and the error
`unsupported record type: ` followed by the record type as given; it makes no call
of the platform resolver, and the outcome is the same whatever the resolver would
answer. -/
theorem C20_unsupported_type (env : Env) (domain recordType : String)
    (h : env.ToUpper recordType ∉ ["A", "AAAA", "CNAME", "MX", "TXT"]) :
    Query env domain recordType = .error ("unsupported record type: " ++ recordType)
    ∧ queryLookups env domain recordType = []
    ∧ ∀ env2 : Env, env2.ToUpper = env.ToUpper →
        Query env2 domain recordType
          = .error ("unsupported record type: " ++ recordType) := by
  simp only [List.mem_cons, List.mem_singleton, List.mem_nil_iff, or_false, not_or] at h
  obtain ⟨h1, h2, h3, h4, h5⟩ := h
  refine ⟨?_, ?_, ?_⟩
  · simp [Query, h1, h2, h3, h4, h5]
  · simp [queryLookups, h1, h2, h3, h4, h5]
  · intro env2 he
    simp [Query, he, h1, h2, h3, h4, h5]

/-- C20 at the record type of the repository's test, `UNSUPPORTED`. -/
theorem C20_unsupported_type_witness :
    Query (fixedEnv [⟨[93, 184, 216, 34]⟩] []) "example.com" "UNSUPPORTED"
      = .error "unsupported record type: UNSUPPORTED"
    ∧ queryLookups (fixedEnv [⟨[93, 184, 216, 34]⟩] []) "example.com" "UNSUPPORTED" = [] :=
  ⟨(C20_unsupported_type (fixedEnv [⟨[93, 184, 216, 34]⟩] []) "example.com" "UNSUPPORTED"
      (by decide)).1,
   (C20_unsupported_type (fixedEnv [⟨[93, 184, 216, 34]⟩] []) "example.com" "UNSUPPORTED"
      (by decide)).2.1⟩

/-- C20 as stated fails on a record type in lower case: `a` is not one of the five
names, yet `Query` calls the resolver and returns the A record. -/
theorem C20_lower_case_counterexample :
    "a" ∉ ["A", "AAAA", "CNAME", "MX", "TXT"]
    ∧ Query (fixedEnv [⟨[93, 184, 216, 34]⟩] []) "example.com" "a"
      = .ok ⟨"example.com", "A", ["93.184.216.34"]⟩
    ∧ queryLookups (fixedEnv [⟨[93, 184, 216, 34]⟩] []) "example.com" "a"
      = [.ip "example.com"] := by
  decide

/-! ## The A query -/

/-- The two ways `queryA` ends, by the resolver's answer. -/
theorem queryA_cases (env : Env) (domain : String) :
    (∃ err, env.LookupIP domain = .error err ∧
      queryA env domain =
        .error ("failed to lookup A record for " ++ domain ++ ": " ++ err))
    ∨ (∃ ips, env.LookupIP domain = .ok ips ∧ (∀ ip ∈ ips, ip.To4 = none) ∧
        queryA env domain = .error ("no A records found for " ++ domain))
    ∨ (∃ ips, env.LookupIP domain = .ok ips ∧ (∃ ip ∈ ips, ip.To4.isSome = true) ∧
        queryA env domain = .ok
          { Domain := domain, Typ := "A",
            Values := sortStrings
              ((ips.filter (fun ip => ip.To4.isSome)).map env.ipString) }) := by
  cases h : env.LookupIP domain with
  | error err => exact Or.inl ⟨err, rfl, by simp [queryA, h]⟩
  | ok ips =>
    by_cases hf : ips.filter (fun ip => ip.To4.isSome) = []
    · refine Or.inr (Or.inl ⟨ips, rfl, ?_, by simp [queryA, h, hf]⟩)
      intro ip hip
      have := List.filter_eq_nil_iff.1 hf ip hip
      cases h4 : ip.To4 with
      | none => rfl
      | some v => simp [h4] at this
    · refine Or.inr (Or.inr ⟨ips, rfl, ?_, ?_⟩)
      · obtain ⟨ip, hip⟩ := List.exists_mem_of_ne_nil _ hf
        rw [List.mem_filter] at hip
        exact ⟨ip, hip.1, hip.2⟩
      · have hl : ((ips.filter (fun ip => ip.To4.isSome)).map env.ipString).length ≠ 0 := by
          simpa using hf
        simp only [queryA, h]
        rw [if_neg hl]

/-- C21: when the resolver returns the address list `ips`, `queryA` returns the
record with the domain, type `A` and, as values, the ascending rearrangement of
the string forms of the addresses of `ips` that have an IPv4 form (`To4` not nil):
sorted, a permutation of them (so with multiplicity), and not empty. It fails
exactly when the resolver fails or no address of the list has an IPv4 form, and a
record it returns has the domain, type `A` and at least one value. -/
theorem C21_queryA_sorted_ipv4 (env : Env) (domain : String) :
    (∀ ips, env.LookupIP domain = .ok ips → (∃ ip ∈ ips, ip.To4.isSome = true) →
      ∃ values, queryA env domain = .ok { Domain := domain, Typ := "A", Values := values }
        ∧ values = sortStrings ((ips.filter (fun ip => ip.To4.isSome)).map env.ipString)
        ∧ values.Sorted (fun a b => a.data ≤ b.data)
        ∧ values.Perm ((ips.filter (fun ip => ip.To4.isSome)).map env.ipString)
        ∧ values ≠ [])
    ∧ ((∃ err, queryA env domain = .error err) ↔
        ((∃ err, env.LookupIP domain = .error err)
          ∨ ∃ ips, env.LookupIP domain = .ok ips ∧ ∀ ip ∈ ips, ip.To4 = none))
    ∧ (∀ r, queryA env domain = .ok r →
        r.Domain = domain ∧ r.Typ = "A" ∧ r.Values ≠ []) := by
  have hne : ∀ ips : List IP, (∃ ip ∈ ips, ip.To4.isSome = true) →
      sortStrings ((ips.filter (fun ip => ip.To4.isSome)).map env.ipString) ≠ [] := by
    rintro ips ⟨ip, hip, h4⟩ hnil
    have hp := sortStrings_perm ((ips.filter (fun ip => ip.To4.isSome)).map env.ipString)
    rw [hnil] at hp
    have hm : env.ipString ip ∈
        (ips.filter (fun ip => ip.To4.isSome)).map env.ipString :=
      List.mem_map_of_mem _ (List.mem_filter.2 ⟨hip, h4⟩)
    rw [← hp.nil_eq] at hm
    cases hm
  refine ⟨?_, ?_, ?_⟩
  · intro ips hl hex
    rcases queryA_cases env domain with
      ⟨err, h1, _⟩ | ⟨ips2, h1, h2, _⟩ | ⟨ips2, h1, _, h3⟩
    · rw [hl] at h1
      cases h1
    · rw [hl] at h1
      cases h1
      obtain ⟨ip, hip, h4⟩ := hex
      rw [h2 ip hip] at h4
      cases h4
    · rw [hl] at h1
      cases h1
      exact ⟨_, h3, rfl, sortStrings_sorted _, sortStrings_perm _, hne ips hex⟩
  · rcases queryA_cases env domain with
      ⟨err, h1, h3⟩ | ⟨ips, h1, h2, h3⟩ | ⟨ips, h1, ⟨ip, hip, h4⟩, h3⟩
    · exact ⟨fun _ => Or.inl ⟨err, h1⟩, fun _ => ⟨_, h3⟩⟩
    · exact ⟨fun _ => Or.inr ⟨ips, h1, h2⟩, fun _ => ⟨_, h3⟩⟩
    · constructor
      · rintro ⟨err, he⟩
        rw [h3] at he
        cases he
      · rintro (⟨err, he⟩ | ⟨ips2, he, hall⟩)
        · rw [h1] at he
          cases he
        · rw [h1] at he
          cases he
          rw [hall ip hip] at h4
          cases h4
  · intro r hr
    rcases queryA_cases env domain with
      ⟨err, _, h3⟩ | ⟨ips, _, _, h3⟩ | ⟨ips, _, hex, h3⟩
    · rw [h3] at hr
      cases hr
    · rw [h3] at hr
      cases hr
    · rw [h3] at hr
      cases hr
      exact ⟨rfl, rfl, hne ips hex⟩

/-- C21 at a resolver answer of two IPv4 addresses around one IPv6 address: the
record holds the two dotted forms, in ascending order. -/
theorem C21_queryA_witness :
    queryA (fixedEnv [⟨[93, 184, 216, 34]⟩,
        ⟨[32, 1, 13, 184, 0, 0, 0, 0, 0, 0, 0, 0, 0, 0, 0, 1]⟩, ⟨[10, 0, 0, 1]⟩] [])
      "example.com" = .ok ⟨"example.com", "A", ["10.0.0.1", "93.184.216.34"]⟩
    ∧ ∃ values, queryA (fixedEnv [⟨[93, 184, 216, 34]⟩,
          ⟨[32, 1, 13, 184, 0, 0, 0, 0, 0, 0, 0, 0, 0, 0, 0, 1]⟩, ⟨[10, 0, 0, 1]⟩] [])
        "example.com" = .ok { Domain := "example.com", Typ := "A", Values := values }
      ∧ values = sortStrings
          (([⟨[93, 184, 216, 34]⟩, ⟨[32, 1, 13, 184, 0, 0, 0, 0, 0, 0, 0, 0, 0, 0, 0, 1]⟩,
            ⟨[10, 0, 0, 1]⟩].filter (fun ip => ip.To4.isSome)).map dotted)
      ∧ values.Sorted (fun a b => a.data ≤ b.data)
      ∧ values.Perm
          (([⟨[93, 184, 216, 34]⟩, ⟨[32, 1, 13, 184, 0, 0, 0, 0, 0, 0, 0, 0, 0, 0, 0, 1]⟩,
            ⟨[10, 0, 0, 1]⟩].filter (fun ip => ip.To4.isSome)).map dotted)
      ∧ values ≠ [] :=
  ⟨by decide,
   (C21_queryA_sorted_ipv4 (fixedEnv [⟨[93, 184, 216, 34]⟩,
        ⟨[32, 1, 13, 184, 0, 0, 0, 0, 0, 0, 0, 0, 0, 0, 0, 1]⟩, ⟨[10, 0, 0, 1]⟩] [])
      "example.com").1 _ rfl ⟨⟨[93, 184, 216, 34]⟩, by decide, by decide⟩⟩

/-! ## The keys of the store -/

/-- Two texts cut at a colon, each with a colon-free left part, are cut at the
same place. -/
theorem colon_split_unique :
    ∀ (a b x y : List Char), ':' ∉ a → ':' ∉ b → a ++ ':' :: x = b ++ ':' :: y →
      a = b ∧ x = y := by
  intro a
  induction a with
  | nil =>
    intro b x y _ hb h
    cases b with
    | nil => simpa using h
    | cons c b =>
      simp only [List.nil_append, List.cons_append, List.cons.injEq] at h
      exact absurd (h.1 ▸ List.mem_cons_self _ _) hb
  | cons c a ih =>
    intro b x y ha hb h
    cases b with
    | nil =>
      simp only [List.nil_append, List.cons_append, List.cons.injEq] at h
      exact absurd (h.1 ▸ List.mem_cons_self _ _) ha
    | cons c2 b =>
      simp only [List.cons_append, List.cons.injEq] at h
      obtain ⟨h1, h2⟩ := ih b x y (fun hm => ha (List.mem_cons_of_mem _ hm))
        (fun hm => hb (List.mem_cons_of_mem _ hm)) h.2
      exact ⟨by rw [h.1, h1], h2⟩

/-- The five record types hold no colon. -/
theorem validType_no_colon (t : String) (h : isValidRecordType t = true) :
    ':' ∉ t.data.reverse := by
  rcases (isValidRecordType_iff t).1 h with h | h | h | h | h <;> subst h <;> decide

/-- The key of the store determines the domain and the record type. -/
theorem key_injective (d1 d2 t1 t2 : String) (h1 : isValidRecordType t1 = true)
    (h2 : isValidRecordType t2 = true) (h : d1 ++ ":" ++ t1 = d2 ++ ":" ++ t2) :
    d1 = d2 ∧ t1 = t2 := by
  have hd : (d1 ++ ":" ++ t1).data.reverse = (d2 ++ ":" ++ t2).data.reverse := by rw [h]
  simp only [String.data_append, List.reverse_append] at hd
  have hc : (":" : String).data.reverse = [':'] := rfl
  rw [hc] at hd
  simp only [List.singleton_append] at hd
  obtain ⟨e1, e2⟩ := colon_split_unique _ _ _ _ (validType_no_colon t1 h1)
    (validType_no_colon t2 h2) hd
  exact ⟨String.ext (List.reverse_injective e2), String.ext (List.reverse_injective e1)⟩

/-- C22: for record types among A, AAAA, CNAME, MX, TXT and any domains, the keys
`d1 ++ ":" ++ t1` and `d2 ++ ":" ++ t2` are equal exactly when the domains are equal
and the record types are equal; so a write under the key of one target leaves the
entry of every other target as it was, and so does a whole check of that target, in
either layout. -/
theorem C22_store_key_injective (d1 d2 t1 t2 : String)
    (h1 : isValidRecordType t1 = true) (h2 : isValidRecordType t2 = true) :
    (d1 ++ ":" ++ t1 = d2 ++ ":" ++ t2 ↔ (d1 = d2 ∧ t1 = t2))
    ∧ (¬ (d1 = d2 ∧ t1 = t2) →
        (∀ (store : Store) (r : DNSRecord),
          (store.put (d1 ++ ":" ++ t1) r).get (d2 ++ ":" ++ t2)
            = store.get (d2 ++ ":" ++ t2))
        ∧ ∀ (env : Env) (config : Config) (store : Store) (timestamp : String)
            (isLast : Bool) (r : CheckResult), config.RecordType = t1 →
            (checkSingleDomain env config store d1 timestamp = some r
              ∨ checkDomainInGroup env config store d1 isLast = some r) →
            r.lastRecords.get (d2 ++ ":" ++ t2) = store.get (d2 ++ ":" ++ t2)) := by
  have hiff : d1 ++ ":" ++ t1 = d2 ++ ":" ++ t2 ↔ (d1 = d2 ∧ t1 = t2) :=
    ⟨key_injective d1 d2 t1 t2 h1 h2, fun ⟨e1, e2⟩ => by rw [e1, e2]⟩
  refine ⟨hiff, fun hne => ?_⟩
  have hk : d2 ++ ":" ++ t2 ≠ d1 ++ ":" ++ t1 := fun e => hne (hiff.1 e.symm)
  refine ⟨fun store r => Store.get_put_other store _ _ r hk, ?_⟩
  intro env config store timestamp isLast r ht hr
  subst ht
  rcases hr with hr | hr
  · rcases checkSingleDomain_cases env config store d1 timestamp with
      ⟨err, _, e⟩ | ⟨record, _, _, e⟩ | ⟨record, last, _, _, _, e⟩
        | ⟨record, last, _, _, _, e⟩
    all_goals
      rw [e] at hr
      cases hr
      first
        | rfl
        | exact Store.get_put_other store _ _ _ hk
  · rcases checkDomainInGroup_cases env config store d1 isLast with
      ⟨err, _, e⟩ | ⟨record, _, _, e⟩ | ⟨record, last, _, _, _, e⟩
        | ⟨record, last, _, _, _, e⟩
    all_goals
      rw [e] at hr
      cases hr
      first
        | rfl
        | exact Store.get_put_other store _ _ _ hk

/-- C22 at two targets that differ in the record type only, and at a domain that
itself holds a colon. -/
theorem C22_store_key_witness :
    (isValidRecordType "A" = true ∧ isValidRecordType "AAAA" = true)
    ∧ ("a:A" ++ ":" ++ "A" = "a" ++ ":" ++ "AAAA" ↔ ("a:A" = "a" ∧ "A" = "AAAA"))
    ∧ "a:A" ++ ":" ++ "A" ≠ "a" ++ ":" ++ "AAAA" :=
  ⟨⟨by decide, by decide⟩,
   (C22_store_key_injective "a:A" "a" "A" "AAAA" (by decide) (by decide)).1,
   by decide⟩

/-! ## The interval of a returned configuration -/

theorem applyOpts_append (toUpper : String → String) (a b : List Opt) :
    ∀ config : Config, applyOpts toUpper config (a ++ b) =
      match applyOpts toUpper config a with
      | .error err => .error err
      | .ok c => applyOpts toUpper c b := by
  induction a with
  | nil => intro config; rfl
  | cons opt a ih =>
    intro config
    simp only [List.cons_append, applyOpts]
    cases applyOpt toUpper config opt with
    | error e => rfl
    | ok c1 => exact ih c1

/-- Options other than the interval leave `Interval` as it was. -/
theorem applyOpts_interval_kept (toUpper : String → String) (opts : List Opt) :
    ∀ (config c : Config), applyOpts toUpper config opts = .ok c →
      (∀ v, Opt.interval v ∉ opts) → c.Interval = config.Interval := by
  induction opts with
  | nil =>
    intro config c h _
    simp only [applyOpts, Except.ok.injEq] at h
    rw [h]
  | cons opt opts ih =>
    intro config c h hno
    rw [applyOpts] at h
    cases ha : applyOpt toUpper config opt with
    | error e => rw [ha] at h; cases h
    | ok c1 =>
      rw [ha] at h
      have h1 := ih c1 c h (fun v hv => hno v (List.mem_cons_of_mem _ hv))
      rw [h1]
      cases opt with
      | interval v => exact absurd (List.mem_cons_self _ _) (hno v)
      | _ =>
        simp only [applyOpt, Except.ok.injEq] at ha
        rw [← ha]

/-- The last interval option read gives `Interval`. -/
theorem applyOpts_interval_last (toUpper : String → String) (pre post : List Opt)
    (v : String) (config c : Config)
    (h : applyOpts toUpper config (pre ++ Opt.interval v :: post) = .ok c)
    (hno : ∀ w, Opt.interval w ∉ post) : parseDuration v = .ok c.Interval := by
  rw [applyOpts_append] at h
  cases h1 : applyOpts toUpper config pre with
  | error e => rw [h1] at h; cases h
  | ok c1 =>
    rw [h1] at h
    simp only [applyOpts, applyOpt] at h
    cases hp : parseDuration v with
    | error e => rw [hp] at h; cases h
    | ok d =>
      rw [hp] at h
      simp only at h
      rw [applyOpts_interval_kept toUpper post _ c h hno]

/-- The configuration `ParseArgs` returns has the `Interval` the options gave. -/
theorem ParseArgs_interval (toUpper : String → String) (args : List String) (c : Config)
    (h : ParseArgs toUpper args = .ok c) :
    ∃ c0, applyOpts toUpper { RecordType := "A", Interval := 5 * Second, Servers := [] }
        (scanArgs (args.drop 1)).1 = .ok c0 ∧ c.Interval = c0.Interval := by
  obtain ⟨c0, h0, hc⟩ := ParseArgs_ok_cases toUpper args c h
  refine ⟨c0, h0, ?_⟩
  rcases hc with ⟨_, e⟩ | ⟨_, e⟩ | ⟨d, rest, _, _, e⟩ <;> rw [e]

/-- The duration of a positive numeral with a unit, when it fits in 64 bits. -/
theorem parseDuration_positive (numeral suffix : String) (unit n : Int)
    (hs : (suffix = "" ∧ unit = Second) ∨ (suffix = "s" ∧ unit = Second)
      ∨ (suffix = "m" ∧ unit = Minute) ∨ (suffix = "h" ∧ unit = Hour))
    (ha : Atoi numeral = .ok n) (hn : 0 < n) (hfit : n * unit < 2 ^ 63) :
    parseDuration (numeral ++ suffix) = .ok (n * unit) ∧ 0 < n * unit := by
  have hu : 0 < unit := by
    rcases hs with ⟨_, e⟩ | ⟨_, e⟩ | ⟨_, e⟩ | ⟨_, e⟩ <;> rw [e] <;> decide
  have hpos : 0 < n * unit := Int.mul_pos hn hu
  have hw : wrap64 (n * unit) = n * unit := wrap64_of_fits _ (by omega) hfit
  refine ⟨?_, hpos⟩
  rcases hs with ⟨e1, e2⟩ | ⟨e1, e2⟩ | ⟨e1, e2⟩ | ⟨e1, e2⟩ <;> subst e1 <;> subst e2
  · rw [String.append_empty, parseDuration_bare numeral n ha, hw]
  · rw [parseDuration_suffix_s, ha]
    simp only
    rw [hw]
  · rw [parseDuration_suffix_m, ha]
    simp only
    rw [hw]
  · rw [parseDuration_suffix_h, ha]
    simp only
    rw [hw]

/-- Where the `Interval` of a returned config comes from: it is 5 seconds when no
`-i`/`--interval` option was read, and otherwise the duration `parseDuration` gives
for the value of the last such option read; `ParseArgs` makes no other check of it.
For the numeral of a strictly positive integer, bare or followed by `s`, `m` or
`h`, whose duration in nanoseconds fits in 64 bits, that duration is positive. -/
theorem ParseArgs_interval_of_options (toUpper : String → String) (args : List String) (c : Config)
    (h : ParseArgs toUpper args = .ok c) :
    ((∀ v, Opt.interval v ∉ (scanArgs (args.drop 1)).1) →
      c.Interval = 5 * Second ∧ 0 < c.Interval ∧ NewTicker c.Interval = some ())
    ∧ (∀ pre v post, (scanArgs (args.drop 1)).1 = pre ++ Opt.interval v :: post →
        (∀ w, Opt.interval w ∉ post) →
        parseDuration v = .ok c.Interval
        ∧ ∀ (numeral suffix : String) (unit n : Int), v = numeral ++ suffix →
            ((suffix = "" ∧ unit = Second) ∨ (suffix = "s" ∧ unit = Second)
              ∨ (suffix = "m" ∧ unit = Minute) ∨ (suffix = "h" ∧ unit = Hour)) →
            Atoi numeral = .ok n → 0 < n → n * unit < 2 ^ 63 →
            c.Interval = n * unit ∧ 0 < c.Interval ∧ NewTicker c.Interval = some ()) := by
  obtain ⟨c0, h0, hc⟩ := ParseArgs_interval toUpper args c h
  refine ⟨fun hno => ?_, fun pre v post hsplit hno => ?_⟩
  · have e := applyOpts_interval_kept toUpper _ _ c0 h0 hno
    simp only at e
    have hi : c.Interval = 5 * Second := by rw [hc, e]
    have hp : (0 : Int) < 5 * Second := by decide
    rw [hi]
    exact ⟨rfl, hp, by simp [NewTicker, hp]⟩
  · rw [hsplit] at h0
    have hv := applyOpts_interval_last toUpper pre post v _ c0 h0 hno
    rw [← hc] at hv
    refine ⟨hv, ?_⟩
    intro numeral suffix unit n e hs ha hn hfit
    obtain ⟨hd, hpos⟩ := parseDuration_positive numeral suffix unit n hs ha hn hfit
    rw [← e, hv] at hd
    have hi : c.Interval = n * unit := by
      simpa using hd
    rw [hi]
    exact ⟨rfl, hpos, by simp [NewTicker, hpos]⟩

/-- The interval at `-i 30s`: thirty seconds. -/
theorem ParseArgs_interval_of_options_example :
    ParseArgs asciiUpper ["dns-monitor", "-i", "30s", "example.com"] =
      .ok { Domains := ["example.com"], RecordType := "A", Interval := 30 * Second,
            Servers := [] }
    ∧ parseDuration "30s" = .ok (30 * Second)
    ∧ (30 : Int) * Second = 30 * Second ∧ (0 : Int) < 30 * Second
    ∧ NewTicker (30 * Second) = some () :=
  ⟨by decide,
   ((ParseArgs_interval_of_options asciiUpper ["dns-monitor", "-i", "30s", "example.com"]
      { Domains := ["example.com"], RecordType := "A", Interval := 30 * Second,
        Servers := [] } (by decide)).2 [] "30s" [] (by decide) (by simp)).1,
   ((ParseArgs_interval_of_options asciiUpper ["dns-monitor", "-i", "30s", "example.com"]
      { Domains := ["example.com"], RecordType := "A", Interval := 30 * Second,
        Servers := [] } (by decide)).2 [] "30s" [] (by decide) (by simp)).2
      "30" "s" Second 30 rfl (Or.inr (Or.inl ⟨rfl, rfl⟩)) (by decide) (by decide)
      (by decide)⟩

/-- C23, which the code does not keep: the claim is that every config `ParseArgs`
returns without error has a strictly positive `Interval`, as the ticker of `Start`
requires. `ParseArgs` accepts `-i 0`, `-i -5s` and `-i 36028797018963968s` (whose
product with the second wraps to zero in 64 bits): the returned configs have the
intervals 0, -5000000000 and 0, and `NewTicker` panics on each of them. -/
theorem C23_nonpositive_interval_accepted :
    ParseArgs asciiUpper ["dns-monitor", "-i", "0", "example.com"] =
      .ok { Domains := ["example.com"], RecordType := "A", Interval := 0, Servers := [] }
    ∧ NewTicker 0 = none
    ∧ ParseArgs asciiUpper ["dns-monitor", "-i", "-5s", "example.com"] =
      .ok { Domains := ["example.com"], RecordType := "A", Interval := -5000000000,
            Servers := [] }
    ∧ NewTicker (-5000000000) = none
    ∧ ParseArgs asciiUpper ["dns-monitor", "-i", "36028797018963968s", "example.com"] =
      .ok { Domains := ["example.com"], RecordType := "A", Interval := 0, Servers := [] } := by
  decide

/-! ## The server list of the client -/

/-- The method with its receiver is the dispatch the checks use. -/
theorem clientQuery_eq (c : DNSClient) (env : Env) (domain recordType : String) :
    c.Query env domain recordType = Query env domain recordType := rfl

theorem checkSingleDomain_servers (env : Env) (config : Config) (servers : List String)
    (all : Bool) (store : Store) (domain timestamp : String) :
    checkSingleDomain env { config with Servers := servers, AllServers := all } store domain
        timestamp = checkSingleDomain env config store domain timestamp := rfl

theorem checkDomainInGroup_servers (env : Env) (config : Config) (servers : List String)
    (all : Bool) (store : Store) (domain : String) (isLast : Bool) :
    checkDomainInGroup env { config with Servers := servers, AllServers := all } store domain
        isLast = checkDomainInGroup env config store domain isLast := rfl

theorem checkGroupLoop_servers (env : Env) (config : Config) (servers : List String)
    (all : Bool) (n : Nat) :
    ∀ (ds : List String) (i : Nat) (hasChanges : Bool) (store : Store),
      checkGroupLoop env { config with Servers := servers, AllServers := all } n i ds
          hasChanges store = checkGroupLoop env config n i ds hasChanges store := by
  intro ds
  induction ds with
  | nil => intro i hasChanges store; rfl
  | cons d ds ih =>
    intro i hasChanges store
    simp only [checkGroupLoop, checkDomainInGroup_servers]
    cases checkDomainInGroup env config store d (i == n - 1) with
    | none => rfl
    | some r => simp only [ih]

theorem checkDomains_servers (env : Env) (config : Config) (servers : List String)
    (all : Bool) (store : Store) (timestamp : String) :
    checkDomains env { config with Servers := servers, AllServers := all } store timestamp
      = checkDomains env config store timestamp := by
  unfold checkDomains
  simp only [checkSingleDomain_servers, checkGroupLoop_servers]

/-- C24: with the same answers of the platform resolver, `Query` returns the same
result on any two clients, whatever their server lists and timeouts, in particular
on the clients `NewDNSClient` makes from any two server lists (the empty list being
stored as the default `8.8.8.8:53`); the client that `NewMonitor` makes for a config
returns the same result when the config's `Servers` and `AllServers` are changed, and
a whole tick of the monitor is the same too. -/
theorem C24_servers_have_no_influence (env : Env) (domain recordType : String) :
    (∀ c1 c2 : DNSClient,
      c1.Query env domain recordType = c2.Query env domain recordType)
    ∧ (∀ (servers1 servers2 : List String) (timeout1 timeout2 : Int),
        (NewDNSClient servers1 timeout1).Query env domain recordType
          = (NewDNSClient servers2 timeout2).Query env domain recordType)
    ∧ (∀ timeout : Int, (NewDNSClient [] timeout).servers = ["8.8.8.8:53"])
    ∧ (∀ (s : String) (servers : List String) (timeout : Int),
        (NewDNSClient (s :: servers) timeout).servers = s :: servers)
    ∧ (∀ (config : Config) (servers : List String) (all : Bool),
        (newMonitorClient { config with Servers := servers, AllServers := all }).Query env
            domain recordType = (newMonitorClient config).Query env domain recordType
        ∧ (newMonitorClient config).Query env domain recordType
            = Query env domain recordType
        ∧ ∀ (store : Store) (timestamp : String),
            checkDomains env { config with Servers := servers, AllServers := all } store
                timestamp = checkDomains env config store timestamp) := by
  have hq : ∀ c : DNSClient, c.Query env domain recordType = Query env domain recordType :=
    fun c => clientQuery_eq c env domain recordType
  refine ⟨fun c1 c2 => ?_, fun s1 s2 t1 t2 => ?_, fun _ => rfl, fun _ _ _ => rfl,
    fun config servers all => ⟨?_, hq _, fun store timestamp => ?_⟩⟩
  · rw [hq c1, hq c2]
  · rw [hq (NewDNSClient s1 t1), hq (NewDNSClient s2 t2)]
  · rw [hq (newMonitorClient { config with Servers := servers, AllServers := all }),
      hq (newMonitorClient config)]
  · exact checkDomains_servers env config servers all store timestamp

/-- C24 evaluated: the same resolver answers with no server, and with the three
servers of `--all-servers`. -/
theorem C24_servers_evaluated :
    (NewDNSClient [] (5 * Second)).Query (fixedEnv [⟨[93, 184, 216, 34]⟩] [])
        "example.com" "A" = .ok ⟨"example.com", "A", ["93.184.216.34"]⟩
    ∧ (NewDNSClient ["8.8.8.8:53", "1.1.1.1:53", "1.0.0.1:53"] (5 * Second)).Query
        (fixedEnv [⟨[93, 184, 216, 34]⟩] []) "example.com" "A"
        = .ok ⟨"example.com", "A", ["93.184.216.34"]⟩ := by
  decide

/-! ## The two layouts classify alike -/

/-- The boolean and the map a check returns, by the resolver's answer and the
stored record, for both layouts. -/
theorem check_classification (env : Env) (config : Config) (store : Store)
    (domain timestamp : String) (isLast : Bool) :
    ∃ r1 r2, checkSingleDomain env config store domain timestamp = some r1
      ∧ checkDomainInGroup env config store domain isLast = some r2
      ∧ r1.changed = r2.changed ∧ r1.lastRecords = r2.lastRecords
      ∧ ((∃ err, r1.out = singleErrorReport config timestamp domain err
            ∧ r2.out = groupErrorReport config domain isLast err)
        ∨ (∃ record, r1.out = singleInitialReport config timestamp domain record
            ∧ r2.out = groupInitialReport config domain isLast record)
        ∨ (∃ last record, r1.out = singleChangedReport config timestamp domain last record
            ∧ r2.out = groupChangedReport config domain isLast last record)
        ∨ (∃ record, r1.out = singleUnchangedReport config timestamp domain record
            ∧ r2.out = groupUnchangedReport config domain isLast record)) := by
  simp only [checkSingleDomain, checkDomainInGroup]
  cases Query env domain config.RecordType with
  | error err => exact ⟨_, _, rfl, rfl, rfl, rfl, Or.inl ⟨err, rfl, rfl⟩⟩
  | ok record =>
    cases store.get (domain ++ ":" ++ config.RecordType) with
    | none => exact ⟨_, _, rfl, rfl, rfl, rfl, Or.inr (Or.inl ⟨record, rfl, rfl⟩)⟩
    | some last =>
      simp only [Equals_eq_decide]
      by_cases h : record = last
      · simp only [h, decide_True]
        exact ⟨_, _, rfl, rfl, rfl, rfl, Or.inr (Or.inr (Or.inr ⟨last, rfl, rfl⟩))⟩
      · simp only [h, decide_False]
        exact ⟨_, _, rfl, rfl, rfl, rfl, Or.inr (Or.inr (Or.inl ⟨last, record, rfl, rfl⟩))⟩

/-- C25: on the same domain, record type, map and resolver answer, the check of
the single-domain layout and the check of the multi-domain layout, for either value
of `isLast`, both return, with the same boolean and the same map afterwards, and
with the reports of the same outcome (Error, Initial, Changed or Unchanged); the
value of `isLast` changes neither. -/
theorem C25_layouts_classify_alike (env : Env) (config : Config) (store : Store)
    (domain timestamp : String) (isLast : Bool) :
    (∃ r1 r2, checkSingleDomain env config store domain timestamp = some r1
      ∧ checkDomainInGroup env config store domain isLast = some r2
      ∧ r1.changed = r2.changed ∧ r1.lastRecords = r2.lastRecords
      ∧ ((∃ err, r1.out = singleErrorReport config timestamp domain err
            ∧ r2.out = groupErrorReport config domain isLast err)
        ∨ (∃ record, r1.out = singleInitialReport config timestamp domain record
            ∧ r2.out = groupInitialReport config domain isLast record)
        ∨ (∃ last record, r1.out = singleChangedReport config timestamp domain last record
            ∧ r2.out = groupChangedReport config domain isLast last record)
        ∨ (∃ record, r1.out = singleUnchangedReport config timestamp domain record
            ∧ r2.out = groupUnchangedReport config domain isLast record)))
    ∧ (checkDomainInGroup env config store domain true).map
          (fun r => (r.changed, r.lastRecords))
        = (checkDomainInGroup env config store domain false).map
          (fun r => (r.changed, r.lastRecords)) := by
  refine ⟨check_classification env config store domain timestamp isLast, ?_⟩
  obtain ⟨r1, r2, h1, h2, hc, hl, _⟩ :=
    check_classification env config store domain timestamp true
  obtain ⟨r1b, r3, h1b, h3, hcb, hlb, _⟩ :=
    check_classification env config store domain timestamp false
  rw [h1] at h1b
  cases h1b
  rw [h2, h3]
  simp only [Option.map_some']
  rw [← hc, ← hl, hcb, hlb]

/-- C25 evaluated on a changed address: both layouts report the change and differ
in the text only. -/
theorem C25_layouts_evaluated :
    (checkSingleDomain (fixedEnv [⟨[93, 184, 216, 34]⟩] [])
        { Domains := ["a.example"], RecordType := "A", NoColor := true }
        (Store.empty.put "a.example:A" ⟨"a.example", "A", ["10.0.0.1"]⟩)
        "a.example" "t2").map (fun r => (r.changed, stdoutTexts r.out)) =
      some (true, ["[t2] a.example (A) - CHANGE DETECTED:\n", "  Before: [10.0.0.1]\n",
                   "  After:  [93.184.216.34]\n"])
    ∧ (checkDomainInGroup (fixedEnv [⟨[93, 184, 216, 34]⟩] [])
        { Domains := ["a.example"], RecordType := "A", NoColor := true }
        (Store.empty.put "a.example:A" ⟨"a.example", "A", ["10.0.0.1"]⟩)
        "a.example" true).map (fun r => (r.changed, stdoutTexts r.out)) =
      some (true, ["└─ a.example (A): [10.0.0.1] → [93.184.216.34] (CHANGED)\n"]) := by
  decide

/-! ## The display of a multi-domain tick -/

theorem groupDisplay_append (sink : LogSink) (a b : List Output) :
    groupDisplay sink (a ++ b) = groupDisplay sink a ++ groupDisplay sink b := by
  simp [groupDisplay, List.flatMap_append]

theorem groupDisplay_file (out : List Output) :
    groupDisplay .file out = stdoutTexts out := by
  induction out with
  | nil => rfl
  | cons o rest ih =>
    have h : groupDisplay .file (o :: rest) =
        groupDisplay .file [o] ++ groupDisplay .file rest :=
      groupDisplay_append .file [o] rest
    have h2 : stdoutTexts (o :: rest) = stdoutTexts [o] ++ stdoutTexts rest :=
      stdoutTexts_append [o] rest
    rw [h, h2, ih]
    cases o <;> rfl

theorem groupDisplay_flatten (sink : LogSink) (results : List CheckResult) :
    groupDisplay sink ((results.map (fun r => r.out)).flatten) =
      (results.map (fun r => groupDisplay sink r.out)).flatten := by
  induction results with
  | nil => rfl
  | cons r rs ih =>
    simp only [List.map_cons, List.flatten_cons, groupDisplay_append, ih]

/-- The display line and the log entry of one check of the multi-domain layout,
by outcome. -/
theorem checkDomainInGroup_lines (env : Env) (config : Config) (store : Store)
    (domain : String) (isLast : Bool) (r : CheckResult)
    (h : checkDomainInGroup env config store domain isLast = some r) :
    ∃ (tail color : String) (e : List String),
      stdoutTexts r.out = [coloredText config (groupPrefix isLast ++ " " ++ domain ++ tail) color]
      ∧ groupDisplay .stdout r.out =
          coloredText config (groupPrefix isLast ++ " " ++ domain ++ tail) color :: e
      ∧ ((∃ err, tail = " (" ++ config.RecordType ++ "): ERROR - " ++ err
            ∧ color = ColorYellow
            ∧ e = [logLine ("ERROR: " ++ domain ++ " (" ++ config.RecordType ++ ") - " ++ err)])
        ∨ (∃ record : DNSRecord, tail = " (" ++ config.RecordType ++ "): " ++ record.String ++ " (initial)"
            ∧ color = ColorGreen
            ∧ e = [logLine ("INITIAL: " ++ domain ++ " (" ++ config.RecordType ++ ") - "
                ++ record.String)])
        ∨ (∃ last record : DNSRecord, tail = " (" ++ config.RecordType ++ "): " ++ last.String ++ " → "
              ++ record.String ++ " (CHANGED)"
            ∧ color = ColorRed
            ∧ e = [logLine ("CHANGE: " ++ domain ++ " (" ++ config.RecordType ++ ") - "
                ++ last.String ++ " → " ++ record.String)])
        ∨ (∃ record : DNSRecord, tail = " (" ++ config.RecordType ++ "): " ++ record.String
              ++ " (no change)"
            ∧ color = ColorGreen ∧ e = [])) := by
  rcases checkDomainInGroup_cases env config store domain isLast with
    ⟨err, hq, e⟩ | ⟨record, hq, hs, e⟩ | ⟨record, last, hq, hs, he, e⟩
      | ⟨record, last, hq, hs, he, e⟩
  · rw [e] at h
    cases h
    refine ⟨_, _, _, ?_, ?_, Or.inl ⟨err, rfl, rfl, rfl⟩⟩
    · simp [stdoutTexts, groupErrorReport, printColored_eq, String.append_assoc]
    · simp [groupDisplay, groupErrorReport, printColored_eq, String.append_assoc]
  · rw [e] at h
    cases h
    refine ⟨_, _, _, ?_, ?_, Or.inr (Or.inl ⟨record, rfl, rfl, rfl⟩)⟩
    · simp [stdoutTexts, groupInitialReport, printColored_eq, String.append_assoc]
    · simp [groupDisplay, groupInitialReport, printColored_eq, String.append_assoc]
  · rw [e] at h
    cases h
    refine ⟨_, _, _, ?_, ?_, Or.inr (Or.inr (Or.inl ⟨last, record, rfl, rfl, rfl⟩))⟩
    · simp [stdoutTexts, groupChangedReport, printColored_eq, String.append_assoc]
    · simp [groupDisplay, groupChangedReport, printColored_eq, String.append_assoc]
  · rw [e] at h
    cases h
    refine ⟨_, _, _, ?_, ?_, Or.inr (Or.inr (Or.inr ⟨record, rfl, rfl, rfl⟩))⟩
    · simp [stdoutTexts, groupUnchangedReport, printColored_eq, String.append_assoc]
    · simp [groupDisplay, groupUnchangedReport, printColored_eq, String.append_assoc]

theorem groupDisplay_blocks (results : List CheckResult)
    (h : ∀ r ∈ results, ∃ t e, stdoutTexts r.out = [t] ∧ groupDisplay .stdout r.out = t :: e) :
    results.map (fun r => groupDisplay .stdout r.out) =
      List.zipWith (fun l e => l :: e) (results.map (fun r => (stdoutTexts r.out).headD ""))
        (results.map (fun r => (groupDisplay .stdout r.out).tail)) := by
  induction results with
  | nil => rfl
  | cons r rs ih =>
    obtain ⟨t, e, h1, h2⟩ := h r (List.mem_cons_self _ _)
    simp only [List.map_cons, List.zipWith_cons_cons, h1, h2, List.headD_cons, List.tail_cons,
      ih (fun r' hr' => h r' (List.mem_cons_of_mem _ hr'))]

theorem groupPrefix_index (i n : Nat) :
    groupPrefix (i == n - 1) = if i + 1 = n then "└─" else
      if i = n - 1 then "└─" else "├─" := by
  by_cases h1 : i + 1 = n
  · have h3 : i = n - 1 := by omega
    simp [groupPrefix, h1, h3]
  · by_cases h3 : i = n - 1
    · simp [groupPrefix, h1, h3]
    · simp [groupPrefix, h1, h3]

/-- One multi-domain tick, as the texts written through `fmt` and as the standard
output with the logger on it. -/
theorem checkDomains_group_display (env : Env) (config : Config) (store : Store)
    (timestamp : String) (hn : 2 ≤ config.Domains.length) :
    ∃ (final : CheckResult) (lines : List String) (entries : List (List String)),
      checkDomains env config store timestamp = some final
      ∧ lines.length = config.Domains.length ∧ entries.length = config.Domains.length
      ∧ groupDisplay .file final.out = ("[" ++ timestamp ++ "]\n") :: (lines ++ ["\n"])
      ∧ groupDisplay .stdout final.out = ("[" ++ timestamp ++ "]\n") ::
          ((List.zipWith (fun l e => l :: e) lines entries).flatten ++ ["\n"])
      ∧ ∀ i d, config.Domains[i]? = some d → ∃ (tail color : String) (e : List String),
          lines[i]? = some (coloredText config
            ((if i + 1 = config.Domains.length then "└─" else "├─") ++ " " ++ d ++ tail) color)
          ∧ entries[i]? = some e
          ∧ ((∃ err, tail = " (" ++ config.RecordType ++ "): ERROR - " ++ err
                ∧ color = ColorYellow
                ∧ e = [logLine ("ERROR: " ++ d ++ " (" ++ config.RecordType ++ ") - " ++ err)])
            ∨ (∃ record : DNSRecord,
                tail = " (" ++ config.RecordType ++ "): " ++ record.String ++ " (initial)"
                ∧ color = ColorGreen
                ∧ e = [logLine ("INITIAL: " ++ d ++ " (" ++ config.RecordType ++ ") - "
                    ++ record.String)])
            ∨ (∃ last record : DNSRecord,
                tail = " (" ++ config.RecordType ++ "): " ++ last.String ++ " → "
                  ++ record.String ++ " (CHANGED)"
                ∧ color = ColorRed
                ∧ e = [logLine ("CHANGE: " ++ d ++ " (" ++ config.RecordType ++ ") - "
                    ++ last.String ++ " → " ++ record.String)])
            ∨ (∃ record : DNSRecord,
                tail = " (" ++ config.RecordType ++ "): " ++ record.String ++ " (no change)"
                ∧ color = ColorGreen ∧ e = [])) := by
  obtain ⟨results, final, hfin, hlen, hall, _, _, hout⟩ :=
    checkDomains_spec env config store timestamp
  have hne : config.Domains.length ≠ 1 := by omega
  have hdisp : ∀ i d, config.Domains[i]? = some d → ∃ r, results[i]? = some r ∧
      checkDomainInGroup env config (storeBefore store results i) d
        (i == config.Domains.length - 1) = some r := by
    intro i d hi
    obtain ⟨r, h1, h2⟩ := hall i d hi
    rcases h2 with ⟨h2, _⟩ | ⟨_, h2⟩
    · exact absurd h2 hne
    · exact ⟨r, h1, h2⟩
  have hsing : ∀ r ∈ results, ∃ t e, stdoutTexts r.out = [t]
      ∧ groupDisplay .stdout r.out = t :: e := by
    intro r hr
    obtain ⟨i, hi⟩ := List.mem_iff_getElem?.1 hr
    have hil : i < config.Domains.length := by
      rw [← hlen]
      exact (List.getElem?_eq_some_iff.1 hi).1
    obtain ⟨r', h1, h2⟩ := hdisp i _ (List.getElem?_eq_getElem hil)
    rw [hi] at h1
    cases h1
    obtain ⟨tail, color, e, h3, h4, _⟩ := checkDomainInGroup_lines env config _ _ _ r h2
    exact ⟨_, e, h3, h4⟩
  refine ⟨final, results.map (fun r => (stdoutTexts r.out).headD ""),
    results.map (fun r => (groupDisplay .stdout r.out).tail), hfin, by simp [hlen],
    by simp [hlen], ?_, ?_, ?_⟩
  · rw [groupDisplay_file, hout, if_neg hne, stdoutTexts_append, stdoutTexts_append,
      stdoutTexts_flatten results (fun r hr => by
        obtain ⟨t, _, ht, _⟩ := hsing r hr
        exact ⟨t, ht⟩)]
    rfl
  · rw [hout, if_neg hne, groupDisplay_append, groupDisplay_append, groupDisplay_flatten,
      groupDisplay_blocks results hsing]
    rfl
  · intro i d hi
    obtain ⟨r, h1, h2⟩ := hdisp i d hi
    obtain ⟨tail, color, e, h3, h4, h5⟩ := checkDomainInGroup_lines env config _ _ _ r h2
    refine ⟨tail, color, e, ?_, ?_, h5⟩
    · rw [groupPrefix_index] at h3
      have h6 : (if i + 1 = config.Domains.length then "└─" else
          if i = config.Domains.length - 1 then "└─" else "├─") =
          (if i + 1 = config.Domains.length then "└─" else "├─") := by
        by_cases hi1 : i + 1 = config.Domains.length
        · simp [hi1]
        · have h7 : i ≠ config.Domains.length - 1 := by omega
          simp [hi1, h7]
      rw [h6] at h3
      simp [h1, h3]
    · simp [h1, h4]

/-- C19 (amended): with two or more domains, what one tick writes through `fmt` is
the timestamp header, then one line per domain in the order of the list, then one
empty line; this is the whole display when the logger writes to the output file.
With the logger on the standard output, as `NewMonitor` leaves it unless `-o` names
a file that opens, the display holds in addition, directly after the line of each
domain, the log entry of that domain for the outcomes Error, Initial and Changed,
and nothing for the outcome Unchanged. The line of the domain at index `i` is the
text `printColored` makes of a message that starts with `└─` when `i` is the last
index and with `├─` otherwise, followed by a blank and the domain, for every
outcome: with `NoColor` set the line starts with the marker, otherwise the colour
code stands before it. With exactly one domain the tick writes what
`checkSingleDomain` writes: no header, marker or empty line. -/
theorem C19_group_layout (env : Env) (config : Config) (store : Store) (timestamp : String) :
    (2 ≤ config.Domains.length →
      ∃ (final : CheckResult) (lines : List String) (entries : List (List String)),
        checkDomains env config store timestamp = some final
        ∧ lines.length = config.Domains.length ∧ entries.length = config.Domains.length
        ∧ groupDisplay .file final.out = ("[" ++ timestamp ++ "]\n") :: (lines ++ ["\n"])
        ∧ groupDisplay .stdout final.out = ("[" ++ timestamp ++ "]\n") ::
            ((List.zipWith (fun l e => l :: e) lines entries).flatten ++ ["\n"])
        ∧ ∀ i d, config.Domains[i]? = some d → ∃ (tail color : String) (e : List String),
            lines[i]? = some (coloredText config
              ((if i + 1 = config.Domains.length then "└─" else "├─") ++ " " ++ d ++ tail)
              color)
            ∧ entries[i]? = some e
            ∧ ((∃ err, tail = " (" ++ config.RecordType ++ "): ERROR - " ++ err
                  ∧ color = ColorYellow
                  ∧ e = [logLine ("ERROR: " ++ d ++ " (" ++ config.RecordType ++ ") - "
                      ++ err)])
              ∨ (∃ record : DNSRecord,
                  tail = " (" ++ config.RecordType ++ "): " ++ record.String ++ " (initial)"
                  ∧ color = ColorGreen
                  ∧ e = [logLine ("INITIAL: " ++ d ++ " (" ++ config.RecordType ++ ") - "
                      ++ record.String)])
              ∨ (∃ last record : DNSRecord,
                  tail = " (" ++ config.RecordType ++ "): " ++ last.String ++ " → "
                    ++ record.String ++ " (CHANGED)"
                  ∧ color = ColorRed
                  ∧ e = [logLine ("CHANGE: " ++ d ++ " (" ++ config.RecordType ++ ") - "
                      ++ last.String ++ " → " ++ record.String)])
              ∨ (∃ record : DNSRecord,
                  tail = " (" ++ config.RecordType ++ "): " ++ record.String
                    ++ " (no change)"
                  ∧ color = ColorGreen ∧ e = [])))
    ∧ (∀ fileOpens : Bool, newMonitorLogSink config fileOpens = .file ↔
        (config.OutputFile ≠ "" ∧ fileOpens = true))
    ∧ (∀ d, config.Domains = [d] →
        checkDomains env config store timestamp =
          checkSingleDomain env config store d timestamp
        ∧ ∃ r, checkSingleDomain env config store d timestamp = some r ∧
          ((∃ err, r.out = singleErrorReport config timestamp d err)
          ∨ (∃ record, r.out = singleInitialReport config timestamp d record)
          ∨ (∃ last record, r.out = singleChangedReport config timestamp d last record)
          ∨ (∃ record, r.out = singleUnchangedReport config timestamp d record)))
    ∧ (config.NoColor = true → ∀ message color,
        coloredText config message color = message ++ "\n")
    ∧ (config.NoColor = false → ∀ message color,
        coloredText config message color = color ++ message ++ ColorReset ++ "\n") := by
  refine ⟨checkDomains_group_display env config store timestamp, ?_, ?_, ?_, ?_⟩
  · intro fileOpens
    by_cases ho : config.OutputFile = ""
    · simp [newMonitorLogSink, ho]
    · cases fileOpens <;> simp [newMonitorLogSink, ho]
  · intro d hd
    refine ⟨checkDomains_single env config store d timestamp hd, ?_⟩
    rcases checkSingleDomain_cases env config store d timestamp with
      ⟨err, _, e⟩ | ⟨record, _, _, e⟩ | ⟨record, last, _, _, _, e⟩
        | ⟨record, last, _, _, _, e⟩
    · exact ⟨_, e, Or.inl ⟨err, rfl⟩⟩
    · exact ⟨_, e, Or.inr (Or.inl ⟨record, rfl⟩)⟩
    · exact ⟨_, e, Or.inr (Or.inr (Or.inl ⟨last, record, rfl⟩))⟩
    · exact ⟨_, e, Or.inr (Or.inr (Or.inr ⟨record, rfl⟩))⟩
  · intro hc message color
    simp [coloredText, hc]
  · intro hc message color
    simp [coloredText, hc]

/-- C19 at a list of two domains with `NoColor` set, on the first tick. -/
theorem C19_group_layout_witness :
    2 ≤ twoDomainConfig.Domains.length
    ∧ ∃ (final : CheckResult) (lines : List String) (entries : List (List String)),
        checkDomains (fixedEnv [⟨[93, 184, 216, 34]⟩] []) twoDomainConfig Store.empty "t1"
          = some final
        ∧ lines.length = twoDomainConfig.Domains.length
        ∧ entries.length = twoDomainConfig.Domains.length
        ∧ groupDisplay .file final.out = ("[" ++ "t1" ++ "]\n") :: (lines ++ ["\n"])
        ∧ groupDisplay .stdout final.out = ("[" ++ "t1" ++ "]\n") ::
            ((List.zipWith (fun l e => l :: e) lines entries).flatten ++ ["\n"])
        ∧ ∀ i d, twoDomainConfig.Domains[i]? = some d →
            ∃ (tail color : String) (e : List String),
            lines[i]? = some (coloredText twoDomainConfig
              ((if i + 1 = twoDomainConfig.Domains.length then "└─" else "├─") ++ " " ++ d
                ++ tail) color)
            ∧ entries[i]? = some e
            ∧ ((∃ err, tail = " (" ++ twoDomainConfig.RecordType ++ "): ERROR - " ++ err
                  ∧ color = ColorYellow
                  ∧ e = [logLine ("ERROR: " ++ d ++ " (" ++ twoDomainConfig.RecordType
                      ++ ") - " ++ err)])
              ∨ (∃ record : DNSRecord,
                  tail = " (" ++ twoDomainConfig.RecordType ++ "): " ++ record.String
                    ++ " (initial)"
                  ∧ color = ColorGreen
                  ∧ e = [logLine ("INITIAL: " ++ d ++ " (" ++ twoDomainConfig.RecordType
                      ++ ") - " ++ record.String)])
              ∨ (∃ last record : DNSRecord,
                  tail = " (" ++ twoDomainConfig.RecordType ++ "): " ++ last.String ++ " → "
                    ++ record.String ++ " (CHANGED)"
                  ∧ color = ColorRed
                  ∧ e = [logLine ("CHANGE: " ++ d ++ " (" ++ twoDomainConfig.RecordType
                      ++ ") - " ++ last.String ++ " → " ++ record.String)])
              ∨ (∃ record : DNSRecord,
                  tail = " (" ++ twoDomainConfig.RecordType ++ "): " ++ record.String
                    ++ " (no change)"
                  ∧ color = ColorGreen ∧ e = [])) :=
  ⟨by decide,
   (C19_group_layout (fixedEnv [⟨[93, 184, 216, 34]⟩] []) twoDomainConfig Store.empty
      "t1").1 (by decide)⟩

/-- C19 evaluated with `NoColor` set, two domains, the first tick: the display
with the logger on a file, and with the logger on the standard output. -/
theorem C19_group_layout_evaluated :
    (checkDomains (fixedEnv [⟨[93, 184, 216, 34]⟩] []) twoDomainConfig Store.empty
        "t1").map (fun r => groupDisplay .file r.out) =
      some ["[t1]\n", "├─ a.example (A): [93.184.216.34] (initial)\n",
            "└─ b.example (A): [93.184.216.34] (initial)\n", "\n"]
    ∧ (checkDomains (fixedEnv [⟨[93, 184, 216, 34]⟩] []) twoDomainConfig Store.empty
        "t1").map (fun r => groupDisplay .stdout r.out) =
      some ["[t1]\n", "├─ a.example (A): [93.184.216.34] (initial)\n",
            "INITIAL: a.example (A) - [93.184.216.34]\n",
            "└─ b.example (A): [93.184.216.34] (initial)\n",
            "INITIAL: b.example (A) - [93.184.216.34]\n", "\n"] := by
  decide

/-- C19 as stated fails on the default configuration (no `-o`, colours on): the
logger writes to the standard output, so the first tick on two domains shows six
lines, the log entry of each domain after its line, and the line of a domain
starts with the colour code, not with the marker. -/
theorem C19_default_display_counterexample :
    newMonitorLogSink
        { Domains := ["a.example", "b.example"], RecordType := "A", Interval := 5 * Second,
          Servers := [] } true = .stdout
    ∧ (checkDomains (fixedEnv [⟨[93, 184, 216, 34]⟩] [])
        { Domains := ["a.example", "b.example"], RecordType := "A", Interval := 5 * Second,
          Servers := [] }
        Store.empty "t1").map (fun r => groupDisplay .stdout r.out) =
      some ["[t1]\n", "\x1b[32m├─ a.example (A): [93.184.216.34] (initial)\x1b[0m\n",
            "INITIAL: a.example (A) - [93.184.216.34]\n",
            "\x1b[32m└─ b.example (A): [93.184.216.34] (initial)\x1b[0m\n",
            "INITIAL: b.example (A) - [93.184.216.34]\n", "\n"]
    ∧ hasPrefix "\x1b[32m├─ a.example (A): [93.184.216.34] (initial)\x1b[0m\n" "├─" = false
    ∧ hasPrefix "INITIAL: a.example (A) - [93.184.216.34]\n" "├─" = false
    ∧ hasPrefix "\x1b[32m└─ b.example (A): [93.184.216.34] (initial)\x1b[0m\n" "└─" = false := by
  decide

end DnsMonitor
